import Mathlib

/-!
# chalak backend: payment acceptance and invoice reconciliation

A shallow embedding of `PaymentUseCase.AddPayment`
(`internal/usecase/payment_usecase.go`), of the entities it works on
(`internal/domain/invoice/entity.go`, `internal/domain/payment/entity.go`) and of
the error package (`pkg/errors/errors.go`), followed by the properties of the
specification that concern them. `InvoiceUseCase.Create` and
`InvoiceUseCase.MarkAsPaid` (`internal/usecase/invoice_usecase.go`) and
`AuthUseCase.Register` and `AuthUseCase.Login` (`internal/usecase/auth_usecase.go`)
are embedded the same way.

Amounts are Go `float64` values in the source, so they are embedded as IEEE 754
binary64 values with round-to-nearest-even arithmetic, not as exact numbers.
The rounding of the model is proved to be to the nearest float64 with ties to
even (`F64.round_nearest`, `F64.round_ties_even`, `F64.round_inf`).

Repositories are Go interfaces: they are embedded as records of functions, and a
call of the use case yields, with what it returns, the list of the repository
calls it made. The clock is embedded as the readings `time.Now()` gives.
-/

namespace Chalak

/-! ## float64 -/

/-- A Go `float64` (IEEE 754 binary64) value. A finite value is kept as its sign
and its magnitude counted in units of `2^-1074`, the smallest subnormal: every
finite float64 is a whole number of these units. NaN payloads are not kept, Go
code cannot tell them apart without `math.Float64bits`. -/
inductive F64 where
  | nan : F64
  | inf (neg : Bool) : F64
  | fin (neg : Bool) (n : Nat) : F64
  deriving DecidableEq, Repr

namespace F64

/-- The magnitude `2^1024`, in units of `2^-1074`: the first one too large to be finite. -/
def overflowBound : Nat := 2 ^ 2098

/-- The number of significant bits of `n`, by halving (by dividing by `2^64` while
`n` has more than 64 bits); the first argument bounds the number of divisions. -/
def bitLenAux : Nat → Nat → Nat
  | 0, _ => 0
  | fuel + 1, n =>
    if n = 0 then 0
    else if n < 2 ^ 64 then bitLenAux fuel (n / 2) + 1
    else bitLenAux fuel (n / 2 ^ 64) + 64

/-- The number of significant bits of `n`: 0 for 0, and `k + 1` when `2^k ≤ n < 2^(k+1)`. -/
def bitLen (n : Nat) : Nat := bitLenAux n n

/-- The magnitudes (in units of `2^-1074`) that a finite float64 can have: at most
53 significant bits, and below `2^1024`. -/
def representable (n : Nat) : Bool :=
  decide (n < overflowBound) && n % 2 ^ (bitLen n - 53) == 0

/-- The values of the embedding that are float64 values. -/
def isFloat64 : F64 → Bool
  | fin _ n => representable n
  | _ => true

/-- The float64 with the given 64-bit pattern, as `math.Float64frombits`:
1 sign bit, 11 exponent bits, 52 fraction bits. -/
def ofBits (b : Nat) : F64 :=
  let neg := decide (b / 2 ^ 63 % 2 = 1)
  let e := b / 2 ^ 52 % 2048
  let f := b % 2 ^ 52
  if e = 2047 then (if f = 0 then inf neg else nan)
  else if e = 0 then fin neg f
  else fin neg ((2 ^ 52 + f) * 2 ^ (e - 1))

/-- Rounding to nearest, ties to even, of the magnitude `n / d` units (`d` positive):
the result keeps 53 significant bits, or is a whole number of units when the
quotient has fewer, and a result of `2^1024` or more is infinite. -/
def round (neg : Bool) (n d : Nat) : F64 :=
  let s := bitLen (n / d) - 53
  let d1 := d * 2 ^ s
  let q := n / d1
  let r := n % d1
  let q1 := if d1 < 2 * r ∨ (2 * r = d1 ∧ q % 2 = 1) then q + 1 else q
  let m := q1 * 2 ^ s
  if m < overflowBound then fin neg m else inf neg

/-- The float64 nearest to the fraction `num / den`, as `strconv.ParseFloat` gives
for the decimal text of that fraction (`ofRatio false 66010 100` is `660.10`). -/
def ofRatio (neg : Bool) (num den : Nat) : F64 :=
  round neg (num * 2 ^ 1074) den

/-- The signed number of units of a finite value. -/
def signed (neg : Bool) (n : Nat) : Int :=
  if neg then - (n : Int) else (n : Int)

/-- Go's `x + y` on float64. -/
def add : F64 → F64 → F64
  | nan, _ => nan
  | _, nan => nan
  | inf a, inf b => if a = b then inf a else nan
  | inf a, fin _ _ => inf a
  | fin _ _, inf b => inf b
  | fin a m, fin b n =>
    let s := signed a m + signed b n
    if s = 0 then fin (a && b) 0 else round (decide (s < 0)) s.natAbs 1

/-- Go's unary `-x` on float64. -/
def neg : F64 → F64
  | nan => nan
  | inf a => inf (!a)
  | fin a n => fin (!a) n

/-- Go's `x - y` on float64. -/
def sub (x y : F64) : F64 := add x (neg y)

/-- Go's `x * y` on float64. The exact product of two finite values is
`m * n / 2^1074` units; a zero times an infinity is NaN. -/
def mul : F64 → F64 → F64
  | nan, _ => nan
  | _, nan => nan
  | inf a, inf b => inf (xor a b)
  | inf a, fin b n => if n = 0 then nan else inf (xor a b)
  | fin a m, inf b => if m = 0 then nan else inf (xor a b)
  | fin a m, fin b n => round (xor a b) (m * n) (2 ^ 1074)

/-- Go's conversion `float64(i)` of an integer: the nearest float64. -/
def ofInt (i : Int) : F64 :=
  ofRatio (decide (i < 0)) i.natAbs 1

/-- The place of a value that is not NaN in the order of float64: its signed
number of units, with the infinities beyond every finite value. -/
def key : F64 → Option Int
  | nan => none
  | inf a => some (signed a overflowBound)
  | fin a n => some (signed a n)

/-- Go's `x < y` on float64: false when either side is NaN. -/
def lt (x y : F64) : Bool :=
  match key x, key y with
  | some a, some b => decide (a < b)
  | _, _ => false

/-- Go's `x <= y` on float64: false when either side is NaN. -/
def le (x y : F64) : Bool :=
  match key x, key y with
  | some a, some b => decide (a ≤ b)
  | _, _ => false

instance : Add F64 := ⟨add⟩
instance : Sub F64 := ⟨sub⟩
instance : Neg F64 := ⟨neg⟩
instance : Mul F64 := ⟨mul⟩
instance : Zero F64 := ⟨fin false 0⟩
instance : LT F64 := ⟨fun x y => lt x y = true⟩
instance : LE F64 := ⟨fun x y => le x y = true⟩
instance (x y : F64) : Decidable (x < y) := inferInstanceAs (Decidable (lt x y = true))
instance (x y : F64) : Decidable (x ≤ y) := inferInstanceAs (Decidable (le x y = true))

end F64

/-! ## Entities -/

/-- A `uuid.UUID`: sixteen bytes, read as one number. -/
abbrev UUID := Nat

/-- A `time.Time`, as the instant it denotes: nanoseconds since the zero time
(January 1, year 1, 00:00:00 UTC). -/
structure Time where
  ns : Int
  deriving DecidableEq, Repr

namespace Time

/-- The zero value of `time.Time`. -/
def zero : Time := ⟨0⟩

/-- `t.IsZero()`. -/
def IsZero (t : Time) : Bool := decide (t.ns = 0)

/-- `t.After(u)`. -/
def After (t u : Time) : Bool := decide (u.ns < t.ns)

end Time

/-- `invoice.InvoiceItem`. -/
structure InvoiceItem where
  ID : UUID
  InvoiceID : UUID
  Description : String
  Quantity : Int
  UnitPrice : F64
  Amount : F64
  CreatedAt : Time
  UpdatedAt : Time
  DeletedAt : Option Time
  deriving DecidableEq, Repr

/-- `invoice.Invoice`. -/
structure Invoice where
  ID : UUID
  InvoiceNumber : String
  StudentID : UUID
  InstituteID : UUID
  Amount : F64
  TaxAmount : F64
  TotalAmount : F64
  PaidAmount : F64
  Status : String
  DueDate : Time
  PaidAt : Option Time
  Notes : String
  Items : List InvoiceItem
  CreatedBy : UUID
  CreatedAt : Time
  UpdatedAt : Time
  DeletedAt : Option Time
  deriving DecidableEq, Repr

def StatusPending : String := "pending"
def StatusPaid : String := "paid"
def StatusOverdue : String := "overdue"
def StatusCanceled : String := "canceled"

/-- `payment.Payment`. -/
structure Payment where
  ID : UUID
  InvoiceID : UUID
  Amount : F64
  PaymentMethod : String
  PaymentDate : Time
  Notes : String
  CreatedBy : UUID
  CreatedAt : Time
  UpdatedAt : Time
  DeletedAt : Option Time
  deriving DecidableEq, Repr

/-- `payment.CreatePaymentRequest`. -/
structure CreatePaymentRequest where
  InvoiceID : UUID
  Amount : F64
  PaymentMethod : String
  PaymentDate : Time
  Notes : String
  deriving DecidableEq, Repr

/-! ## Errors (`pkg/errors`) -/

/-- The error variables that the code compares by identity: the package-level
variables of `pkg/errors`, and `gorm.ErrRecordNotFound` of the ORM, which the
user repository returns as it is and the auth use case tests with `==`. -/
inductive Sentinel where
  | ErrNotFound
  | ErrUnauthorized
  | ErrForbidden
  | ErrBadRequest
  | ErrConflict
  | ErrInternalServer
  | ErrValidation
  | ErrDuplicateEmail
  | ErrInvalidCredentials
  | GormErrRecordNotFound
  deriving DecidableEq, Repr

/-- The text each error variable was made with. -/
def Sentinel.text : Sentinel → String
  | .ErrNotFound => "resource not found"
  | .ErrUnauthorized => "unauthorized"
  | .ErrForbidden => "forbidden"
  | .ErrBadRequest => "bad request"
  | .ErrConflict => "resource already exists"
  | .ErrInternalServer => "internal server error"
  | .ErrValidation => "validation error"
  | .ErrDuplicateEmail => "email already exists"
  | .ErrInvalidCredentials => "invalid email or password"
  | .GormErrRecordNotFound => "record not found"

/-- A non-nil Go `error` value, as far as this code base makes them:
one of the package variables, an error from elsewhere that wraps nothing,
an `fmt.Errorf("<text>: %w", inner)`, or an `*AppError` with its fields
`Err`, `Message`, `StatusCode` and `Details` (a map, kept as the list of its
keys with their texts; nil is the empty list). -/
inductive GoError where
  | sentinel (s : Sentinel) : GoError
  | other (text : String) : GoError
  | wrapf (text : String) (inner : GoError) : GoError
  | app (Err : GoError) (Message : String) (StatusCode : Int)
      (Details : List (String × String)) : GoError
  deriving DecidableEq, Repr

def StatusBadRequest : Int := 400
def StatusUnauthorized : Int := 401
def StatusForbidden : Int := 403
def StatusNotFound : Int := 404
def StatusConflict : Int := 409
def StatusInternalServerError : Int := 500

namespace GoError

/-- `err.Error()`. -/
def Error : GoError → String
  | sentinel s => s.text
  | other text => text
  | wrapf text inner => text ++ ": " ++ inner.Error
  | app Err Message _ _ => if Message ≠ "" then Message else Err.Error

/-- `errors.As(err, &appErr)` with `appErr` an `*AppError`: the first `*AppError`
on the `Unwrap` chain of `err`. -/
def asAppError : GoError → Option GoError
  | sentinel _ => none
  | other _ => none
  | wrapf _ inner => inner.asAppError
  | app Err Message StatusCode Details => some (app Err Message StatusCode Details)

/-- `errors.Is(err, target)` for a package variable `target`. -/
def is : GoError → Sentinel → Bool
  | sentinel s, target => decide (s = target)
  | other _, _ => false
  | wrapf _ inner, target => inner.is target
  | app Err _ _ _, target => Err.is target

/-- The `StatusCode` field of an `*AppError`. -/
def statusCode : GoError → Int
  | app _ _ StatusCode _ => StatusCode
  | _ => 0

end GoError

/-- `errors.New(err, message)` of `pkg/errors`. -/
def New (err : GoError) (message : String) : GoError :=
  .app err message StatusInternalServerError []

/-- `errors.NotFound(message)`. -/
def NotFound (message : String) : GoError :=
  .app (.sentinel .ErrNotFound) message StatusNotFound []

/-- `errors.Unauthorized(message)`. -/
def Unauthorized (message : String) : GoError :=
  .app (.sentinel .ErrUnauthorized) message StatusUnauthorized []

/-- `errors.BadRequest(message)`. -/
def BadRequest (message : String) : GoError :=
  .app (.sentinel .ErrBadRequest) message StatusBadRequest []

/-- `errors.Conflict(message)`. -/
def Conflict (message : String) : GoError :=
  .app (.sentinel .ErrConflict) message StatusConflict []

/-- `errors.GetStatusCode(err)` for a non-nil `err`. -/
def GetStatusCode (err : GoError) : Int :=
  match err.asAppError with
  | some appErr => appErr.statusCode
  | none =>
    if err.is .ErrNotFound then StatusNotFound
    else if err.is .ErrUnauthorized then StatusUnauthorized
    else if err.is .ErrForbidden then StatusForbidden
    else if err.is .ErrBadRequest || err.is .ErrValidation then StatusBadRequest
    else if err.is .ErrConflict then StatusConflict
    else StatusInternalServerError

/-! ## The payment use case (`internal/usecase/payment_usecase.go`) -/

/-- The methods of `invoice.Repository` that `AddPayment` calls. `FindByID`
returns either an error or the invoice; `Update` returns its error, if any. -/
structure InvoiceRepository where
  FindByID : UUID → Except GoError Invoice
  Update : Invoice → Option GoError

/-- The method of `payment.Repository` that `AddPayment` calls. `Create` receives
a pointer: it returns either an error, or the payment as the repository left it
behind that pointer (an ORM fills in the identifier and the timestamps). -/
structure PaymentRepository where
  Create : Payment → Except GoError Payment

/-- `usecase.PaymentUseCase`. -/
structure PaymentUseCase where
  paymentRepo : PaymentRepository
  invoiceRepo : InvoiceRepository

/-- What `time.Now()` returns at each of the three places where `AddPayment` reads
the clock: the default of the payment date (line 57), `paid_at` (line 70) and
the test against the due date (line 74). Each is read at most once in a call. -/
structure Clock where
  atPaymentDate : Time
  atPaidAt : Time
  atDueCheck : Time

/-- A call made to a repository. -/
inductive Call where
  | invoiceFindByID (id : UUID) : Call
  | paymentCreate (p : Payment) : Call
  | invoiceUpdate (inv : Invoice) : Call
  deriving DecidableEq, Repr

/-- What a call of `AddPayment` does: the pair it returns (`.error err` for
`(nil, err)`, `.ok p` for `(p, nil)`), and the repository calls it made, in order. -/
structure AddPaymentResult where
  ret : Except GoError Payment
  calls : List Call

/-- The payment that `AddPayment` builds and hands to `Create` (lines 46 to 58):
the fields of the request, the caller as creator, and the clock reading as payment
date when the request has none. -/
def newPayment (clock : Clock) (req : CreatePaymentRequest) (userID : UUID) : Payment :=
  -- Create payment
  let p : Payment :=
    { ID := 0
      InvoiceID := req.InvoiceID
      Amount := req.Amount
      PaymentMethod := req.PaymentMethod
      PaymentDate := req.PaymentDate
      Notes := req.Notes
      CreatedBy := userID
      CreatedAt := Time.zero
      UpdatedAt := Time.zero
      DeletedAt := none }
  if p.PaymentDate.IsZero then { p with PaymentDate := clock.atPaymentDate } else p

/-- The invoice that `AddPayment` hands to `Update` (lines 64 to 79): the invoice
read, with the amount added to `PaidAmount` and the status recomputed. -/
def applyPayment (clock : Clock) (inv : Invoice) (amount : F64) : Invoice :=
  -- Update invoice paid amount
  let inv := { inv with PaidAmount := inv.PaidAmount + amount }
  -- Update status based on paid amount
  if inv.PaidAmount ≥ inv.TotalAmount then
    { inv with Status := StatusPaid, PaidAt := some clock.atPaidAt }
  else if inv.PaidAmount > 0 then
    -- Partial payment - keep as pending or check if overdue
    if clock.atDueCheck.After inv.DueDate then
      { inv with Status := StatusOverdue }
    else
      { inv with Status := StatusPending }
  else inv

/-- `PaymentUseCase.AddPayment`. -/
def AddPayment (uc : PaymentUseCase) (clock : Clock) (req : CreatePaymentRequest)
    (userID : UUID) : AddPaymentResult :=
  -- Get invoice
  match uc.invoiceRepo.FindByID req.InvoiceID with
  | .error _ =>
    ⟨.error (NotFound "invoice not found"), [.invoiceFindByID req.InvoiceID]⟩
  | .ok inv =>
    -- Check if invoice is already paid or canceled
    if inv.Status = StatusPaid then
      ⟨.error (BadRequest "invoice is already fully paid"), [.invoiceFindByID req.InvoiceID]⟩
    else if inv.Status = StatusCanceled then
      ⟨.error (BadRequest "cannot add payment to canceled invoice"),
        [.invoiceFindByID req.InvoiceID]⟩
    else
      -- Check if payment amount is valid
      let remainingAmount := inv.TotalAmount - inv.PaidAmount
      if req.Amount > remainingAmount then
        ⟨.error (BadRequest "payment amount exceeds remaining balance"),
          [.invoiceFindByID req.InvoiceID]⟩
      else
        let p := newPayment clock req userID
        match uc.paymentRepo.Create p with
        | .error err =>
          ⟨.error (New err "failed to create payment"),
            [.invoiceFindByID req.InvoiceID, .paymentCreate p]⟩
        | .ok created =>
          let inv := applyPayment clock inv req.Amount
          match uc.invoiceRepo.Update inv with
          | some err =>
            ⟨.error (New err "failed to update invoice"),
              [.invoiceFindByID req.InvoiceID, .paymentCreate p, .invoiceUpdate inv]⟩
          | none =>
            ⟨.ok created,
              [.invoiceFindByID req.InvoiceID, .paymentCreate p, .invoiceUpdate inv]⟩

/-! ## The invoice use case (`internal/usecase/invoice_usecase.go`) -/

/-- `invoice.CreateInvoiceItem`. -/
structure CreateInvoiceItem where
  Description : String
  Quantity : Int
  UnitPrice : F64
  deriving DecidableEq, Repr

/-- `invoice.CreateInvoiceRequest`. -/
structure CreateInvoiceRequest where
  StudentID : UUID
  InstituteID : UUID
  DueDate : Time
  Notes : String
  Items : List CreateInvoiceItem
  deriving DecidableEq, Repr

/-- The methods of `invoice.Repository` that `InvoiceUseCase.Create` and
`InvoiceUseCase.MarkAsPaid` call. `Create` receives a pointer: it returns either
an error, or the invoice as the repository left it behind that pointer. -/
structure InvoiceWriter where
  Create : Invoice → Except GoError Invoice
  FindByID : UUID → Except GoError Invoice
  MarkAsPaid : UUID → Option GoError

/-- `usecase.InvoiceUseCase`. Its logger is left out: the calls of the logger
return nothing and the use case goes on alike whatever they do. -/
structure InvoiceUseCase where
  repo : InvoiceWriter

/-- What `uuid.New()` and `time.Now()` give at the places where
`InvoiceUseCase.Create` calls them: for the item at each index its identifier and
its two timestamps, then the year and the random identifier (in its text form)
that make the invoice number, the identifier of the invoice and its two
timestamps. -/
structure CreateInvoiceEnv where
  itemID : Nat → UUID
  itemCreatedAt : Nat → Time
  itemUpdatedAt : Nat → Time
  year : Int
  numberID : String
  invoiceID : UUID
  createdAt : Time
  updatedAt : Time

/-- A call made to the invoice repository by `InvoiceUseCase`. -/
inductive InvoiceCall where
  | create (inv : Invoice) : InvoiceCall
  | findByID (id : UUID) : InvoiceCall
  | markAsPaid (id : UUID) : InvoiceCall
  deriving DecidableEq, Repr

/-- What a call of `InvoiceUseCase.Create` does: the pair it returns and the
repository calls it made. -/
structure CreateInvoiceResult where
  ret : Except GoError Invoice
  calls : List InvoiceCall

/-- What a call of `InvoiceUseCase.MarkAsPaid` does: the error it returns, if any,
and the repository calls it made. -/
structure MarkAsPaidResult where
  ret : Option GoError
  calls : List InvoiceCall

/-- The line amount of a request item: `float64(item.Quantity) * item.UnitPrice`. -/
def itemAmount (item : CreateInvoiceItem) : F64 :=
  F64.ofInt item.Quantity * item.UnitPrice

/-- The loop of `InvoiceUseCase.Create` (lines 30 to 43) over the request items
that remain, `i` being the index of the first of them, `amount` the running sum
and `items` the invoice items appended so far. -/
def createItems (env : CreateInvoiceEnv) :
    List CreateInvoiceItem → Nat → F64 → List InvoiceItem → F64 × List InvoiceItem
  | [], _, amount, items => (amount, items)
  | item :: rest, i, amount, items =>
    createItems env rest (i + 1) (amount + itemAmount item)
      (items ++ [{ ID := env.itemID i
                   InvoiceID := 0
                   Description := item.Description
                   Quantity := item.Quantity
                   UnitPrice := item.UnitPrice
                   Amount := itemAmount item
                   CreatedAt := env.itemCreatedAt i
                   UpdatedAt := env.itemUpdatedAt i
                   DeletedAt := none }])

/-- The invoice that `InvoiceUseCase.Create` builds and hands to the repository
(lines 27 to 65). -/
def newInvoice (env : CreateInvoiceEnv) (req : CreateInvoiceRequest) (createdBy : UUID) :
    Invoice :=
  let built := createItems env req.Items 0 0 []
  let amount := built.1
  let items := built.2
  let taxAmount := amount * 0
  let totalAmount := amount + taxAmount
  let invoiceNumber := "INV-" ++ toString env.year ++ "-" ++ env.numberID.take 8
  { ID := env.invoiceID
    InvoiceNumber := invoiceNumber
    StudentID := req.StudentID
    InstituteID := req.InstituteID
    Amount := amount
    TaxAmount := taxAmount
    TotalAmount := totalAmount
    PaidAmount := 0
    Status := StatusPending
    DueDate := req.DueDate
    PaidAt := none
    Notes := req.Notes
    Items := items
    CreatedBy := createdBy
    CreatedAt := env.createdAt
    UpdatedAt := env.updatedAt
    DeletedAt := none }

/-- `InvoiceUseCase.Create`. -/
def InvoiceUseCase.Create (uc : InvoiceUseCase) (env : CreateInvoiceEnv)
    (req : CreateInvoiceRequest) (createdBy : UUID) : CreateInvoiceResult :=
  let inv := newInvoice env req createdBy
  match uc.repo.Create inv with
  | .error err => ⟨.error (.wrapf "failed to create invoice" err), [.create inv]⟩
  | .ok stored => ⟨.ok stored, [.create inv]⟩

/-- `InvoiceUseCase.MarkAsPaid`. -/
def InvoiceUseCase.MarkAsPaid (uc : InvoiceUseCase) (id : UUID) : MarkAsPaidResult :=
  match uc.repo.FindByID id with
  | .error _ => ⟨some (NotFound "invoice not found"), [.findByID id]⟩
  | .ok inv =>
    if inv.Status = StatusPaid then
      ⟨some (BadRequest "invoice already paid"), [.findByID id]⟩
    else
      match uc.repo.MarkAsPaid id with
      | some err =>
        ⟨some (.wrapf "failed to mark invoice as paid" err), [.findByID id, .markAsPaid id]⟩
      | none => ⟨none, [.findByID id, .markAsPaid id]⟩

/-- `InvoiceRepository.FindByID` of the postgres repository
(`internal/repository/postgres/invoice_repository.go`, lines 28 to 37), on the
rows of the table `invoices`: the row with the identifier that is not deleted, or
the error "invoice not found" when there is none. A failure of the query itself
is left out. -/
def pgFindByID (rows : List Invoice) (id : UUID) : Except GoError Invoice :=
  match rows.find? (fun row => row.ID = id && row.DeletedAt.isNone) with
  | some row => .ok row
  | none => .error (.other "invoice not found")

/-- `InvoiceRepository.MarkAsPaid` of the postgres repository (lines 108 to 117),
on the rows of the table `invoices`. The statement is gorm's
`Model(&invoice.Invoice{}).Where("id = ?", id).Updates(...)` with the columns
`status` and `paid_at`; to an `Updates` on a model that has an `UpdatedAt` field
gorm adds the column `updated_at`. So every row with the identifier gets the
status `paid`, `paid_at = now` and `updated_at = updatedAt`, and nothing else of
it is set. `now` is the `time.Now().UTC()` of line 109 and `updatedAt` the clock
reading of gorm. -/
def pgMarkAsPaid (now updatedAt : Time) (id : UUID) (rows : List Invoice) : List Invoice :=
  rows.map fun row =>
    if row.ID = id then
      { row with Status := StatusPaid, PaidAt := some now, UpdatedAt := updatedAt }
    else row

/-- The postgres repository over the rows `rows`, as `InvoiceUseCase.MarkAsPaid`
sees it: `FindByID` reads the rows, and the statement of `MarkAsPaid` succeeds.
`Create`, which `MarkAsPaid` does not call, leaves the invoice as handed. -/
def pgInvoiceWriter (rows : List Invoice) : InvoiceWriter :=
  { Create := fun handed => .ok handed
    FindByID := pgFindByID rows
    MarkAsPaid := fun _ => none }

/-- A call of `InvoiceUseCase.MarkAsPaid` with the postgres repository over the
rows `rows`: what the use case returns with the repository calls it made, and the
rows afterwards. The statement of the repository's `MarkAsPaid` runs when the use
case calls it. -/
def markAsPaidOnRows (now updatedAt : Time) (rows : List Invoice) (id : UUID) :
    MarkAsPaidResult × List Invoice :=
  let res := (InvoiceUseCase.mk (pgInvoiceWriter rows)).MarkAsPaid id
  (res, if InvoiceCall.markAsPaid id ∈ res.calls then pgMarkAsPaid now updatedAt id rows
    else rows)

/-- What the `validate` tags of `CreateInvoiceRequest` and `CreateInvoiceItem`
(`internal/domain/invoice/entity.go`, lines 56 to 68) demand of the items, which
`InvoiceHandler.Create` checks before it calls the use case: at least one item
(`required,min=1,dive`), and for each item a quantity of at least 1
(`required,gte=1`) and a unit price that is not zero and not below 0
(`required,gte=0`), that is, above 0. -/
def CreateInvoiceRequest.itemsValid (req : CreateInvoiceRequest) : Bool :=
  decide (req.Items.length ≥ 1) &&
    req.Items.all fun item => decide (item.Quantity ≥ 1) && decide (0 < item.UnitPrice)

/-- The repository's `Create` has left in the invoice `stored` the status, the paid
amount and `paid_at` of the invoice `handed` to it. -/
def keepsPaymentState (handed stored : Invoice) : Prop :=
  stored.Status = handed.Status ∧ stored.PaidAmount = handed.PaidAmount ∧
  stored.PaidAt = handed.PaidAt

/-! ## The auth use case (`internal/usecase/auth_usecase.go`) -/

/-- `user.User`. -/
structure User where
  ID : UUID
  Email : String
  Password : String
  FirstName : String
  LastName : String
  Role : String
  Status : String
  CreatedAt : Time
  UpdatedAt : Time
  DeletedAt : Option Time
  deriving DecidableEq, Repr

/-- `user.RegisterRequest`. -/
structure RegisterRequest where
  Email : String
  Password : String
  FirstName : String
  LastName : String
  Role : String
  deriving DecidableEq, Repr

/-- `user.LoginRequest`. -/
structure LoginRequest where
  Email : String
  Password : String
  deriving DecidableEq, Repr

/-- `user.LoginResponse`. -/
structure LoginResponse where
  User : User
  AccessToken : String
  RefreshToken : String
  deriving DecidableEq, Repr

/-- `auth.Claims`, without the registered claims of the jwt library. -/
structure Claims where
  UserID : UUID
  Role : String
  deriving DecidableEq, Repr

/-- The methods of `user.Repository` that `AuthUseCase` calls. The two lookups
return the Go pair `(*User, error)` as it is, each half nil or not: the tests
answer `(nil, nil)` for an email that is not taken. `Create` receives a pointer:
it returns either an error, or the user as the repository left it. -/
structure UserRepository where
  Create : User → Except GoError User
  FindByID : UUID → Option User × Option GoError
  FindByEmail : String → Option User × Option GoError

/-- The methods of `auth.JWTService`. What they return comes from the jwt library,
the clock and random identifiers, so each is taken as a function. -/
structure JWTService where
  GenerateToken : UUID → String → Except GoError String
  GenerateRefreshToken : UUID → Except GoError String
  ValidateToken : String → Except GoError Claims

/-- The two functions of the bcrypt library behind `User.HashPassword` and
`User.CheckPassword`: `hash password` is what `bcrypt.GenerateFromPassword`
returns, and `check hashed password` tells whether
`bcrypt.CompareHashAndPassword` returns nil. -/
structure Bcrypt where
  hash : String → Except GoError String
  check : String → String → Bool

/-- `usecase.AuthUseCase`, without its logger. -/
structure AuthUseCase where
  userRepo : UserRepository
  jwtService : JWTService
  accessExpiry : Int

/-- What `uuid.New()` and the two `time.Now().UTC()` give in `Register`. -/
structure RegisterEnv where
  newID : UUID
  createdAt : Time
  updatedAt : Time

/-- A call made to the user repository. -/
inductive UserCall where
  | create (usr : User) : UserCall
  | findByID (id : UUID) : UserCall
  | findByEmail (email : String) : UserCall
  deriving DecidableEq, Repr

/-- What a Go call of result type `(*T, error)` does: it returns `(v, nil)`, it
returns `(nil, err)`, or it panics on the dereference of a nil pointer. -/
inductive Outcome (α : Type) where
  | ok (v : α) : Outcome α
  | error (err : GoError) : Outcome α
  | nilPointerPanic : Outcome α
  deriving DecidableEq, Repr

/-- What a call of `AuthUseCase.Register` does. -/
structure RegisterResult where
  ret : Except GoError User
  calls : List UserCall

/-- What a call of `AuthUseCase.Login` does. -/
structure LoginResult where
  ret : Outcome LoginResponse
  calls : List UserCall

/-- `gorm.ErrRecordNotFound`. -/
def ErrRecordNotFound : GoError := .sentinel .GormErrRecordNotFound

/-- `User.HashPassword`. -/
def User.HashPassword (bc : Bcrypt) (u : User) (password : String) : Except GoError User :=
  match bc.hash password with
  | .error err => .error err
  | .ok hashedPassword => .ok { u with Password := hashedPassword }

/-- `User.CheckPassword`. -/
def User.CheckPassword (bc : Bcrypt) (u : User) (password : String) : Bool :=
  bc.check u.Password password

/-- `AuthUseCase.Register` from the test of `existingUser` on (lines 46 to 82). -/
def registerUser (uc : AuthUseCase) (bc : Bcrypt) (env : RegisterEnv)
    (req : RegisterRequest) (existingUser : Option User) : RegisterResult :=
  if existingUser.isSome then
    ⟨.error (Conflict "email already registered"), [.findByEmail req.Email]⟩
  else
    let usr : User :=
      { ID := env.newID
        Email := req.Email
        Password := ""
        FirstName := req.FirstName
        LastName := req.LastName
        Role := req.Role
        Status := "active"
        CreatedAt := env.createdAt
        UpdatedAt := env.updatedAt
        DeletedAt := none }
    let usr := if usr.Role = "" then { usr with Role := "user" } else usr
    match usr.HashPassword bc req.Password with
    | .error err =>
      ⟨.error (.wrapf "failed to hash password" err), [.findByEmail req.Email]⟩
    | .ok usr =>
      match uc.userRepo.Create usr with
      | .error err =>
        ⟨.error (.wrapf "failed to create user" err), [.findByEmail req.Email, .create usr]⟩
      | .ok stored => ⟨.ok stored, [.findByEmail req.Email, .create usr]⟩

/-- `AuthUseCase.Register`. -/
def AuthUseCase.Register (uc : AuthUseCase) (bc : Bcrypt) (env : RegisterEnv)
    (req : RegisterRequest) : RegisterResult :=
  let found := uc.userRepo.FindByEmail req.Email
  match found.2 with
  | some err =>
    if err ≠ ErrRecordNotFound then
      ⟨.error (.wrapf "failed to check existing user" err), [.findByEmail req.Email]⟩
    else registerUser uc bc env req found.1
  | none => registerUser uc bc env req found.1

/-- `AuthUseCase.Login`. -/
def AuthUseCase.Login (uc : AuthUseCase) (bc : Bcrypt) (req : LoginRequest) : LoginResult :=
  let found := uc.userRepo.FindByEmail req.Email
  match found.2 with
  | some err =>
    if err = ErrRecordNotFound then
      ⟨.error (Unauthorized "invalid email or password"), [.findByEmail req.Email]⟩
    else
      ⟨.error (.wrapf "failed to find user" err), [.findByEmail req.Email]⟩
  | none =>
    match found.1 with
    | none => ⟨.nilPointerPanic, [.findByEmail req.Email]⟩
    | some usr =>
      if usr.Status ≠ "active" then
        ⟨.error (Unauthorized "account is not active"), [.findByEmail req.Email]⟩
      else if !usr.CheckPassword bc req.Password then
        ⟨.error (Unauthorized "invalid email or password"), [.findByEmail req.Email]⟩
      else
        match uc.jwtService.GenerateToken usr.ID usr.Role with
        | .error err =>
          ⟨.error (.wrapf "failed to generate access token" err), [.findByEmail req.Email]⟩
        | .ok accessToken =>
          match uc.jwtService.GenerateRefreshToken usr.ID with
          | .error err =>
            ⟨.error (.wrapf "failed to generate refresh token" err),
              [.findByEmail req.Email]⟩
          | .ok refreshToken =>
            ⟨.ok { User := usr, AccessToken := accessToken, RefreshToken := refreshToken },
              [.findByEmail req.Email]⟩

/-- `AuthUseCase.RefreshToken`. -/
def AuthUseCase.RefreshToken (uc : AuthUseCase) (refreshToken : String) : LoginResult :=
  match uc.jwtService.ValidateToken refreshToken with
  | .error _ => ⟨.error (Unauthorized "invalid refresh token"), []⟩
  | .ok claims =>
    let userID := claims.UserID
    let found := uc.userRepo.FindByID userID
    match found.2 with
    | some err =>
      if err = ErrRecordNotFound then
        ⟨.error (Unauthorized "user not found"), [.findByID userID]⟩
      else
        ⟨.error (.wrapf "failed to find user" err), [.findByID userID]⟩
    | none =>
      match found.1 with
      | none => ⟨.nilPointerPanic, [.findByID userID]⟩
      | some usr =>
        if usr.Status ≠ "active" then
          ⟨.error (Unauthorized "account is not active"), [.findByID userID]⟩
        else
          match uc.jwtService.GenerateToken usr.ID usr.Role with
          | .error err =>
            ⟨.error (.wrapf "failed to generate access token" err), [.findByID userID]⟩
          | .ok accessToken =>
            match uc.jwtService.GenerateRefreshToken usr.ID with
            | .error err =>
              ⟨.error (.wrapf "failed to generate refresh token" err), [.findByID userID]⟩
            | .ok newRefreshToken =>
              ⟨.ok { User := usr, AccessToken := accessToken, RefreshToken := newRefreshToken },
                [.findByID userID]⟩

/-! ## The student use case (`internal/usecase/student_usecase.go`) -/

/-- `student.Student`. -/
structure Student where
  ID : UUID
  FirstName : String
  LastName : String
  Email : String
  Phone : String
  DateOfBirth : Time
  Address : String
  InstituteID : UUID
  Status : String
  EnrolledAt : Time
  CreatedAt : Time
  UpdatedAt : Time
  DeletedAt : Option Time
  deriving DecidableEq, Repr

/-- `student.CreateStudentRequest`. -/
structure CreateStudentRequest where
  FirstName : String
  LastName : String
  Email : String
  Phone : String
  DateOfBirth : Time
  Address : String
  InstituteID : UUID
  deriving DecidableEq, Repr

/-- The methods of `student.Repository` that `CreateStudent` calls. `Create`
receives a pointer: it returns either an error, or the student as the repository
left it behind that pointer. `ExistsByEmail` returns the Go pair `(bool, error)`. -/
structure StudentRepository where
  Create : Student → Except GoError Student
  ExistsByEmail : String → Bool × Option GoError

/-- `usecase.studentUseCase`, without its logger. -/
structure studentUseCase where
  repo : StudentRepository

/-- A call made to the student repository. -/
inductive StudentCall where
  | existsByEmail (email : String) : StudentCall
  | create (s : Student) : StudentCall
  deriving DecidableEq, Repr

/-- What a call of `CreateStudent` does: the pair it returns and the repository
calls it made, in order. -/
structure CreateStudentResult where
  ret : Except GoError Student
  calls : List StudentCall

/-- The student that `CreateStudent` builds (lines 49 to 59); `enrolledAt` is what
`time.Now().UTC()` gives there. -/
def newStudent (enrolledAt : Time) (req : CreateStudentRequest) : Student :=
  { ID := 0
    FirstName := req.FirstName
    LastName := req.LastName
    Email := req.Email
    Phone := req.Phone
    DateOfBirth := req.DateOfBirth
    Address := req.Address
    InstituteID := req.InstituteID
    Status := "active"
    EnrolledAt := enrolledAt
    CreatedAt := Time.zero
    UpdatedAt := Time.zero
    DeletedAt := none }

/-- `CreateStudent` from the building of the student on (lines 49 to 74), after
the repository calls `before`. -/
def createStudent (uc : studentUseCase) (enrolledAt : Time) (req : CreateStudentRequest)
    (before : List StudentCall) : CreateStudentResult :=
  let s := newStudent enrolledAt req
  match uc.repo.Create s with
  | .error err => ⟨.error (.wrapf "failed to create student" err), before ++ [.create s]⟩
  | .ok stored => ⟨.ok stored, before ++ [.create s]⟩

/-- `studentUseCase.CreateStudent`. -/
def studentUseCase.CreateStudent (uc : studentUseCase) (enrolledAt : Time)
    (req : CreateStudentRequest) : CreateStudentResult :=
  -- Check if email already exists
  if req.Email ≠ "" then
    let found := uc.repo.ExistsByEmail req.Email
    match found.2 with
    | some err => ⟨.error (.wrapf "failed to validate email" err), [.existsByEmail req.Email]⟩
    | none =>
      if found.1 then
        ⟨.error (.other ("student with email " ++ req.Email ++ " already exists")),
          [.existsByEmail req.Email]⟩
      else createStudent uc enrolledAt req [.existsByEmail req.Email]
  else createStudent uc enrolledAt req []

/-- The repository's `Create` has left in the student `stored` the fields that
`CreateStudent` filled in `handed`. -/
def keepsStudentFields (handed stored : Student) : Prop :=
  stored.FirstName = handed.FirstName ∧ stored.LastName = handed.LastName ∧
  stored.Email = handed.Email ∧ stored.Phone = handed.Phone ∧
  stored.DateOfBirth = handed.DateOfBirth ∧ stored.Address = handed.Address ∧
  stored.InstituteID = handed.InstituteID ∧ stored.Status = handed.Status

/-! ## The expense use case (`internal/usecase/expense_usecase.go`) -/

/-- `expense.Expense`. -/
structure Expense where
  ID : UUID
  InstituteID : UUID
  Category : String
  Amount : F64
  Description : String
  Date : Time
  Receipt : String
  Status : String
  ApprovedBy : Option UUID
  ApprovedAt : Option Time
  CreatedBy : UUID
  CreatedAt : Time
  UpdatedAt : Time
  DeletedAt : Option Time
  deriving DecidableEq, Repr

/-- `expense.StatusPending`. -/
def Expense.StatusPending : String := "pending"
/-- `expense.StatusApproved`. -/
def Expense.StatusApproved : String := "approved"
/-- `expense.StatusRejected`. -/
def Expense.StatusRejected : String := "rejected"

/-- `expense.UpdateExpenseRequest`: each field is a pointer, nil or not. -/
structure UpdateExpenseRequest where
  Category : Option String
  Amount : Option F64
  Description : Option String
  Date : Option Time
  Receipt : Option String
  deriving DecidableEq, Repr

/-- The methods of `expense.Repository` that `Update`, `Approve` and `Reject`
call. `FindByID` returns the Go pair `(*Expense, error)`; `Update` receives a
pointer and returns either an error, or the expense as the repository left it. -/
structure ExpenseRepository where
  FindByID : UUID → Option Expense × Option GoError
  Update : Expense → Except GoError Expense
  Approve : UUID → UUID → Option GoError
  Reject : UUID → UUID → Option GoError

/-- `usecase.ExpenseUseCase`, without its logger. -/
structure ExpenseUseCase where
  repo : ExpenseRepository

/-- A call made to the expense repository. -/
inductive ExpenseCall where
  | findByID (id : UUID) : ExpenseCall
  | update (exp : Expense) : ExpenseCall
  | approve (id approvedBy : UUID) : ExpenseCall
  | reject (id rejectedBy : UUID) : ExpenseCall
  deriving DecidableEq, Repr

/-- What a call of a method of `ExpenseUseCase` does; for a method that returns
only an error, `.ok ()` is the return of nil. -/
structure ExpenseResult (α : Type) where
  ret : Outcome α
  calls : List ExpenseCall

/-- The fields that `ExpenseUseCase.Update` overwrites (lines 76 to 92);
`updatedAt` is what `time.Now().UTC()` gives there. -/
def applyUpdate (updatedAt : Time) (exp : Expense) (req : UpdateExpenseRequest) : Expense :=
  let exp := match req.Category with
    | some v => { exp with Category := v }
    | none => exp
  let exp := match req.Amount with
    | some v => { exp with Amount := v }
    | none => exp
  let exp := match req.Description with
    | some v => { exp with Description := v }
    | none => exp
  let exp := match req.Date with
    | some v => { exp with Date := v }
    | none => exp
  let exp := match req.Receipt with
    | some v => { exp with Receipt := v }
    | none => exp
  { exp with UpdatedAt := updatedAt }

/-- `ExpenseUseCase.Update`. -/
def ExpenseUseCase.Update (uc : ExpenseUseCase) (updatedAt : Time) (id : UUID)
    (req : UpdateExpenseRequest) : ExpenseResult Expense :=
  let found := uc.repo.FindByID id
  match found.2 with
  | some _ => ⟨.error (NotFound "expense not found"), [.findByID id]⟩
  | none =>
    match found.1 with
    | none => ⟨.nilPointerPanic, [.findByID id]⟩
    | some exp =>
      if exp.Status ≠ Expense.StatusPending then
        ⟨.error (BadRequest "only pending expenses can be updated"), [.findByID id]⟩
      else
        let exp := applyUpdate updatedAt exp req
        match uc.repo.Update exp with
        | .error err =>
          ⟨.error (.wrapf "failed to update expense" err), [.findByID id, .update exp]⟩
        | .ok stored => ⟨.ok stored, [.findByID id, .update exp]⟩

/-- `ExpenseUseCase.Approve`. -/
def ExpenseUseCase.Approve (uc : ExpenseUseCase) (id approvedBy : UUID) : ExpenseResult Unit :=
  let found := uc.repo.FindByID id
  match found.2 with
  | some _ => ⟨.error (NotFound "expense not found"), [.findByID id]⟩
  | none =>
    match found.1 with
    | none => ⟨.nilPointerPanic, [.findByID id]⟩
    | some exp =>
      if exp.Status ≠ Expense.StatusPending then
        ⟨.error (BadRequest "only pending expenses can be approved"), [.findByID id]⟩
      else
        match uc.repo.Approve id approvedBy with
        | some err =>
          ⟨.error (.wrapf "failed to approve expense" err),
            [.findByID id, .approve id approvedBy]⟩
        | none => ⟨.ok (), [.findByID id, .approve id approvedBy]⟩

/-- `ExpenseUseCase.Reject`. -/
def ExpenseUseCase.Reject (uc : ExpenseUseCase) (id rejectedBy : UUID) : ExpenseResult Unit :=
  let found := uc.repo.FindByID id
  match found.2 with
  | some _ => ⟨.error (NotFound "expense not found"), [.findByID id]⟩
  | none =>
    match found.1 with
    | none => ⟨.nilPointerPanic, [.findByID id]⟩
    | some exp =>
      if exp.Status ≠ Expense.StatusPending then
        ⟨.error (BadRequest "only pending expenses can be rejected"), [.findByID id]⟩
      else
        match uc.repo.Reject id rejectedBy with
        | some err =>
          ⟨.error (.wrapf "failed to reject expense" err),
            [.findByID id, .reject id rejectedBy]⟩
        | none => ⟨.ok (), [.findByID id, .reject id rejectedBy]⟩

/-! ## The package use case (`internal/usecase/package_usecase.go`) -/

/-- `pkg.Course`. -/
structure Course where
  ID : UUID
  deriving DecidableEq, Repr

/-- `pkg.Package`. -/
structure Package where
  ID : UUID
  Name : String
  Code : String
  Description : Option String
  Duration : Int
  Price : F64
  DiscountPercentage : F64
  IsActive : Bool
  Courses : List Course
  CreatedAt : Time
  UpdatedAt : Time
  DeletedAt : Option Time
  deriving DecidableEq, Repr

/-- `pkg.CreatePackageRequest`. -/
structure CreatePackageRequest where
  Name : String
  Code : String
  Description : Option String
  Duration : Int
  Price : F64
  DiscountPercentage : F64
  IsActive : Bool
  CourseIDs : List String
  deriving DecidableEq, Repr

/-- The methods of `pkg.Repository` that `CreatePackage` calls. `GetByID` and
`GetByCode` return the Go pair `(*Package, error)`, each half nil or not: the
repository of `repository/postgres` returns `(nil, err)` when the query fails and
`(&p, nil)` otherwise. `Create` receives a pointer: it returns either an error,
or the package as the repository left it. -/
structure PackageRepository where
  Create : Package → Except GoError Package
  GetByID : UUID → Option Package × Option GoError
  GetByCode : String → Option Package × Option GoError
  AddCourse : UUID → UUID → Option GoError

/-- `usecase.packageUseCase`, without its logger. -/
structure packageUseCase where
  repo : PackageRepository

/-- A call made to the package repository. -/
inductive PackageCall where
  | getByCode (code : String) : PackageCall
  | create (p : Package) : PackageCall
  | addCourse (packageID courseID : UUID) : PackageCall
  | getByID (id : UUID) : PackageCall
  deriving DecidableEq, Repr

/-- What a call of `CreatePackage` does. -/
structure CreatePackageResult where
  ret : Outcome Package
  calls : List PackageCall

/-- The package that `CreatePackage` builds (lines 40 to 48). -/
def newPackage (req : CreatePackageRequest) : Package :=
  { ID := 0
    Name := req.Name
    Code := req.Code
    Description := req.Description
    Duration := req.Duration
    Price := req.Price
    DiscountPercentage := req.DiscountPercentage
    IsActive := req.IsActive
    Courses := []
    CreatedAt := Time.zero
    UpdatedAt := Time.zero
    DeletedAt := none }

/-- The loop of `CreatePackage` over the course identifiers (lines 59 to 74): the
calls of `AddCourse` it makes. `parse s` is what `uuid.Parse(s)` of the uuid
library returns, `none` for an error; a text that does not parse is skipped, and
an error of `AddCourse` is logged and the loop goes on. -/
def addCourses (uc : packageUseCase) (parse : String → Option UUID) (packageID : UUID) :
    List String → List PackageCall
  | [] => []
  | courseIDStr :: rest =>
    match parse courseIDStr with
    | none => addCourses uc parse packageID rest
    | some courseID =>
      match uc.repo.AddCourse packageID courseID with
      | some _ => .addCourse packageID courseID :: addCourses uc parse packageID rest
      | none => .addCourse packageID courseID :: addCourses uc parse packageID rest

/-- `packageUseCase.CreatePackage`. After the reload of line 77, which drops the
error of `GetByID`, `p` is whatever pointer `GetByID` returned, and line 81 reads
`p.ID`. -/
def packageUseCase.CreatePackage (uc : packageUseCase) (parse : String → Option UUID)
    (req : CreatePackageRequest) : CreatePackageResult :=
  -- Check if package with same code exists
  let existing := uc.repo.GetByCode req.Code
  if existing.2.isNone && existing.1.isSome then
    ⟨.error (.other ("package with code " ++ req.Code ++ " already exists")),
      [.getByCode req.Code]⟩
  else
    let p := newPackage req
    match uc.repo.Create p with
    | .error err =>
      ⟨.error (.wrapf "failed to create package" err), [.getByCode req.Code, .create p]⟩
    | .ok p =>
      -- Add courses if provided
      if req.CourseIDs.length > 0 then
        let calls := [.getByCode req.Code, .create (newPackage req)] ++
          addCourses uc parse p.ID req.CourseIDs ++ [.getByID p.ID]
        -- Reload package with courses
        match (uc.repo.GetByID p.ID).1 with
        | none => ⟨.nilPointerPanic, calls⟩
        | some p => ⟨.ok p, calls⟩
      else ⟨.ok p, [.getByCode req.Code, .create (newPackage req)]⟩

/-! ## Texts -/

/-- Whether the characters `sub` are the first characters of `l`. -/
def startsWith : List Char → List Char → Bool
  | [], _ => true
  | _ :: _, [] => false
  | a :: sub, b :: l => a == b && startsWith sub l

/-- Whether the characters `sub` occur in a row somewhere in `l`. -/
def containsChars (sub : List Char) : List Char → Bool
  | [] => sub.isEmpty
  | c :: l => startsWith sub (c :: l) || containsChars sub l

/-- Go's `strings.Contains(s, substr)`, which `assert.Contains` of the tests
applies to two strings. -/
def Contains (s substr : String) : Bool :=
  containsChars substr.toList s.toList

/-! ## Sample data -/

/-- An invoice with the given total, paid amount, status and due date. -/
def invoiceOf (total paid : F64) (status : String) (due : Time) : Invoice :=
  { ID := 1, InvoiceNumber := "INV-2025-0001", StudentID := 2, InstituteID := 3,
    Amount := total, TaxAmount := 0, TotalAmount := total, PaidAmount := paid,
    Status := status, DueDate := due, PaidAt := none, Notes := "", Items := [],
    CreatedBy := 4, CreatedAt := ⟨500⟩, UpdatedAt := ⟨500⟩, DeletedAt := none }

/-- Repositories that hold the one invoice `inv` and never fail; `Create` gives the
payment the identifier 9. -/
def reposOf (inv : Invoice) : PaymentUseCase :=
  { paymentRepo := ⟨fun p => .ok { p with ID := 9 }⟩
    invoiceRepo := ⟨fun _ => .ok inv, fun _ => none⟩ }

/-- Repositories in which no invoice is found. -/
def reposEmpty : PaymentUseCase :=
  { paymentRepo := ⟨fun p => .ok { p with ID := 9 }⟩
    invoiceRepo := ⟨fun _ => .error (.other "invoice not found"), fun _ => none⟩ }

/-- A clock that reads `t` at every place. -/
def clockAt (t : Int) : Clock := ⟨⟨t⟩, ⟨t⟩, ⟨t⟩⟩

/-- A cash payment request of the given amount for invoice 1, with no payment date. -/
def requestOf (amount : F64) : CreatePaymentRequest :=
  { InvoiceID := 1, Amount := amount, PaymentMethod := "cash", PaymentDate := Time.zero,
    Notes := "" }

/-- The payment that `AddPayment` returns for `requestOf amount` made by user 7 at
clock reading `t`, with the repositories `reposOf`. -/
def paymentOf (amount : F64) (t : Int) : Payment :=
  { ID := 9, InvoiceID := 1, Amount := amount, PaymentMethod := "cash", PaymentDate := ⟨t⟩,
    Notes := "", CreatedBy := 7, CreatedAt := Time.zero, UpdatedAt := Time.zero,
    DeletedAt := none }

/-- The invoice of 500.20 of which 64.10 is paid, pending, due at instant 2000. -/
def invoice50020 : Invoice :=
  invoiceOf (F64.ofRatio false 50020 100) (F64.ofRatio false 6410 100) StatusPending ⟨2000⟩

/-- The invoice of 660.10 of which 128.05 is paid, pending, due at instant 2000. -/
def invoice66010 : Invoice :=
  invoiceOf (F64.ofRatio false 66010 100) (F64.ofRatio false 12805 100) StatusPending ⟨2000⟩

/-- The invoice of 660.00 of which nothing is paid, pending, due at instant 2000. -/
def invoice660 : Invoice :=
  invoiceOf (F64.ofRatio false 660 1) 0 StatusPending ⟨2000⟩

/-- The invoice of 880.00 of which nothing is paid, pending, due at instant 2000. -/
def invoice880 : Invoice :=
  invoiceOf (F64.ofRatio false 880 1) 0 StatusPending ⟨2000⟩

/-- The invoice of 660.00 that is fully paid. -/
def invoicePaid : Invoice :=
  invoiceOf (F64.ofRatio false 660 1) (F64.ofRatio false 660 1) StatusPaid ⟨2000⟩

/-- The invoice of 660.00 with nothing paid that is canceled. -/
def invoiceCanceled : Invoice :=
  invoiceOf (F64.ofRatio false 660 1) 0 StatusCanceled ⟨2000⟩

/-- The invoice of 660.00 of which 100.00 is paid, pending, due at instant 2000. -/
def invoice660paid100 : Invoice :=
  invoiceOf (F64.ofRatio false 660 1) (F64.ofRatio false 100 1) StatusPending ⟨2000⟩

/-- Repositories that hold the one invoice `inv`, in which `Create` succeeds and
`Update` fails with the error `err`. -/
def reposUpdateFails (inv : Invoice) (err : GoError) : PaymentUseCase :=
  { paymentRepo := ⟨fun p => .ok { p with ID := 9 }⟩
    invoiceRepo := ⟨fun _ => .ok inv, fun _ => some err⟩ }

/-- The repository's `Create` has left in the payment `stored` the fields that
`AddPayment` filled in `handed` from the request and the caller. -/
def keepsRequestFields (handed stored : Payment) : Prop :=
  stored.InvoiceID = handed.InvoiceID ∧ stored.Amount = handed.Amount ∧
  stored.PaymentMethod = handed.PaymentMethod ∧ stored.Notes = handed.Notes ∧
  stored.CreatedBy = handed.CreatedBy

/-- An invoice use case whose repository holds the one invoice `inv` and never
fails; `Create` leaves the invoice as handed. -/
def invoiceReposOf (inv : Invoice) : InvoiceUseCase :=
  { repo := ⟨fun handed => .ok handed, fun _ => .ok inv, fun _ => none⟩ }

/-- Identifiers and clock readings for a call of `InvoiceUseCase.Create`: the item
at index `i` gets the identifier `100 + i`, the invoice the identifier 1. -/
def createEnv : CreateInvoiceEnv :=
  { itemID := fun i => 100 + i
    itemCreatedAt := fun _ => ⟨1000⟩
    itemUpdatedAt := fun _ => ⟨1000⟩
    year := 2025
    numberID := "1b4e28ba-2fa1-11d2-883f-0016d3cca427"
    invoiceID := 1
    createdAt := ⟨1000⟩
    updatedAt := ⟨1000⟩ }

/-- A request for an invoice of student 2 at institute 3, due at instant 2000,
with the given items. -/
def invoiceRequestOf (items : List CreateInvoiceItem) : CreateInvoiceRequest :=
  { StudentID := 2, InstituteID := 3, DueDate := ⟨2000⟩, Notes := "", Items := items }

/-- Two request items: 12 lessons at 50.00 and 1 exam fee at 60.00. -/
def itemsLessons : List CreateInvoiceItem :=
  [⟨"driving lesson", 12, F64.ofRatio false 50 1⟩, ⟨"exam fee", 1, F64.ofRatio false 60 1⟩]

/-- One request item: 2 units at 1e308 each. -/
def itemsHuge : List CreateInvoiceItem :=
  [⟨"course", 2, F64.ofRatio false (10 ^ 308) 1⟩]

/-- A bcrypt stand-in: the hash of a password is `"hash:"` followed by it. -/
def bcryptStub : Bcrypt :=
  { hash := fun password => .ok ("hash:" ++ password)
    check := fun hashed password => hashed == "hash:" ++ password }

/-- A token service stand-in that never fails and accepts no token. -/
def jwtStub : JWTService :=
  { GenerateToken := fun _ _ => .ok "access-token"
    GenerateRefreshToken := fun _ => .ok "refresh-token"
    ValidateToken := fun _ => .error (.other "invalid token") }

/-- An auth use case whose repository answers every lookup by email with `found`. -/
def authOf (found : Option User × Option GoError) : AuthUseCase :=
  { userRepo := ⟨fun usr => .ok usr, fun _ => (none, some ErrRecordNotFound), fun _ => found⟩
    jwtService := jwtStub
    accessExpiry := 3600000000000 }

/-- `assert.AnError` of the test library. -/
def assertAnError : GoError := .other "assert.AnError general error for testing"

/-- The user of the test "duplicate email error": only the identifier and the
email are set. -/
def existingUser : User :=
  { ID := 5, Email := "existing@example.com", Password := "", FirstName := "",
    LastName := "", Role := "", Status := "", CreatedAt := Time.zero,
    UpdatedAt := Time.zero, DeletedAt := none }

/-- The request of the test "duplicate email error". -/
def registerRequest : RegisterRequest :=
  { Email := "existing@example.com", Password := "password123", FirstName := "Jane",
    LastName := "Doe", Role := "student" }

/-- The request of the test "user not found". -/
def loginRequest : LoginRequest :=
  { Email := "nonexistent@example.com", Password := "password123" }

/-- Identifier and clock readings for a call of `Register`. -/
def registerEnv : RegisterEnv := ⟨6, ⟨1000⟩, ⟨1000⟩⟩

/-- The user of the test "inactive user", whose password is the hash of "secret". -/
def inactiveUser : User :=
  { ID := 8, Email := "inactive@example.com", Password := "hash:secret", FirstName := "",
    LastName := "", Role := "", Status := "inactive", CreatedAt := Time.zero,
    UpdatedAt := Time.zero, DeletedAt := none }

/-- The request of the test "inactive user". -/
def inactiveLoginRequest : LoginRequest :=
  { Email := "inactive@example.com", Password := "secret" }

/-- A student use case whose repository answers `ExistsByEmail` with `found` and
whose `Create` gives the student the identifier 11 and the timestamps 1000. -/
def studentReposOf (found : Bool × Option GoError) : studentUseCase :=
  { repo :=
    { Create := fun s => .ok { s with ID := 11, CreatedAt := ⟨1000⟩, UpdatedAt := ⟨1000⟩ }
      ExistsByEmail := fun _ => found } }

/-- The request of the tests of `CreateStudent`; the date of birth is 2000-01-01. -/
def studentRequest : CreateStudentRequest :=
  { FirstName := "John", LastName := "Doe", Email := "john.doe@example.com",
    Phone := "+1234567890", DateOfBirth := ⟨946684800000000000⟩, Address := "123 Main St",
    InstituteID := 3 }

/-- The student that `studentReposOf` leaves after `Create` for `studentRequest`
enrolled at instant 1000. -/
def studentStored : Student :=
  { newStudent ⟨1000⟩ studentRequest with ID := 11, CreatedAt := ⟨1000⟩, UpdatedAt := ⟨1000⟩ }

/-- An invoice use case whose repository finds no invoice. -/
def invoiceReposNone : InvoiceUseCase :=
  { repo := ⟨fun handed => .ok handed, fun _ => .error ErrRecordNotFound, fun _ => none⟩ }

/-- An expense of 120.00 for supplies with the given status, with identifier 1. -/
def expenseOf (status : String) : Expense :=
  { ID := 1, InstituteID := 3, Category := "supplies", Amount := F64.ofRatio false 120 1,
    Description := "cones", Date := ⟨1000⟩, Receipt := "", Status := status,
    ApprovedBy := none, ApprovedAt := none, CreatedBy := 4, CreatedAt := ⟨500⟩,
    UpdatedAt := ⟨500⟩, DeletedAt := none }

/-- An expense use case whose repository holds the one expense `exp` and never
fails. -/
def expenseReposOf (exp : Expense) : ExpenseUseCase :=
  { repo := ⟨fun _ => (some exp, none), fun handed => .ok handed, fun _ _ => none,
      fun _ _ => none⟩ }

/-- A package use case whose repository finds no package by code, whose `Create`
gives the package the identifier 21, whose `AddCourse` succeeds and whose
`GetByID` returns `reload`. -/
def packageReposOf (reload : Option Package × Option GoError) : packageUseCase :=
  { repo :=
    { Create := fun p => .ok { p with ID := 21 }
      GetByID := fun _ => reload
      GetByCode := fun _ => (none, some ErrRecordNotFound)
      AddCourse := fun _ _ => none } }

/-- A stand-in for `uuid.Parse` that reads one text as the identifier 31 and
rejects every other text. -/
def parseStub (s : String) : Option UUID :=
  if s = "1b4e28ba-2fa1-11d2-883f-0016d3cca427" then some 31 else none

/-- A request for a package of 30 days at 450.00 with one course. -/
def packageRequest : CreatePackageRequest :=
  { Name := "Beginner", Code := "PKG-1", Description := none, Duration := 30,
    Price := F64.ofRatio false 450 1, DiscountPercentage := 0, IsActive := true,
    CourseIDs := ["1b4e28ba-2fa1-11d2-883f-0016d3cca427"] }

/-- The invoice of 660.00 whose paid amount is NaN, pending. -/
def invoiceNaN : Invoice :=
  invoiceOf (F64.ofRatio false 660 1) F64.nan StatusPending ⟨2000⟩

/-! ## The float64 model -/

set_option maxRecDepth 4000
set_option exponentiation.threshold 5000

theorem F64.bitLenAux_zero (fuel : Nat) : F64.bitLenAux fuel 0 = 0 := by
  cases fuel <;> simp [F64.bitLenAux]

/-- With at least `n` divisions allowed, `F64.bitLenAux` counts the bits of `n`. -/
theorem F64.bitLenAux_spec (fuel : Nat) : ∀ n, n ≤ fuel →
    n < 2 ^ F64.bitLenAux fuel n ∧ (n ≠ 0 → 2 ^ (F64.bitLenAux fuel n - 1) ≤ n) := by
  induction fuel with
  | zero =>
    intro n hn
    have : n = 0 := by omega
    subst this
    simp [F64.bitLenAux]
  | succ fuel ih =>
    intro n hn
    by_cases h0 : n = 0
    · subst h0
      simp [F64.bitLenAux]
    · by_cases h64 : n < 2 ^ 64
      · have hhalf : n / 2 ≤ fuel := by omega
        obtain ⟨hlt, hge⟩ := ih (n / 2) hhalf
        simp only [F64.bitLenAux, if_neg h0, if_pos h64, Nat.add_sub_cancel]
        refine ⟨?_, fun _ => ?_⟩
        · rw [pow_succ]
          omega
        · by_cases h1 : n / 2 = 0
          · rw [h1, F64.bitLenAux_zero]
            simp
            omega
          · have hb := hge h1
            have hpos : F64.bitLenAux fuel (n / 2) ≠ 0 := by
              intro hz
              rw [hz] at hlt
              omega
            obtain ⟨b, hb1⟩ := Nat.exists_eq_succ_of_ne_zero hpos
            rw [hb1] at hb ⊢
            simp only [Nat.succ_eq_add_one, Nat.add_sub_cancel] at hb
            rw [Nat.succ_eq_add_one, pow_succ]
            omega
      · simp only [F64.bitLenAux, if_neg h0, if_neg h64]
        have hK : 1 < 2 ^ 64 := by norm_num
        have ih1 := ih (n / 2 ^ 64)
        generalize hKe : (2 : Nat) ^ 64 = K at h64 hK ih1
        have hKn : K ≤ n := Nat.le_of_not_lt h64
        have hdiv : n / K ≤ fuel :=
          Nat.le_of_lt_succ (Nat.lt_of_lt_of_le (Nat.div_lt_self (Nat.pos_of_ne_zero h0) hK) hn)
        have hone : 1 ≤ n / K := (Nat.one_le_div_iff (Nat.lt_trans Nat.zero_lt_one hK)).2 hKn
        have hne : n / K ≠ 0 := Nat.pos_iff_ne_zero.1 hone
        obtain ⟨hlt, hge⟩ := ih1 hdiv
        have hb := hge hne
        have hle1 : n / K * K ≤ n := Nat.div_mul_le_self n K
        have hlt1 : n < (n / K + 1) * K := by
          have h1 := Nat.div_add_mod n K
          have h2 : n % K < K := Nat.mod_lt _ (Nat.lt_trans Nat.zero_lt_one hK)
          calc n = K * (n / K) + n % K := h1.symm
            _ < K * (n / K) + K := Nat.add_lt_add_left h2 _
            _ = (n / K + 1) * K := by ring
        generalize n / K = m at hlt hb hone hle1 hlt1 ⊢
        have hpos : F64.bitLenAux fuel m ≠ 0 := by
          intro hz
          rw [hz, pow_zero] at hlt
          omega
        obtain ⟨b, hb1⟩ := Nat.exists_eq_succ_of_ne_zero hpos
        rw [hb1] at hb hlt ⊢
        simp only [Nat.succ_eq_add_one, Nat.add_sub_cancel] at hb hlt ⊢
        have e1 : b + 1 + 64 - 1 = b + 64 := by omega
        rw [e1, pow_add 2 (b + 1) 64, pow_add 2 b 64, hKe]
        exact ⟨Nat.lt_of_lt_of_le hlt1 (Nat.mul_le_mul_right K hlt),
          fun _ => Nat.le_trans (Nat.mul_le_mul_right K hb) hle1⟩

/-- `bitLen n` is the number of bits of `n`: `2^(bitLen n - 1) ≤ n < 2^(bitLen n)`
for `n` not zero. The halvings allowed always suffice. -/
theorem F64.bitLen_spec (n : Nat) :
    n < 2 ^ F64.bitLen n ∧ (n ≠ 0 → 2 ^ (F64.bitLen n - 1) ≤ n) :=
  F64.bitLenAux_spec n n (Nat.le_refl n)

/-- The model on well-known values: `0.1 + 0.2` is `0.30000000000000004`, not `0.3`;
integers above `2^53` round to even; the largest finite value doubled overflows;
`-0 + -0` is `-0` and `x - x` is `+0`; NaN compares false with everything. -/
theorem F64.model_checks :
    F64.ofRatio false 1 10 = F64.ofBits 0x3FB999999999999A ∧
    F64.ofRatio false 1 10 + F64.ofRatio false 2 10 = F64.ofBits 0x3FD3333333333334 ∧
    F64.ofRatio false 3 10 = F64.ofBits 0x3FD3333333333333 ∧
    F64.ofRatio false 3 10 < F64.ofRatio false 1 10 + F64.ofRatio false 2 10 ∧
    F64.ofRatio false (2 ^ 53) 1 + F64.ofRatio false 1 1 = F64.ofRatio false (2 ^ 53) 1 ∧
    F64.ofRatio false (2 ^ 53) 1 + F64.ofRatio false 3 1 = F64.ofRatio false (2 ^ 53 + 4) 1 ∧
    F64.ofBits 0x7FEFFFFFFFFFFFFF + F64.ofBits 0x7FEFFFFFFFFFFFFF = F64.inf false ∧
    F64.ofBits 0x8000000000000000 + F64.ofBits 0x8000000000000000 = F64.fin true 0 ∧
    F64.ofRatio false 1 10 - F64.ofRatio false 1 10 = F64.fin false 0 ∧
    F64.ofBits 1 = F64.fin false 1 ∧
    F64.ofRatio false 1 (2 ^ 1075) = F64.fin false 0 ∧
    F64.ofRatio false 3 (2 ^ 1075) = F64.fin false 2 ∧
    ¬ (F64.nan < F64.nan) ∧ ¬ (F64.nan ≤ F64.nan) ∧ ¬ (F64.nan > (0 : F64)) ∧
    (F64.fin true 0 ≤ (0 : F64) ∧ (0 : F64) ≤ F64.fin true 0) := by
  decide

namespace F64

theorem lt_bitLen {n L : Nat} (h : 2 ^ L ≤ n) : L < bitLen n := by
  have h1 := (bitLen_spec n).1
  exact (Nat.pow_lt_pow_iff_right (by norm_num : 1 < 2)).1 (Nat.lt_of_le_of_lt h h1)

theorem bitLen_le {n L : Nat} (h : n < 2 ^ L) : bitLen n ≤ L := by
  by_cases h0 : n = 0
  · subst h0
    simp [bitLen, bitLenAux]
  · have h1 := (bitLen_spec n).2 h0
    have h2 : bitLen n - 1 < L :=
      (Nat.pow_lt_pow_iff_right (by norm_num : 1 < 2)).1 (Nat.lt_of_le_of_lt h1 h)
    omega

theorem bitLen_eq {n L : Nat} (h1 : 2 ^ L ≤ n) (h2 : n < 2 ^ (L + 1)) : bitLen n = L + 1 := by
  have := lt_bitLen h1
  have := bitLen_le h2
  omega

/-- The quotient kept by `round` has at most 53 bits. -/
theorem round_quotient_lt (n d : Nat) :
    n / (d * 2 ^ (bitLen (n / d) - 53)) < 2 ^ 53 := by
  rw [← Nat.div_div_eq_div_mul]
  have h1 := (bitLen_spec (n / d)).1
  rw [Nat.div_lt_iff_lt_mul (by positivity)]
  by_cases hL : bitLen (n / d) ≤ 53
  · have : bitLen (n / d) - 53 = 0 := by omega
    rw [this, pow_zero, mul_one]
    exact Nat.lt_of_lt_of_le h1 (Nat.pow_le_pow_right (by norm_num) hL)
  · have : 53 + (bitLen (n / d) - 53) = bitLen (n / d) := by omega
    rw [← pow_add, this]
    exact h1

/-- When `round` drops bits, the quotient it keeps has exactly 53 bits. -/
theorem round_quotient_ge (n d : Nat) (hs : 0 < bitLen (n / d) - 53) :
    2 ^ 52 ≤ n / (d * 2 ^ (bitLen (n / d) - 53)) := by
  rw [← Nat.div_div_eq_div_mul]
  have h0 : n / d ≠ 0 := by
    intro h
    rw [h] at hs
    simp [bitLen, bitLenAux] at hs
  have h1 := (bitLen_spec (n / d)).2 h0
  rw [Nat.le_div_iff_mul_le (by positivity), ← pow_add]
  have : 52 + (bitLen (n / d) - 53) = bitLen (n / d) - 1 := by omega
  rw [this]
  exact h1

theorem bitLen_zero : bitLen 0 = 0 := by
  simp [bitLen, bitLenAux]

theorem bitLen_mul_pow (a s : Nat) (ha : a ≠ 0) : bitLen (a * 2 ^ s) = bitLen a + s := by
  obtain ⟨h1, h2⟩ := bitLen_spec a
  have h3 := h2 ha
  have hpos : bitLen a ≠ 0 := by
    intro hz
    rw [hz, pow_zero] at h1
    omega
  obtain ⟨b, hb⟩ := Nat.exists_eq_succ_of_ne_zero hpos
  rw [hb] at h1 h3 ⊢
  simp only [Nat.succ_eq_add_one, Nat.add_sub_cancel] at h1 h3 ⊢
  have e : b + 1 + s = (b + s) + 1 := by omega
  rw [e]
  apply bitLen_eq
  · rw [pow_add]
    exact Nat.mul_le_mul_right _ h3
  · rw [← e, pow_add]
    exact Nat.mul_lt_mul_of_pos_right h1 (by positivity)

/-- A magnitude `a * 2^s` with `a ≤ 2^53`, below `2^1024`, is a float64 magnitude. -/
theorem representable_mul_pow (a s : Nat) (ha : a ≤ 2 ^ 53)
    (hm : a * 2 ^ s < overflowBound) : representable (a * 2 ^ s) = true := by
  unfold representable
  simp only [Bool.and_eq_true, decide_eq_true_eq, beq_iff_eq]
  refine ⟨hm, ?_⟩
  by_cases h0 : a = 0
  · subst h0
    simp
  · rw [bitLen_mul_pow a s h0]
    apply Nat.mod_eq_zero_of_dvd
    by_cases h53 : a < 2 ^ 53
    · have hb : bitLen a ≤ 53 := bitLen_le h53
      exact Dvd.dvd.mul_left (pow_dvd_pow 2 (by omega)) a
    · have ha' : a = 2 ^ 53 := by omega
      subst ha'
      have hb : bitLen (2 ^ 53) = 54 := bitLen_eq (Nat.le_refl _) (by norm_num)
      rw [hb, ← pow_add]
      exact pow_dvd_pow 2 (by omega)

/-- No float64 magnitude lies strictly between `q * 2^s` and `(q + 1) * 2^s` when
`q` has 53 bits, or when `s` is 0. -/
theorem representable_gap (x q s : Nat) (hx : representable x = true)
    (hq : s = 0 ∨ 2 ^ 52 ≤ q) (hlt : q * 2 ^ s < x) : (q + 1) * 2 ^ s ≤ x := by
  rcases hq with hs | hq
  · subst hs
    simp only [pow_zero, mul_one] at hlt ⊢
    omega
  · unfold representable at hx
    simp only [Bool.and_eq_true, decide_eq_true_eq, beq_iff_eq] at hx
    have h1 : 2 ^ (52 + s) ≤ x := by
      rw [pow_add]
      exact Nat.le_trans (Nat.mul_le_mul_right _ hq) (Nat.le_of_lt hlt)
    have h2 := lt_bitLen h1
    have hdvd : 2 ^ s ∣ x :=
      Dvd.dvd.trans (pow_dvd_pow 2 (by omega)) (Nat.dvd_of_mod_eq_zero hx.2)
    obtain ⟨k, hk⟩ := hdvd
    subst hk
    rw [mul_comm (2 ^ s) k] at hlt ⊢
    have hpos : 0 < 2 ^ s := by positivity
    have hqk : q < k := Nat.lt_of_mul_lt_mul_right hlt
    exact Nat.mul_le_mul_right _ hqk

/-- `round` rounds to nearest: a finite result of `round neg n d` has the sign
asked for, is a float64 magnitude, and no float64 magnitude is nearer to `n / d`
(distances are scaled by `d`). -/
theorem round_nearest (neg neg1 : Bool) (n d m : Nat) (hd : 0 < d)
    (h : round neg n d = fin neg1 m) :
    neg1 = neg ∧ representable m = true ∧
    ∀ x, representable x = true → Nat.dist (m * d) n ≤ Nat.dist (x * d) n := by
  have hqlt := round_quotient_lt n d
  have hqge := round_quotient_ge n d
  unfold round at h
  simp only at h
  generalize bitLen (n / d) - 53 = s at h hqlt hqge
  have hdm := Nat.div_add_mod n (d * 2 ^ s)
  have hrlt : n % (d * 2 ^ s) < d * 2 ^ s := Nat.mod_lt _ (by positivity)
  generalize hq : n / (d * 2 ^ s) = q at h hqlt hqge hdm
  generalize hr : n % (d * 2 ^ s) = r at h hdm hrlt
  have hgap : s = 0 ∨ 2 ^ 52 ≤ q := by
    rcases Nat.eq_zero_or_pos s with h0 | h0
    · exact Or.inl h0
    · exact Or.inr (hqge h0)
  split_ifs at h with hup hfin hfin
  · -- rounded up
    simp only [fin.injEq] at h
    obtain ⟨h1, h2⟩ := h
    subst h2
    refine ⟨h1.symm, representable_mul_pow (q + 1) s (by omega) hfin, fun x hx => ?_⟩
    have e1 : (q + 1) * 2 ^ s * d = d * 2 ^ s * q + d * 2 ^ s := by ring
    rw [e1]
    rcases Nat.lt_or_ge (q * 2 ^ s) x with hlt | hge
    · have h3 := Nat.mul_le_mul_right d (representable_gap x q s hx hgap hlt)
      rw [e1] at h3
      generalize x * d = A at h3 ⊢
      generalize d * 2 ^ s = D at *
      generalize D * q = B at *
      unfold Nat.dist
      omega
    · have h3 := Nat.mul_le_mul_right d hge
      have e2 : q * 2 ^ s * d = d * 2 ^ s * q := by ring
      rw [e2] at h3
      generalize x * d = A at h3 ⊢
      generalize d * 2 ^ s = D at *
      generalize D * q = B at *
      unfold Nat.dist
      omega
  · -- kept
    simp only [fin.injEq] at h
    obtain ⟨h1, h2⟩ := h
    subst h2
    refine ⟨h1.symm, representable_mul_pow q s (by omega) hfin, fun x hx => ?_⟩
    have e1 : (q + 1) * 2 ^ s * d = d * 2 ^ s * q + d * 2 ^ s := by ring
    have e2 : q * 2 ^ s * d = d * 2 ^ s * q := by ring
    rw [e2]
    rcases Nat.lt_or_ge (q * 2 ^ s) x with hlt | hge
    · have h3 := Nat.mul_le_mul_right d (representable_gap x q s hx hgap hlt)
      rw [e1] at h3
      generalize x * d = A at h3 ⊢
      generalize d * 2 ^ s = D at *
      generalize D * q = B at *
      unfold Nat.dist
      omega
    · have h3 := Nat.mul_le_mul_right d hge
      rw [e2] at h3
      generalize x * d = A at h3 ⊢
      generalize d * 2 ^ s = D at *
      generalize D * q = B at *
      unfold Nat.dist
      omega

/-- `round` breaks ties to even: when another float64 magnitude is as near to
`n / d` as the result, the significand of the result is even. -/
theorem round_ties_even (neg neg1 : Bool) (n d m x : Nat) (hd : 0 < d)
    (h : round neg n d = fin neg1 m) (hx : representable x = true) (hne : x ≠ m)
    (heq : Nat.dist (x * d) n = Nat.dist (m * d) n) :
    m / 2 ^ (bitLen (n / d) - 53) % 2 = 0 := by
  have hqge := round_quotient_ge n d
  unfold round at h
  simp only at h
  generalize bitLen (n / d) - 53 = s at h hqge ⊢
  have hdm := Nat.div_add_mod n (d * 2 ^ s)
  have hrlt : n % (d * 2 ^ s) < d * 2 ^ s := Nat.mod_lt _ (by positivity)
  generalize hq : n / (d * 2 ^ s) = q at h hqge hdm
  generalize hr : n % (d * 2 ^ s) = r at h hdm hrlt
  have hgap : s = 0 ∨ 2 ^ 52 ≤ q := by
    rcases Nat.eq_zero_or_pos s with h0 | h0
    · exact Or.inl h0
    · exact Or.inr (hqge h0)
  have hpos : 0 < 2 ^ s := by positivity
  have e1 : (q + 1) * 2 ^ s * d = d * 2 ^ s * q + d * 2 ^ s := by ring
  have e2 : q * 2 ^ s * d = d * 2 ^ s * q := by ring
  split_ifs at h with hup hfin hfin
  · simp only [fin.injEq] at h
    obtain ⟨-, h2⟩ := h
    subst h2
    rw [Nat.mul_div_cancel _ hpos]
    rw [e1] at heq
    rcases Nat.lt_or_ge (q * 2 ^ s) x with hlt | hge
    · have h3 := representable_gap x q s hx hgap hlt
      have h4 : (q + 1) * 2 ^ s + 1 ≤ x := by omega
      have h5 := Nat.mul_le_mul_right d h4
      rw [add_mul, e1, one_mul] at h5
      generalize x * d = A at h5 heq
      generalize d * 2 ^ s = D at *
      generalize D * q = B at *
      unfold Nat.dist at heq
      omega
    · have h3 := Nat.mul_le_mul_right d hge
      rw [e2] at h3
      generalize x * d = A at h3 heq
      generalize d * 2 ^ s = D at *
      generalize D * q = B at *
      unfold Nat.dist at heq
      omega
  · simp only [fin.injEq] at h
    obtain ⟨-, h2⟩ := h
    subst h2
    rw [Nat.mul_div_cancel _ hpos]
    rw [e2] at heq
    rcases Nat.lt_or_ge (q * 2 ^ s) x with hlt | hge
    · have h3 := Nat.mul_le_mul_right d (representable_gap x q s hx hgap hlt)
      rw [e1] at h3
      generalize x * d = A at h3 heq
      generalize d * 2 ^ s = D at *
      generalize D * q = B at *
      unfold Nat.dist at heq
      omega
    · have h4 : x + 1 ≤ q * 2 ^ s := by omega
      have h5 := Nat.mul_le_mul_right d h4
      rw [add_mul, e2, one_mul] at h5
      generalize x * d = A at h5 heq
      generalize d * 2 ^ s = D at *
      generalize D * q = B at *
      unfold Nat.dist at heq
      omega

/-- `round` overflows only above every float64 magnitude: when the result is
infinite, it has the sign asked for and every float64 magnitude is at most `n / d`. -/
theorem round_inf (neg neg1 : Bool) (n d : Nat) (h : round neg n d = inf neg1) :
    neg1 = neg ∧ ∀ x, representable x = true → x * d ≤ n := by
  have hqge := round_quotient_ge n d
  unfold round at h
  simp only at h
  generalize bitLen (n / d) - 53 = s at h hqge
  have hdm := Nat.div_add_mod n (d * 2 ^ s)
  generalize hq : n / (d * 2 ^ s) = q at h hqge hdm
  generalize hr : n % (d * 2 ^ s) = r at h hdm
  have hgap : s = 0 ∨ 2 ^ 52 ≤ q := by
    rcases Nat.eq_zero_or_pos s with h0 | h0
    · exact Or.inl h0
    · exact Or.inr (hqge h0)
  have e2 : q * 2 ^ s * d = d * 2 ^ s * q := by ring
  have hxlt : ∀ x, representable x = true → x < overflowBound := by
    intro x hx
    unfold representable at hx
    simp only [Bool.and_eq_true, decide_eq_true_eq, beq_iff_eq] at hx
    exact hx.1
  split_ifs at h with hup hfin hfin
  · simp only [inf.injEq] at h
    refine ⟨h.symm, fun x hx => ?_⟩
    have hx1 := hxlt x hx
    have hle : x ≤ q * 2 ^ s := by
      by_contra hcon
      have := representable_gap x q s hx hgap (Nat.lt_of_not_le hcon)
      omega
    have h3 := Nat.mul_le_mul_right d hle
    rw [e2] at h3
    omega
  · simp only [inf.injEq] at h
    refine ⟨h.symm, fun x hx => ?_⟩
    have hx1 := hxlt x hx
    have hle : x ≤ q * 2 ^ s := by omega
    have h3 := Nat.mul_le_mul_right d hle
    rw [e2] at h3
    omega

/-- The float64 sum of any two values is a float64 value. -/
theorem add_isFloat64 (x y : F64) : isFloat64 (x + y) = true := by
  change isFloat64 (add x y) = true
  cases x <;> cases y <;> simp only [add, isFloat64]
  · split_ifs <;> rfl
  · rename_i a m b n
    split_ifs with h0
    · simp [isFloat64, representable, bitLen_zero, overflowBound]
    · cases hr : round (decide (signed a m + signed b n < 0)) (signed a m + signed b n).natAbs 1 with
      | nan => rfl
      | inf c => rfl
      | fin c k => exact (round_nearest _ _ _ _ _ Nat.one_pos hr).2.1

/-- The float64 read from a fraction is a float64 value. -/
theorem ofRatio_isFloat64 (neg : Bool) (num den : Nat) (hden : 0 < den) :
    isFloat64 (ofRatio neg num den) = true := by
  unfold ofRatio
  cases hr : round neg (num * 2 ^ 1074) den with
  | nan => rfl
  | inf c => rfl
  | fin c k => exact (round_nearest _ _ _ _ _ hden hr).2.1

/-- Every bit pattern decodes to a float64 value. -/
theorem ofBits_isFloat64 (b : Nat) : isFloat64 (ofBits b) = true := by
  unfold ofBits
  simp only
  split_ifs with h1 h2 h3
  · rfl
  · rfl
  · have hf : b % 2 ^ 52 < 2 ^ 53 := Nat.lt_trans (Nat.mod_lt _ (by norm_num)) (by norm_num)
    have := representable_mul_pow (b % 2 ^ 52) 0 (Nat.le_of_lt hf)
      (by rw [pow_zero, mul_one]; exact Nat.lt_trans hf (by norm_num [overflowBound]))
    simpa [isFloat64] using this
  · have hf : b % 2 ^ 52 < 2 ^ 52 := Nat.mod_lt _ (by norm_num)
    have he : b / 2 ^ 52 % 2048 < 2048 := Nat.mod_lt _ (by norm_num)
    have he1 : b / 2 ^ 52 % 2048 - 1 ≤ 2045 := by omega
    have hle : 2 ^ 52 + b % 2 ^ 52 ≤ 2 ^ 53 := by omega
    have hpow : 2 ^ (b / 2 ^ 52 % 2048 - 1) ≤ 2 ^ 2045 := Nat.pow_le_pow_right (by norm_num) he1
    have hlt : (2 ^ 52 + b % 2 ^ 52) * 2 ^ (b / 2 ^ 52 % 2048 - 1) < overflowBound := by
      have h4 : 2 ^ 52 + b % 2 ^ 52 < 2 ^ 53 := by omega
      calc (2 ^ 52 + b % 2 ^ 52) * 2 ^ (b / 2 ^ 52 % 2048 - 1)
          ≤ (2 ^ 52 + b % 2 ^ 52) * 2 ^ 2045 := Nat.mul_le_mul_left _ hpow
        _ < 2 ^ 53 * 2 ^ 2045 := Nat.mul_lt_mul_of_pos_right h4 (by positivity)
        _ = overflowBound := by norm_num [overflowBound]
    exact representable_mul_pow _ _ hle hlt

end F64

/-- The float64 product of any two values is a float64 value. -/
theorem F64.mul_isFloat64 (x y : F64) : F64.isFloat64 (x * y) = true := by
  change F64.isFloat64 (F64.mul x y) = true
  cases x <;> cases y <;> simp only [F64.mul, F64.isFloat64]
  · split_ifs <;> rfl
  · split_ifs <;> rfl
  · rename_i a m b n
    cases hr : F64.round (xor a b) (m * n) (2 ^ 1074) with
    | nan => rfl
    | inf c => rfl
    | fin c k => exact (F64.round_nearest _ _ _ _ _ (by positivity) hr).2.1

/-- The product and the conversion of integers on well-known values: `0.1 * 3` is
`0.30000000000000004`, `19.99 * 3` is `59.97`, `1.1 * 1.1` is
`1.2100000000000002`; a product too large is infinite, too small is zero with
the sign of the product; an infinity times zero is NaN; the integer `2^53 + 1`
becomes `2^53`. -/
theorem F64.mul_checks :
    F64.ofRatio false 1 10 * F64.ofInt 3 = F64.ofBits 0x3FD3333333333334 ∧
    F64.ofInt 3 * F64.ofRatio false 1999 100 = F64.ofBits 0x404DFC28F5C28F5C ∧
    F64.ofRatio false 5997 100 = F64.ofBits 0x404DFC28F5C28F5C ∧
    F64.ofRatio false 11 10 * F64.ofRatio false 11 10 = F64.ofBits 0x3FF35C28F5C28F5D ∧
    F64.ofInt 10 * F64.ofRatio false (10 ^ 308) 1 = F64.inf false ∧
    F64.ofBits 1 * F64.ofRatio true 1 2 = F64.fin true 0 ∧
    F64.ofBits 1 * F64.ofRatio false 3 2 = F64.ofBits 2 ∧
    F64.inf false * (0 : F64) = F64.nan ∧
    F64.ofInt (-2) * (0 : F64) = F64.fin true 0 ∧
    F64.ofInt (2 ^ 53 + 1) = F64.ofInt (2 ^ 53) ∧
    F64.ofInt (2 ^ 53 + 3) = F64.ofInt (2 ^ 53 + 4) ∧
    F64.ofInt 0 = (0 : F64) := by
  decide

/-! ## Lemmas on the order of float64 -/

theorem F64.not_le_of_lt {x y : F64} (h : x < y) : ¬ y ≤ x := by
  change F64.lt x y = true at h
  change ¬ (F64.le y x = true)
  unfold F64.lt at h
  unfold F64.le
  cases hx : F64.key x <;> cases hy : F64.key y <;> simp_all

/-- Go's `x <= y` excludes `y < x`. -/
theorem F64.not_lt_of_le {x y : F64} (h : x ≤ y) : ¬ y < x := by
  change F64.le x y = true at h
  change ¬ (F64.lt y x = true)
  unfold F64.le at h
  unfold F64.lt
  cases hx : F64.key x <;> cases hy : F64.key y <;> simp_all

/-- `round` overflows only strictly above every float64 magnitude. -/
theorem F64.round_inf_lt (neg neg1 : Bool) (n d : Nat) (hd : 0 < d)
    (h : F64.round neg n d = F64.inf neg1) :
    ∀ x, F64.representable x = true → x * d < n := by
  have hqge := F64.round_quotient_ge n d
  unfold F64.round at h
  simp only at h
  generalize F64.bitLen (n / d) - 53 = s at h hqge
  have hdm := Nat.div_add_mod n (d * 2 ^ s)
  have hD : 0 < d * 2 ^ s := by positivity
  generalize hq : n / (d * 2 ^ s) = q at h hqge hdm
  generalize hr : n % (d * 2 ^ s) = r at h hdm
  have hgap : s = 0 ∨ 2 ^ 52 ≤ q := by
    rcases Nat.eq_zero_or_pos s with h0 | h0
    · exact Or.inl h0
    · exact Or.inr (hqge h0)
  have e2 : q * 2 ^ s * d = d * 2 ^ s * q := by ring
  have hxlt : ∀ x, F64.representable x = true → x < F64.overflowBound := by
    intro x hx
    unfold F64.representable at hx
    simp only [Bool.and_eq_true, decide_eq_true_eq, beq_iff_eq] at hx
    exact hx.1
  split_ifs at h with hup hfin hfin
  · intro x hx
    have hx1 := hxlt x hx
    have hle : x ≤ q * 2 ^ s := by
      by_contra hcon
      have := F64.representable_gap x q s hx hgap (Nat.lt_of_not_le hcon)
      omega
    have h3 := Nat.mul_le_mul_right d hle
    rw [e2] at h3
    generalize x * d = A at h3 ⊢
    generalize d * 2 ^ s = D at *
    generalize D * q = B at *
    omega
  · intro x hx
    have hx1 := hxlt x hx
    have hlt : x < q * 2 ^ s := by omega
    have h3 := Nat.mul_lt_mul_of_pos_right hlt hd
    rw [e2] at h3
    omega

/-- Adding a value that is not negative to a finite float64 does not give less. -/
theorem F64.le_add_of_nonneg (s : Bool) (m : Nat) (y : F64)
    (hm : F64.representable m = true) (hy : (0 : F64) ≤ y) :
    F64.fin s m ≤ F64.fin s m + y := by
  have hmlt : m < F64.overflowBound := by
    unfold F64.representable at hm
    simp only [Bool.and_eq_true, decide_eq_true_eq, beq_iff_eq] at hm
    exact hm.1
  change F64.le (F64.fin s m) (F64.add (F64.fin s m) y) = true
  change F64.le (F64.fin false 0) y = true at hy
  cases y with
  | nan => simp [F64.le, F64.key] at hy
  | inf b =>
    cases b
    · cases s <;> simp [F64.add, F64.le, F64.key, F64.signed] <;> omega
    · simp [F64.le, F64.key, F64.signed, F64.overflowBound] at hy
  | fin b n =>
    have hbn : 0 ≤ F64.signed b n := by
      simpa [F64.le, F64.key, F64.signed] using hy
    simp only [F64.add]
    split_ifs with h0
    · simp only [F64.le, F64.key, decide_eq_true_eq]
      cases s <;> cases b <;> simp [F64.signed] at h0 hbn ⊢ <;> omega
    · cases hr : F64.round (decide (F64.signed s m + F64.signed b n < 0))
          (F64.signed s m + F64.signed b n).natAbs 1 with
      | nan =>
        unfold F64.round at hr
        simp only at hr
        split_ifs at hr
      | inf c =>
        have h1 := (F64.round_inf _ _ _ _ hr).1
        have h2 := F64.round_inf_lt _ _ _ _ Nat.one_pos hr m hm
        subst h1
        simp only [F64.le, F64.key, decide_eq_true_eq]
        cases s <;> cases b <;>
          simp [F64.signed] at h0 hbn h2 ⊢ <;> (try split_ifs) <;> omega
      | fin c k =>
        obtain ⟨h1, -, h3⟩ := F64.round_nearest _ _ _ _ _ Nat.one_pos hr
        have h4 := h3 m hm
        subst h1
        simp only [F64.le, F64.key, decide_eq_true_eq]
        unfold Nat.dist at h4
        cases s <;> cases b <;>
          simp [F64.signed] at h0 hbn h4 ⊢ <;> (try split_ifs) <;> omega

/-- The float64 values above 0: `+Inf` and the finite values of positive magnitude. -/
theorem F64.pos_iff (x : F64) :
    (0 : F64) < x ↔ x = F64.inf false ∨ ∃ m, x = F64.fin false m ∧ 0 < m := by
  change F64.lt (F64.fin false 0) x = true ↔ _
  cases x with
  | nan => simp [F64.lt, F64.key]
  | inf b =>
    cases b
    · simp [F64.lt, F64.key, F64.signed, F64.overflowBound]
    · simp [F64.lt, F64.key, F64.signed, F64.overflowBound]
  | fin b n =>
    cases b
    · simp [F64.lt, F64.key, F64.signed]
    · simp [F64.lt, F64.key, F64.signed]

/-- Go's `x < y` gives `x <= y`. -/
theorem F64.le_of_lt {x y : F64} (h : x < y) : x ≤ y := by
  change F64.lt x y = true at h
  change F64.le x y = true
  unfold F64.lt at h
  unfold F64.le
  cases hx : F64.key x <;> cases hy : F64.key y <;> simp_all
  omega

/-- The magnitude 1, the smallest subnormal, is a float64 magnitude. -/
theorem F64.representable_one : F64.representable 1 = true := by
  have := F64.representable_mul_pow 1 0 (by norm_num) (by norm_num [F64.overflowBound])
  simpa using this

/-- Rounding a magnitude of at least one unit gives a value above 0. -/
theorem F64.round_pos (n d : Nat) (hd : 0 < d) (hn : d ≤ n) :
    (0 : F64) < F64.round false n d := by
  rw [F64.pos_iff]
  cases hr : F64.round false n d with
  | nan =>
    unfold F64.round at hr
    simp only at hr
    split_ifs at hr
  | inf c =>
    have h1 := (F64.round_inf _ _ _ _ hr).1
    subst h1
    exact Or.inl rfl
  | fin c m =>
    obtain ⟨h1, -, h3⟩ := F64.round_nearest _ _ _ _ _ hd hr
    subst h1
    refine Or.inr ⟨m, rfl, ?_⟩
    have h4 := h3 1 F64.representable_one
    unfold Nat.dist at h4
    rcases Nat.eq_zero_or_pos m with h0 | h0
    · subst h0
      simp at h4
      omega
    · exact h0

/-- Adding a value above 0 to a value that is not below 0 gives a value above 0. -/
theorem F64.add_pos_of_nonneg (x y : F64) (hx : (0 : F64) ≤ x) (hy : (0 : F64) < y) :
    (0 : F64) < x + y := by
  change (0 : F64) < F64.add x y
  rw [F64.pos_iff] at hy
  change F64.le (F64.fin false 0) x = true at hx
  cases x with
  | nan => simp [F64.le, F64.key] at hx
  | inf a =>
    cases a
    · rcases hy with hy | ⟨n, hy, hn⟩ <;> rw [hy] <;> simp only [F64.add] <;> decide
    · simp [F64.le, F64.key, F64.signed, F64.overflowBound] at hx
  | fin a m =>
    have hxm : 0 ≤ F64.signed a m := by
      simpa [F64.le, F64.key, F64.signed] using hx
    rcases hy with hy | ⟨n, hy, hn⟩
    · rw [hy]
      simp only [F64.add]
      decide
    · rw [hy]
      have hs : F64.signed a m + F64.signed false n ≠ 0 := by
        simp only [F64.signed] at hxm ⊢
        simp only [Bool.false_eq_true, if_false]
        omega
      have hlt : ¬ F64.signed a m + F64.signed false n < 0 := by
        simp only [F64.signed] at hxm ⊢
        simp only [Bool.false_eq_true, if_false]
        omega
      simp only [F64.add, if_neg hs, decide_eq_false hlt]
      apply F64.round_pos _ _ Nat.one_pos
      simp only [F64.signed] at hxm ⊢
      simp only [Bool.false_eq_true, if_false]
      omega

/-- Adding an amount above 0 to a float64 value never gives less: not for a
finite value, not for an infinity, and not for NaN, which is below nothing. -/
theorem F64.not_add_lt_of_pos (x y : F64) (hx : F64.isFloat64 x = true) (hy : (0 : F64) < y) :
    ¬ x + y < x := by
  cases x with
  | nan =>
    change ¬ (F64.lt (F64.add F64.nan y) F64.nan = true)
    simp [F64.lt, F64.key]
  | inf a =>
    rw [F64.pos_iff] at hy
    rcases hy with hy | ⟨n, hy, -⟩
    · rw [hy]
      cases a <;> decide
    · rw [hy]
      change ¬ (F64.lt (F64.add (F64.inf a) (F64.fin false n)) (F64.inf a) = true)
      simp [F64.add, F64.lt, F64.key]
  | fin a m =>
    exact F64.not_lt_of_le (F64.le_add_of_nonneg a m y hx (F64.le_of_lt hy))

/-- Adding an amount above 0 to a float64 value that is a number above `-Inf`
(a finite value or `+Inf`) gives a value that is not less, and again a number
above `-Inf`. -/
theorem F64.le_add_of_pos (x y : F64) (hx : F64.isFloat64 x = true)
    (hnum : F64.inf true < x) (hy : (0 : F64) < y) :
    x ≤ x + y ∧ F64.inf true < x + y := by
  cases x with
  | nan =>
    change F64.lt (F64.inf true) F64.nan = true at hnum
    simp [F64.lt, F64.key] at hnum
  | inf a =>
    cases a
    · rw [F64.pos_iff] at hy
      rcases hy with hy | ⟨n, hy, -⟩
      · rw [hy]
        exact ⟨by decide, by decide⟩
      · rw [hy]
        have hadd : F64.inf false + F64.fin false n = F64.inf false := rfl
        rw [hadd]
        exact ⟨by decide, by decide⟩
    · exact absurd hnum (by decide)
  | fin a m =>
    have hle := F64.le_add_of_nonneg a m y hx (F64.le_of_lt hy)
    refine ⟨hle, ?_⟩
    have hmlt : m < F64.overflowBound := by
      unfold F64.isFloat64 F64.representable at hx
      simp only [Bool.and_eq_true, decide_eq_true_eq, beq_iff_eq] at hx
      exact hx.1
    change F64.le (F64.fin a m) (F64.fin a m + y) = true at hle
    change F64.lt (F64.inf true) (F64.fin a m + y) = true
    generalize F64.fin a m + y = z at hle ⊢
    cases z with
    | nan => simp [F64.le, F64.key] at hle
    | inf c =>
      cases c
      · decide
      · simp only [F64.le, F64.key, decide_eq_true_eq] at hle
        cases a <;> simp [F64.signed] at hle <;> omega
    | fin c k =>
      simp only [F64.le, F64.lt, F64.key, decide_eq_true_eq] at hle ⊢
      cases a <;> cases c <;> simp [F64.signed] at hle ⊢ <;> omega

/-! ## The paths of `AddPayment` -/

/-- A call of `AddPayment` that returns a payment has read an invoice that is
neither paid nor canceled, has found the amount within the remaining balance, and
has made the three repository calls, which succeeded. -/
theorem AddPayment_ok_inv {uc : PaymentUseCase} {clock : Clock}
    {req : CreatePaymentRequest} {userID : UUID} {p : Payment}
    (hok : (AddPayment uc clock req userID).ret = .ok p) :
    ∃ inv,
      uc.invoiceRepo.FindByID req.InvoiceID = .ok inv ∧
      inv.Status ≠ StatusPaid ∧ inv.Status ≠ StatusCanceled ∧
      ¬ req.Amount > inv.TotalAmount - inv.PaidAmount ∧
      uc.paymentRepo.Create (newPayment clock req userID) = .ok p ∧
      uc.invoiceRepo.Update (applyPayment clock inv req.Amount) = none ∧
      (AddPayment uc clock req userID).calls =
        [.invoiceFindByID req.InvoiceID, .paymentCreate (newPayment clock req userID),
          .invoiceUpdate (applyPayment clock inv req.Amount)] := by
  unfold AddPayment at hok ⊢
  cases hfind : uc.invoiceRepo.FindByID req.InvoiceID with
  | error e => simp [hfind] at hok
  | ok inv =>
    refine ⟨inv, rfl, ?_⟩
    simp only [hfind] at hok ⊢
    split_ifs at hok ⊢ with h1 h2 h3
    cases hc : uc.paymentRepo.Create (newPayment clock req userID) with
    | error e => simp [hc] at hok
    | ok created =>
      cases hu : uc.invoiceRepo.Update (applyPayment clock inv req.Amount) with
      | some e => simp [hc, hu] at hok
      | none =>
        simp only [hc, hu, Except.ok.injEq] at hok
        subst hok
        simp only [hc, hu]
        exact ⟨h1, h2, h3, trivial, trivial, trivial⟩

/-- The path of `AddPayment` on which everything succeeds. -/
theorem AddPayment_ok_of {uc : PaymentUseCase} {clock : Clock}
    {req : CreatePaymentRequest} {userID : UUID} {inv : Invoice} {p : Payment}
    (hfind : uc.invoiceRepo.FindByID req.InvoiceID = .ok inv)
    (hpaid : inv.Status ≠ StatusPaid) (hcanceled : inv.Status ≠ StatusCanceled)
    (hamount : ¬ req.Amount > inv.TotalAmount - inv.PaidAmount)
    (hcreate : uc.paymentRepo.Create (newPayment clock req userID) = .ok p)
    (hupdate : uc.invoiceRepo.Update (applyPayment clock inv req.Amount) = none) :
    AddPayment uc clock req userID =
      ⟨.ok p, [.invoiceFindByID req.InvoiceID, .paymentCreate (newPayment clock req userID),
        .invoiceUpdate (applyPayment clock inv req.Amount)]⟩ := by
  unfold AddPayment
  simp only [hfind, if_neg hpaid, if_neg hcanceled, if_neg hamount, hcreate, hupdate]

/-- The `PaidAmount` of the invoice handed to `Update`. -/
theorem applyPayment_PaidAmount (clock : Clock) (inv : Invoice) (amount : F64) :
    (applyPayment clock inv amount).PaidAmount = inv.PaidAmount + amount := by
  unfold applyPayment
  simp only
  split_ifs <;> rfl

/-- The `TotalAmount` of the invoice handed to `Update`. -/
theorem applyPayment_TotalAmount (clock : Clock) (inv : Invoice) (amount : F64) :
    (applyPayment clock inv amount).TotalAmount = inv.TotalAmount := by
  unfold applyPayment
  simp only
  split_ifs <;> rfl

/-- The invoice handed to `Update` when the new paid amount is positive and below
the total: only `PaidAmount` and `Status` differ from the invoice read, and the
status is `overdue` or `pending` according to the clock. -/
theorem applyPayment_below_total (clock : Clock) (inv : Invoice) (amount : F64)
    (hpos : 0 < inv.PaidAmount + amount) (hlt : inv.PaidAmount + amount < inv.TotalAmount) :
    applyPayment clock inv amount =
      { inv with
        PaidAmount := inv.PaidAmount + amount
        Status := if clock.atDueCheck.After inv.DueDate then StatusOverdue else StatusPending } := by
  unfold applyPayment
  have hge : ¬ (inv.PaidAmount + amount ≥ inv.TotalAmount) := F64.not_le_of_lt hlt
  have hgt : inv.PaidAmount + amount > 0 := hpos
  simp only [if_neg hge, if_pos hgt]
  split_ifs <;> rfl

/-- The paths of `AddPayment` that stop after `FindByID` has returned an invoice:
the invoice is paid or canceled, or the amount is above the remaining balance. -/
theorem AddPayment_rejected (uc : PaymentUseCase) (clock : Clock)
    (req : CreatePaymentRequest) (userID : UUID) (inv : Invoice)
    (hfind : uc.invoiceRepo.FindByID req.InvoiceID = .ok inv) :
    (inv.Status = StatusPaid →
      AddPayment uc clock req userID =
        ⟨.error (BadRequest "invoice is already fully paid"),
          [.invoiceFindByID req.InvoiceID]⟩) ∧
    (inv.Status = StatusCanceled →
      AddPayment uc clock req userID =
        ⟨.error (BadRequest "cannot add payment to canceled invoice"),
          [.invoiceFindByID req.InvoiceID]⟩) ∧
    (inv.Status ≠ StatusPaid → inv.Status ≠ StatusCanceled →
      req.Amount > inv.TotalAmount - inv.PaidAmount →
      AddPayment uc clock req userID =
        ⟨.error (BadRequest "payment amount exceeds remaining balance"),
          [.invoiceFindByID req.InvoiceID]⟩) := by
  refine ⟨fun h => ?_, fun h => ?_, fun h1 h2 h3 => ?_⟩
  · unfold AddPayment
    simp only [hfind, if_pos h]
  · have hne : inv.Status ≠ StatusPaid := by
      rw [h]
      decide
    unfold AddPayment
    simp only [hfind, if_neg hne, if_pos h]
  · unfold AddPayment
    simp only [hfind, if_neg h1, if_neg h2, if_pos h3]

/-- The scenario of the specification: on the invoice of 660.00 with nothing paid,
due in the future, a payment of 660.00 is created and the invoice handed to
`Update` is paid in full, with status `paid` and `PaidAt` set. -/
theorem AddPayment_scenario_660 :
    AddPayment (reposOf invoice660) (clockAt 1000) (requestOf (F64.ofRatio false 660 1)) 7 =
      ⟨.ok (paymentOf (F64.ofRatio false 660 1) 1000),
        [.invoiceFindByID 1,
          .paymentCreate { paymentOf (F64.ofRatio false 660 1) 1000 with ID := 0 },
          .invoiceUpdate { invoice660 with
            PaidAmount := F64.ofRatio false 660 1
            Status := StatusPaid
            PaidAt := some ⟨1000⟩ }]⟩ := by
  rfl

/-! ## Properties of `AddPayment` -/

/-- C1. Whenever `AddPayment` returns a payment and no error, it has read an invoice
with `FindByID`, and the invoice it passed to `Update` has as `PaidAmount` the
`PaidAmount` read plus the amount of the request (Go's float64 `+`); the calls
made are `FindByID`, `Create` and `Update`, once each and in this order. -/
theorem AddPayment_adds_amount (uc : PaymentUseCase) (clock : Clock)
    (req : CreatePaymentRequest) (userID : UUID) (p : Payment)
    (hok : (AddPayment uc clock req userID).ret = .ok p) :
    ∃ inv created updated,
      uc.invoiceRepo.FindByID req.InvoiceID = .ok inv ∧
      (AddPayment uc clock req userID).calls =
        [.invoiceFindByID req.InvoiceID, .paymentCreate created, .invoiceUpdate updated] ∧
      updated.PaidAmount = inv.PaidAmount + req.Amount := by
  obtain ⟨inv, hfind, -, -, -, -, -, hcalls⟩ := AddPayment_ok_inv hok
  exact ⟨inv, _, _, hfind, hcalls, applyPayment_PaidAmount clock inv req.Amount⟩

/-- C1, at the invoice of 660.00 with nothing paid and a payment of 660.00. -/
theorem AddPayment_adds_amount_witness :
    (AddPayment (reposOf invoice660) (clockAt 1000)
        (requestOf (F64.ofRatio false 660 1)) 7).ret
      = .ok (paymentOf (F64.ofRatio false 660 1) 1000) ∧
    ∃ inv created updated,
      (reposOf invoice660).invoiceRepo.FindByID
        (requestOf (F64.ofRatio false 660 1)).InvoiceID = .ok inv ∧
      (AddPayment (reposOf invoice660) (clockAt 1000)
        (requestOf (F64.ofRatio false 660 1)) 7).calls =
        [.invoiceFindByID (requestOf (F64.ofRatio false 660 1)).InvoiceID,
          .paymentCreate created, .invoiceUpdate updated] ∧
      updated.PaidAmount = inv.PaidAmount + (requestOf (F64.ofRatio false 660 1)).Amount :=
  ⟨rfl, AddPayment_adds_amount _ _ _ _ _ rfl⟩

/-- C2. The invoice of 500.20 with 64.10 paid has `PaidAmount ≤ TotalAmount`, and
436.10, the float64 `500.20 - 64.10`, is within its remaining balance; `AddPayment`
accepts a payment of 436.10 and hands to `Update` an invoice whose `PaidAmount`,
the float64 `64.10 + 436.10 = 500.20000000000005`, is above its `TotalAmount`:
`PaidAmount ≤ TotalAmount` is not preserved. -/
theorem AddPayment_paid_above_total :
    invoice50020.TotalAmount = F64.ofBits 0x407F433333333333 ∧
    invoice50020.PaidAmount = F64.ofBits 0x4050066666666666 ∧
    F64.ofRatio false 43610 100 = F64.ofBits 0x407B41999999999A ∧
    invoice50020.PaidAmount ≤ invoice50020.TotalAmount ∧
    invoice50020.TotalAmount - invoice50020.PaidAmount = F64.ofRatio false 43610 100 ∧
    ∃ updated,
      AddPayment (reposOf invoice50020) (clockAt 1000)
          (requestOf (F64.ofRatio false 43610 100)) 7 =
        ⟨.ok (paymentOf (F64.ofRatio false 43610 100) 1000),
          [.invoiceFindByID 1,
            .paymentCreate { paymentOf (F64.ofRatio false 43610 100) 1000 with ID := 0 },
            .invoiceUpdate updated]⟩ ∧
      updated.TotalAmount = F64.ofRatio false 50020 100 ∧
      updated.PaidAmount = F64.ofBits 0x407F433333333334 ∧
      updated.TotalAmount < updated.PaidAmount ∧
      ¬ updated.PaidAmount ≤ updated.TotalAmount :=
  ⟨by decide, by decide, by decide, by decide, by decide, _, rfl, rfl, by decide, by decide,
    by decide⟩

/-- C3. On the pending invoice of 660.10 with 128.05 paid, due in the future, a
payment of exactly `TotalAmount - PaidAmount` (the float64 `660.10 - 128.05`, which
is 532.05) is accepted and created, but the invoice handed to `Update` has
`PaidAmount` 660.0999999999999, below its `TotalAmount`: its status stays
`pending` and `PaidAt` stays unset. -/
theorem AddPayment_exact_balance_stays_pending :
    invoice66010.TotalAmount = F64.ofBits 0x4084A0CCCCCCCCCD ∧
    invoice66010.PaidAmount = F64.ofBits 0x406001999999999A ∧
    F64.ofRatio false 53205 100 = F64.ofBits 0x4080A06666666666 ∧
    invoice66010.Status ≠ StatusPaid ∧ invoice66010.Status ≠ StatusCanceled ∧
    invoice66010.TotalAmount - invoice66010.PaidAmount = F64.ofRatio false 53205 100 ∧
    ∃ updated,
      AddPayment (reposOf invoice66010) (clockAt 1000)
          (requestOf (invoice66010.TotalAmount - invoice66010.PaidAmount)) 7 =
        ⟨.ok (paymentOf (F64.ofRatio false 53205 100) 1000),
          [.invoiceFindByID 1,
            .paymentCreate { paymentOf (F64.ofRatio false 53205 100) 1000 with ID := 0 },
            .invoiceUpdate updated]⟩ ∧
      updated.PaidAmount = F64.ofBits 0x4084A0CCCCCCCCCC ∧
      updated.PaidAmount < updated.TotalAmount ∧
      updated.Status = StatusPending ∧
      updated.Status ≠ StatusPaid ∧
      updated.PaidAt = none :=
  ⟨by decide, by decide, by decide, by decide, by decide, by decide, _, rfl, by decide,
    by decide, by decide, by decide, rfl⟩

/-- C4. When `AddPayment` accepts a payment on the invoice `inv` it read, the new
paid amount is above zero and below the total, and the clock reads after the due
date, then the invoice handed to `Update` has status `overdue` and the new paid
amount. -/
theorem AddPayment_partial_overdue (uc : PaymentUseCase) (clock : Clock)
    (req : CreatePaymentRequest) (userID : UUID) (inv : Invoice) (p : Payment)
    (hfind : uc.invoiceRepo.FindByID req.InvoiceID = .ok inv)
    (hok : (AddPayment uc clock req userID).ret = .ok p)
    (hpos : 0 < inv.PaidAmount + req.Amount)
    (hlt : inv.PaidAmount + req.Amount < inv.TotalAmount)
    (hdue : clock.atDueCheck.After inv.DueDate = true) :
    ∃ created updated,
      (AddPayment uc clock req userID).calls =
        [.invoiceFindByID req.InvoiceID, .paymentCreate created, .invoiceUpdate updated] ∧
      updated.Status = StatusOverdue ∧
      updated.PaidAmount = inv.PaidAmount + req.Amount := by
  obtain ⟨inv1, hfind1, -, -, -, -, -, hcalls⟩ := AddPayment_ok_inv hok
  rw [hfind] at hfind1
  cases hfind1
  refine ⟨_, _, hcalls, ?_, ?_⟩
  · rw [applyPayment_below_total clock inv req.Amount hpos hlt]
    simp only [hdue, if_true]
  · rw [applyPayment_below_total clock inv req.Amount hpos hlt]

/-- C4, at the invoice of 880.00 with nothing paid, due at instant 2000, and a
payment of 400.00 made at instant 3000: the status becomes `overdue` and the paid
amount 400.00. -/
theorem AddPayment_partial_overdue_witness :
    (∃ created updated,
      (AddPayment (reposOf invoice880) (clockAt 3000)
          (requestOf (F64.ofRatio false 400 1)) 7).calls =
        [.invoiceFindByID (requestOf (F64.ofRatio false 400 1)).InvoiceID,
          .paymentCreate created, .invoiceUpdate updated] ∧
      updated.Status = StatusOverdue ∧
      updated.PaidAmount = invoice880.PaidAmount + (requestOf (F64.ofRatio false 400 1)).Amount) ∧
    invoice880.PaidAmount + (requestOf (F64.ofRatio false 400 1)).Amount
      = F64.ofRatio false 400 1 :=
  ⟨AddPayment_partial_overdue (reposOf invoice880) (clockAt 3000)
    (requestOf (F64.ofRatio false 400 1)) 7 invoice880
    (paymentOf (F64.ofRatio false 400 1) 3000) rfl rfl (by decide) (by decide) rfl,
    by decide⟩

/-- C5. When `AddPayment` accepts a payment on a pending invoice `inv`, the new paid
amount is above zero and below the total, and the clock does not read after the
due date, then the invoice handed to `Update` is still pending and its `PaidAt` is
the one read: `AddPayment` does not set it. -/
theorem AddPayment_partial_pending (uc : PaymentUseCase) (clock : Clock)
    (req : CreatePaymentRequest) (userID : UUID) (inv : Invoice) (p : Payment)
    (hfind : uc.invoiceRepo.FindByID req.InvoiceID = .ok inv)
    (hok : (AddPayment uc clock req userID).ret = .ok p)
    (hpending : inv.Status = StatusPending)
    (hpos : 0 < inv.PaidAmount + req.Amount)
    (hlt : inv.PaidAmount + req.Amount < inv.TotalAmount)
    (hdue : clock.atDueCheck.After inv.DueDate = false) :
    ∃ created updated,
      (AddPayment uc clock req userID).calls =
        [.invoiceFindByID req.InvoiceID, .paymentCreate created, .invoiceUpdate updated] ∧
      updated.Status = StatusPending ∧
      updated.Status = inv.Status ∧
      updated.PaidAt = inv.PaidAt := by
  obtain ⟨inv1, hfind1, -, -, -, -, -, hcalls⟩ := AddPayment_ok_inv hok
  rw [hfind] at hfind1
  cases hfind1
  refine ⟨_, _, hcalls, ?_, ?_, ?_⟩
  · rw [applyPayment_below_total clock inv req.Amount hpos hlt]
    simp [hdue]
  · rw [applyPayment_below_total clock inv req.Amount hpos hlt, hpending]
    simp [hdue]
  · rw [applyPayment_below_total clock inv req.Amount hpos hlt]

/-- C5, at the invoice of 880.00 with nothing paid, due at instant 2000, and a
payment of 400.00 made at instant 1000. -/
theorem AddPayment_partial_pending_witness :
    ∃ created updated,
      (AddPayment (reposOf invoice880) (clockAt 1000)
          (requestOf (F64.ofRatio false 400 1)) 7).calls =
        [.invoiceFindByID (requestOf (F64.ofRatio false 400 1)).InvoiceID,
          .paymentCreate created, .invoiceUpdate updated] ∧
      updated.Status = StatusPending ∧
      updated.Status = invoice880.Status ∧
      updated.PaidAt = invoice880.PaidAt :=
  AddPayment_partial_pending (reposOf invoice880) (clockAt 1000)
    (requestOf (F64.ofRatio false 400 1)) 7 invoice880
    (paymentOf (F64.ofRatio false 400 1) 1000) rfl rfl rfl (by decide) (by decide) rfl

/-- C6. When the invoice read is paid or canceled, `AddPayment` returns an error and
its only repository call is `FindByID`: neither `Create` nor `Update` is called. -/
theorem AddPayment_paid_or_canceled_no_effect (uc : PaymentUseCase) (clock : Clock)
    (req : CreatePaymentRequest) (userID : UUID) (inv : Invoice)
    (hfind : uc.invoiceRepo.FindByID req.InvoiceID = .ok inv)
    (hstatus : inv.Status = StatusPaid ∨ inv.Status = StatusCanceled) :
    (∃ err, (AddPayment uc clock req userID).ret = .error err) ∧
    (AddPayment uc clock req userID).calls = [.invoiceFindByID req.InvoiceID] ∧
    (∀ q, Call.paymentCreate q ∉ (AddPayment uc clock req userID).calls) ∧
    (∀ i, Call.invoiceUpdate i ∉ (AddPayment uc clock req userID).calls) := by
  obtain ⟨hp, hc, -⟩ := AddPayment_rejected uc clock req userID inv hfind
  rcases hstatus with h | h
  · rw [hp h]
    exact ⟨⟨_, rfl⟩, rfl, by simp, by simp⟩
  · rw [hc h]
    exact ⟨⟨_, rfl⟩, rfl, by simp, by simp⟩

/-- C6, at the canceled invoice of 660.00. -/
theorem AddPayment_paid_or_canceled_no_effect_witness :
    (∃ err, (AddPayment (reposOf invoiceCanceled) (clockAt 1000)
      (requestOf (F64.ofRatio false 660 1)) 7).ret = .error err) ∧
    (AddPayment (reposOf invoiceCanceled) (clockAt 1000)
      (requestOf (F64.ofRatio false 660 1)) 7).calls =
        [.invoiceFindByID (requestOf (F64.ofRatio false 660 1)).InvoiceID] ∧
    (∀ q, Call.paymentCreate q ∉ (AddPayment (reposOf invoiceCanceled) (clockAt 1000)
      (requestOf (F64.ofRatio false 660 1)) 7).calls) ∧
    (∀ i, Call.invoiceUpdate i ∉ (AddPayment (reposOf invoiceCanceled) (clockAt 1000)
      (requestOf (F64.ofRatio false 660 1)) 7).calls) :=
  AddPayment_paid_or_canceled_no_effect (reposOf invoiceCanceled) (clockAt 1000)
    (requestOf (F64.ofRatio false 660 1)) 7 invoiceCanceled rfl (Or.inr rfl)

/-- C7, as stated, fails: on the fully paid invoice of 660.00 the error returned
has status code 400, not 409, and does not wrap `ErrConflict`. -/
theorem AddPayment_paid_not_conflict :
    ∃ err,
      (AddPayment (reposOf invoicePaid) (clockAt 1000)
        (requestOf (F64.ofRatio false 10 1)) 7).ret = .error err ∧
      GetStatusCode err = 400 ∧
      GetStatusCode err ≠ StatusConflict ∧
      err.is .ErrConflict = false ∧
      err ≠ Conflict "invoice is already fully paid" :=
  ⟨_, rfl, rfl, by decide, rfl, by decide⟩

/-- C7, amended. When the invoice read is paid, `AddPayment` returns no payment and
the error `BadRequest("invoice is already fully paid")`: its status code is 400,
it wraps `ErrBadRequest`, and its text is "invoice is already fully paid". -/
theorem AddPayment_paid_bad_request (uc : PaymentUseCase) (clock : Clock)
    (req : CreatePaymentRequest) (userID : UUID) (inv : Invoice)
    (hfind : uc.invoiceRepo.FindByID req.InvoiceID = .ok inv)
    (hpaid : inv.Status = StatusPaid) :
    ∃ err,
      (AddPayment uc clock req userID).ret = .error err ∧
      err = BadRequest "invoice is already fully paid" ∧
      GetStatusCode err = 400 ∧
      err.is .ErrBadRequest = true ∧
      err.Error = "invoice is already fully paid" := by
  rw [(AddPayment_rejected uc clock req userID inv hfind).1 hpaid]
  exact ⟨_, rfl, rfl, rfl, rfl, by decide⟩

/-- C7 amended, at the fully paid invoice of 660.00. -/
theorem AddPayment_paid_bad_request_witness :
    ∃ err,
      (AddPayment (reposOf invoicePaid) (clockAt 1000)
        (requestOf (F64.ofRatio false 10 1)) 7).ret = .error err ∧
      err = BadRequest "invoice is already fully paid" ∧
      GetStatusCode err = 400 ∧
      err.is .ErrBadRequest = true ∧
      err.Error = "invoice is already fully paid" :=
  AddPayment_paid_bad_request (reposOf invoicePaid) (clockAt 1000)
    (requestOf (F64.ofRatio false 10 1)) 7 invoicePaid rfl rfl

/-- C8, as stated, fails: on the canceled invoice of 660.00 the error returned has
status code 400, not 409. -/
theorem AddPayment_canceled_not_conflict :
    ∃ err,
      (AddPayment (reposOf invoiceCanceled) (clockAt 1000)
        (requestOf (F64.ofRatio false 10 1)) 7).ret = .error err ∧
      GetStatusCode err = 400 ∧
      GetStatusCode err ≠ StatusConflict ∧
      err.is .ErrConflict = false :=
  ⟨_, rfl, rfl, by decide, rfl⟩

/-- C8, amended. When the invoice read is canceled, `AddPayment` returns no payment
and the error `BadRequest("cannot add payment to canceled invoice")`: its status
code is 400, it wraps `ErrBadRequest`, and its text is
"cannot add payment to canceled invoice". -/
theorem AddPayment_canceled_bad_request (uc : PaymentUseCase) (clock : Clock)
    (req : CreatePaymentRequest) (userID : UUID) (inv : Invoice)
    (hfind : uc.invoiceRepo.FindByID req.InvoiceID = .ok inv)
    (hcanceled : inv.Status = StatusCanceled) :
    ∃ err,
      (AddPayment uc clock req userID).ret = .error err ∧
      err = BadRequest "cannot add payment to canceled invoice" ∧
      GetStatusCode err = 400 ∧
      err.is .ErrBadRequest = true ∧
      err.Error = "cannot add payment to canceled invoice" := by
  rw [(AddPayment_rejected uc clock req userID inv hfind).2.1 hcanceled]
  exact ⟨_, rfl, rfl, rfl, rfl, by decide⟩

/-- C8 amended, at the canceled invoice of 660.00. -/
theorem AddPayment_canceled_bad_request_witness :
    ∃ err,
      (AddPayment (reposOf invoiceCanceled) (clockAt 1000)
        (requestOf (F64.ofRatio false 10 1)) 7).ret = .error err ∧
      err = BadRequest "cannot add payment to canceled invoice" ∧
      GetStatusCode err = 400 ∧
      err.is .ErrBadRequest = true ∧
      err.Error = "cannot add payment to canceled invoice" :=
  AddPayment_canceled_bad_request (reposOf invoiceCanceled) (clockAt 1000)
    (requestOf (F64.ofRatio false 10 1)) 7 invoiceCanceled rfl rfl

/-- C9. When the invoice read is neither paid nor canceled and the amount of the
request is above `TotalAmount - PaidAmount`, `AddPayment` returns no payment and a
`BadRequest` error, of status code 400, and its only repository call is
`FindByID`: no payment is created and the invoice is not updated. -/
theorem AddPayment_exceeds_balance (uc : PaymentUseCase) (clock : Clock)
    (req : CreatePaymentRequest) (userID : UUID) (inv : Invoice)
    (hfind : uc.invoiceRepo.FindByID req.InvoiceID = .ok inv)
    (hpaid : inv.Status ≠ StatusPaid) (hcanceled : inv.Status ≠ StatusCanceled)
    (hamount : req.Amount > inv.TotalAmount - inv.PaidAmount) :
    ∃ err,
      (AddPayment uc clock req userID).ret = .error err ∧
      err = BadRequest "payment amount exceeds remaining balance" ∧
      GetStatusCode err = 400 ∧
      err.is .ErrBadRequest = true ∧
      (AddPayment uc clock req userID).calls = [.invoiceFindByID req.InvoiceID] ∧
      (∀ q, Call.paymentCreate q ∉ (AddPayment uc clock req userID).calls) ∧
      (∀ i, Call.invoiceUpdate i ∉ (AddPayment uc clock req userID).calls) := by
  rw [(AddPayment_rejected uc clock req userID inv hfind).2.2 hpaid hcanceled hamount]
  exact ⟨_, rfl, rfl, rfl, rfl, rfl, by simp, by simp⟩

/-- C9, at the invoice of 660.10 with 128.05 paid and a payment of 532.06. -/
theorem AddPayment_exceeds_balance_witness :
    ∃ err,
      (AddPayment (reposOf invoice66010) (clockAt 1000)
        (requestOf (F64.ofRatio false 53206 100)) 7).ret = .error err ∧
      err = BadRequest "payment amount exceeds remaining balance" ∧
      GetStatusCode err = 400 ∧
      err.is .ErrBadRequest = true ∧
      (AddPayment (reposOf invoice66010) (clockAt 1000)
        (requestOf (F64.ofRatio false 53206 100)) 7).calls =
        [.invoiceFindByID (requestOf (F64.ofRatio false 53206 100)).InvoiceID] ∧
      (∀ q, Call.paymentCreate q ∉ (AddPayment (reposOf invoice66010) (clockAt 1000)
        (requestOf (F64.ofRatio false 53206 100)) 7).calls) ∧
      (∀ i, Call.invoiceUpdate i ∉ (AddPayment (reposOf invoice66010) (clockAt 1000)
        (requestOf (F64.ofRatio false 53206 100)) 7).calls) :=
  AddPayment_exceeds_balance (reposOf invoice66010) (clockAt 1000)
    (requestOf (F64.ofRatio false 53206 100)) 7 invoice66010 rfl (by decide) (by decide)
    (by decide)

/-- C10. When `FindByID` fails for the invoice of the request, `AddPayment` returns
no payment and the error `NotFound("invoice not found")`, of status code 404
and wrapping `ErrNotFound`, and its only repository call is that `FindByID`: no
payment is created and no invoice is updated. -/
theorem AddPayment_invoice_not_found (uc : PaymentUseCase) (clock : Clock)
    (req : CreatePaymentRequest) (userID : UUID) (e : GoError)
    (hfind : uc.invoiceRepo.FindByID req.InvoiceID = .error e) :
    ∃ err,
      (AddPayment uc clock req userID).ret = .error err ∧
      err = NotFound "invoice not found" ∧
      GetStatusCode err = 404 ∧
      err.is .ErrNotFound = true ∧
      (AddPayment uc clock req userID).calls = [.invoiceFindByID req.InvoiceID] ∧
      (∀ q, Call.paymentCreate q ∉ (AddPayment uc clock req userID).calls) ∧
      (∀ i, Call.invoiceUpdate i ∉ (AddPayment uc clock req userID).calls) := by
  have h : AddPayment uc clock req userID =
      ⟨.error (NotFound "invoice not found"), [.invoiceFindByID req.InvoiceID]⟩ := by
    unfold AddPayment
    simp only [hfind]
  rw [h]
  exact ⟨_, rfl, rfl, rfl, rfl, rfl, by simp, by simp⟩

/-- C10, with repositories in which no invoice is found. -/
theorem AddPayment_invoice_not_found_witness :
    ∃ err,
      (AddPayment reposEmpty (clockAt 1000) (requestOf (F64.ofRatio false 10 1)) 7).ret
        = .error err ∧
      err = NotFound "invoice not found" ∧
      GetStatusCode err = 404 ∧
      err.is .ErrNotFound = true ∧
      (AddPayment reposEmpty (clockAt 1000) (requestOf (F64.ofRatio false 10 1)) 7).calls =
        [.invoiceFindByID (requestOf (F64.ofRatio false 10 1)).InvoiceID] ∧
      (∀ q, Call.paymentCreate q ∉
        (AddPayment reposEmpty (clockAt 1000) (requestOf (F64.ofRatio false 10 1)) 7).calls) ∧
      (∀ i, Call.invoiceUpdate i ∉
        (AddPayment reposEmpty (clockAt 1000) (requestOf (F64.ofRatio false 10 1)) 7).calls) :=
  AddPayment_invoice_not_found reposEmpty (clockAt 1000)
    (requestOf (F64.ofRatio false 10 1)) 7 (.other "invoice not found") rfl

/-- Every payment that `AddPayment` hands to `Create` is the one built from the
request. -/
theorem AddPayment_create_call (uc : PaymentUseCase) (clock : Clock)
    (req : CreatePaymentRequest) (userID : UUID) (p : Payment)
    (hp : Call.paymentCreate p ∈ (AddPayment uc clock req userID).calls) :
    p = newPayment clock req userID := by
  unfold AddPayment at hp
  cases hfind : uc.invoiceRepo.FindByID req.InvoiceID with
  | error e => simp [hfind] at hp
  | ok inv =>
    simp only [hfind] at hp
    split_ifs at hp with h1 h2 h3
    · simp at hp
    · simp at hp
    · simp at hp
    · cases hc : uc.paymentRepo.Create (newPayment clock req userID) with
      | error e =>
        simp only [hc] at hp
        simpa using hp
      | ok created =>
        cases hu : uc.invoiceRepo.Update (applyPayment clock inv req.Amount) with
        | some e =>
          simp only [hc, hu] at hp
          simpa using hp
        | none =>
          simp only [hc, hu] at hp
          simpa using hp

/-- C11. When the invoice read is neither paid nor canceled, the amount of the
request is at most `TotalAmount - PaidAmount` (float64 `-` and `<=`), whatever its
size, and the calls of `Create` and `Update` that `AddPayment` makes succeed, then
`AddPayment` returns the payment and no error. -/
theorem AddPayment_within_balance (uc : PaymentUseCase) (clock : Clock)
    (req : CreatePaymentRequest) (userID : UUID) (inv : Invoice) (created : Payment)
    (hfind : uc.invoiceRepo.FindByID req.InvoiceID = .ok inv)
    (hpaid : inv.Status ≠ StatusPaid) (hcanceled : inv.Status ≠ StatusCanceled)
    (hamount : req.Amount ≤ inv.TotalAmount - inv.PaidAmount)
    (hcreate : uc.paymentRepo.Create (newPayment clock req userID) = .ok created)
    (hupdate : uc.invoiceRepo.Update (applyPayment clock inv req.Amount) = none) :
    (AddPayment uc clock req userID).ret = .ok created := by
  rw [AddPayment_ok_of hfind hpaid hcanceled (F64.not_lt_of_le hamount) hcreate hupdate]

/-- C11, at the invoice of 660.00 with nothing paid and a payment of the smallest
positive float64, `5e-324`. -/
theorem AddPayment_within_balance_witness :
    (AddPayment (reposOf invoice660) (clockAt 1000) (requestOf (F64.ofBits 1)) 7).ret
      = .ok (paymentOf (F64.ofBits 1) 1000) :=
  AddPayment_within_balance (reposOf invoice660) (clockAt 1000) (requestOf (F64.ofBits 1)) 7
    invoice660 (paymentOf (F64.ofBits 1) 1000) rfl (by decide) (by decide) (by decide) rfl rfl

/-- The invoice that a call of `AddPayment` hands to `Update`, whether `Update`
then succeeds or not, is `applyPayment` of the invoice read, which was neither
paid nor canceled. -/
theorem AddPayment_update_call (uc : PaymentUseCase) (clock : Clock)
    (req : CreatePaymentRequest) (userID : UUID) (updated : Invoice)
    (h : Call.invoiceUpdate updated ∈ (AddPayment uc clock req userID).calls) :
    ∃ inv, uc.invoiceRepo.FindByID req.InvoiceID = .ok inv ∧
      inv.Status ≠ StatusPaid ∧ inv.Status ≠ StatusCanceled ∧
      ¬ req.Amount > inv.TotalAmount - inv.PaidAmount ∧
      updated = applyPayment clock inv req.Amount := by
  unfold AddPayment at h
  cases hfind : uc.invoiceRepo.FindByID req.InvoiceID with
  | error e => simp [hfind] at h
  | ok inv =>
    simp only [hfind] at h
    split_ifs at h with h1 h2 h3
    · simp at h
    · simp at h
    · simp at h
    · refine ⟨inv, rfl, h1, h2, h3, ?_⟩
      cases hc : uc.paymentRepo.Create (newPayment clock req userID) with
      | error e =>
        simp only [hc] at h
        simp at h
      | ok created =>
        cases hu : uc.invoiceRepo.Update (applyPayment clock inv req.Amount) with
        | some e =>
          simp only [hc, hu] at h
          simpa using h
        | none =>
          simp only [hc, hu] at h
          simpa using h

/-- Paid amounts that can arise: starting from a float64 number above `-Inf` and
adding amounts above 0 one after another gives a float64 number above `-Inf`. -/
theorem F64.foldl_add_number (l : List F64) : ∀ acc : F64, F64.isFloat64 acc = true →
    F64.inf true < acc → (∀ a ∈ l, (0 : F64) < a) →
    F64.isFloat64 (l.foldl (· + ·) acc) = true ∧ F64.inf true < l.foldl (· + ·) acc := by
  induction l with
  | nil => intro acc h1 h2 _; exact ⟨h1, h2⟩
  | cons a rest ih =>
    intro acc h1 h2 hall
    simp only [List.foldl_cons]
    exact ih (acc + a) (F64.add_isFloat64 _ _)
      (F64.le_add_of_pos acc a h1 h2 (hall a (by simp))).2
      (fun b hb => hall b (by simp [hb]))

/-- The sign of the amount is tested by the validation of the request (`gt=0`,
checked by `PaymentHandler.AddPayment` before it calls the use case), not by the
use case: handed a request of -50.00 directly, `AddPayment` accepts it and hands
to `Update` a `PaidAmount` of 50.00 for the invoice of 660.00 with 100.00 paid. -/
theorem AddPayment_negative_amount_lowers_paid :
    ∃ updated,
      AddPayment (reposOf invoice660paid100) (clockAt 1000)
          (requestOf (F64.ofRatio true 50 1)) 7 =
        ⟨.ok (paymentOf (F64.ofRatio true 50 1) 1000),
          [.invoiceFindByID 1,
            .paymentCreate { paymentOf (F64.ofRatio true 50 1) 1000 with ID := 0 },
            .invoiceUpdate updated]⟩ ∧
      updated.PaidAmount = F64.ofRatio false 50 1 ∧
      updated.PaidAmount < invoice660paid100.PaidAmount ∧
      ¬ invoice660paid100.PaidAmount ≤ updated.PaidAmount :=
  ⟨_, rfl, by decide, by decide, by decide⟩

/-- A paid amount that is NaN stays NaN, which Go's `>=` finds at or above nothing,
itself included: on an invoice read with a NaN paid amount the new paid amount is
not below the one read, and not at or above it either. No use case stores such a
paid amount. -/
theorem AddPayment_nan_paid_amount :
    ∃ updated,
      AddPayment (reposOf invoiceNaN) (clockAt 1000) (requestOf (F64.ofRatio false 50 1)) 7 =
        ⟨.ok (paymentOf (F64.ofRatio false 50 1) 1000),
          [.invoiceFindByID 1,
            .paymentCreate { paymentOf (F64.ofRatio false 50 1) 1000 with ID := 0 },
            .invoiceUpdate updated]⟩ ∧
      updated.PaidAmount = F64.nan ∧
      ¬ updated.PaidAmount < invoiceNaN.PaidAmount ∧
      ¬ updated.PaidAmount ≥ invoiceNaN.PaidAmount :=
  ⟨_, rfl, by decide, by decide, by decide⟩

/-- C13. The paid amount of an invoice does not decrease. `Create` builds every
invoice with the paid amount 0. When `AddPayment` accepts a request whose amount
is above 0 (the validation `gt=0` of the request), the invoice it hands to
`Update` has the paid amount read plus the amount, which is never below the paid
amount read; and it is at or above it (Go's `>=`), and again a number above
`-Inf`, whenever the paid amount read is a number above `-Inf`. Every paid amount
that arises from 0 by adding amounts above 0 one after another is such a number. -/
theorem AddPayment_paid_amount_monotone :
    (∀ (env : CreateInvoiceEnv) (req : CreateInvoiceRequest) (createdBy : UUID),
      (newInvoice env req createdBy).PaidAmount = 0 ∧
      F64.isFloat64 (newInvoice env req createdBy).PaidAmount = true ∧
      F64.inf true < (newInvoice env req createdBy).PaidAmount) ∧
    (∀ (uc : PaymentUseCase) (clock : Clock) (req : CreatePaymentRequest) (userID : UUID)
        (updated : Invoice),
      (0 : F64) < req.Amount →
      Call.invoiceUpdate updated ∈ (AddPayment uc clock req userID).calls →
      ∃ inv, uc.invoiceRepo.FindByID req.InvoiceID = .ok inv ∧
        updated.PaidAmount = inv.PaidAmount + req.Amount ∧
        (F64.isFloat64 inv.PaidAmount = true → ¬ updated.PaidAmount < inv.PaidAmount) ∧
        (F64.isFloat64 inv.PaidAmount = true → F64.inf true < inv.PaidAmount →
          updated.PaidAmount ≥ inv.PaidAmount ∧
          F64.isFloat64 updated.PaidAmount = true ∧
          F64.inf true < updated.PaidAmount)) ∧
    (∀ amounts : List F64, (∀ a ∈ amounts, (0 : F64) < a) →
      F64.isFloat64 (amounts.foldl (· + ·) 0) = true ∧
      F64.inf true < amounts.foldl (· + ·) 0) := by
  refine ⟨fun env req createdBy => ⟨rfl, (by decide : F64.isFloat64 (0 : F64) = true),
    (by decide : F64.inf true < (0 : F64))⟩, ?_,
    fun amounts hall => F64.foldl_add_number amounts 0 (by decide) (by decide) hall⟩
  intro uc clock req userID updated hamount hcall
  obtain ⟨inv, hfind, -, -, -, hupd⟩ := AddPayment_update_call uc clock req userID updated hcall
  subst hupd
  refine ⟨inv, hfind, applyPayment_PaidAmount clock inv req.Amount, ?_, ?_⟩
  · intro hfloat
    rw [applyPayment_PaidAmount]
    exact F64.not_add_lt_of_pos inv.PaidAmount req.Amount hfloat hamount
  · intro hfloat hnum
    rw [applyPayment_PaidAmount]
    obtain ⟨h1, h2⟩ := F64.le_add_of_pos inv.PaidAmount req.Amount hfloat hnum hamount
    exact ⟨h1, F64.add_isFloat64 _ _, h2⟩

/-- C13, at the invoice built for 12 lessons and an exam fee, at the payment of
50.00 on the invoice of 660.00 with 100.00 paid, and at the payments of 100.00
and 50.00 one after the other. -/
theorem AddPayment_paid_amount_monotone_witness :
    ((newInvoice createEnv (invoiceRequestOf itemsLessons) 4).PaidAmount = 0 ∧
      F64.isFloat64 (newInvoice createEnv (invoiceRequestOf itemsLessons) 4).PaidAmount = true ∧
      F64.inf true < (newInvoice createEnv (invoiceRequestOf itemsLessons) 4).PaidAmount) ∧
    (∃ inv, (reposOf invoice660paid100).invoiceRepo.FindByID
        (requestOf (F64.ofRatio false 50 1)).InvoiceID = .ok inv ∧
      (applyPayment (clockAt 1000) invoice660paid100 (F64.ofRatio false 50 1)).PaidAmount =
        inv.PaidAmount + (requestOf (F64.ofRatio false 50 1)).Amount ∧
      (F64.isFloat64 inv.PaidAmount = true →
        ¬ (applyPayment (clockAt 1000) invoice660paid100 (F64.ofRatio false 50 1)).PaidAmount
          < inv.PaidAmount) ∧
      (F64.isFloat64 inv.PaidAmount = true → F64.inf true < inv.PaidAmount →
        (applyPayment (clockAt 1000) invoice660paid100 (F64.ofRatio false 50 1)).PaidAmount
          ≥ inv.PaidAmount ∧
        F64.isFloat64
          (applyPayment (clockAt 1000) invoice660paid100 (F64.ofRatio false 50 1)).PaidAmount
            = true ∧
        F64.inf true <
          (applyPayment (clockAt 1000) invoice660paid100 (F64.ofRatio false 50 1)).PaidAmount)) ∧
    (F64.isFloat64
        ([F64.ofRatio false 100 1, F64.ofRatio false 50 1].foldl (· + ·) 0) = true ∧
      F64.inf true < [F64.ofRatio false 100 1, F64.ofRatio false 50 1].foldl (· + ·) 0) :=
  ⟨AddPayment_paid_amount_monotone.1 createEnv (invoiceRequestOf itemsLessons) 4,
    AddPayment_paid_amount_monotone.2.1 (reposOf invoice660paid100) (clockAt 1000)
      (requestOf (F64.ofRatio false 50 1)) 7
      (applyPayment (clockAt 1000) invoice660paid100 (F64.ofRatio false 50 1))
      (by decide) (by decide),
    AddPayment_paid_amount_monotone.2.2 [F64.ofRatio false 100 1, F64.ofRatio false 50 1]
      (by decide)⟩

/-- C14. When the invoice read is neither paid nor canceled, the amount is within
the balance, `Create` succeeds and `Update` fails with `err`, `AddPayment` returns
no payment and the error `New(err, "failed to update invoice")`, of status code
500. Its repository calls are `FindByID`, the `Create` that succeeded and the
`Update` that failed, and nothing after: the payment is neither deleted nor
rolled back, and no other write of the invoice is attempted. -/
theorem AddPayment_update_fails (uc : PaymentUseCase) (clock : Clock)
    (req : CreatePaymentRequest) (userID : UUID) (inv : Invoice) (created : Payment)
    (err : GoError)
    (hfind : uc.invoiceRepo.FindByID req.InvoiceID = .ok inv)
    (hpaid : inv.Status ≠ StatusPaid) (hcanceled : inv.Status ≠ StatusCanceled)
    (hamount : ¬ req.Amount > inv.TotalAmount - inv.PaidAmount)
    (hcreate : uc.paymentRepo.Create (newPayment clock req userID) = .ok created)
    (hupdate : uc.invoiceRepo.Update (applyPayment clock inv req.Amount) = some err) :
    (AddPayment uc clock req userID).ret = .error (New err "failed to update invoice") ∧
    GetStatusCode (New err "failed to update invoice") = 500 ∧
    (AddPayment uc clock req userID).calls =
      [.invoiceFindByID req.InvoiceID, .paymentCreate (newPayment clock req userID),
        .invoiceUpdate (applyPayment clock inv req.Amount)] := by
  unfold AddPayment
  simp only [hfind, if_neg hpaid, if_neg hcanceled, if_neg hamount, hcreate, hupdate]
  exact ⟨trivial, rfl, trivial⟩

/-- C14, at the invoice of 660.00 with nothing paid, a payment of 400.00 and an
`Update` that fails. -/
theorem AddPayment_update_fails_witness :
    (AddPayment (reposUpdateFails invoice660 (.other "connection lost")) (clockAt 1000)
        (requestOf (F64.ofRatio false 400 1)) 7).ret
      = .error (New (.other "connection lost") "failed to update invoice") ∧
    GetStatusCode (New (.other "connection lost") "failed to update invoice") = 500 ∧
    (AddPayment (reposUpdateFails invoice660 (.other "connection lost")) (clockAt 1000)
        (requestOf (F64.ofRatio false 400 1)) 7).calls =
      [.invoiceFindByID (requestOf (F64.ofRatio false 400 1)).InvoiceID,
        .paymentCreate (newPayment (clockAt 1000) (requestOf (F64.ofRatio false 400 1)) 7),
        .invoiceUpdate (applyPayment (clockAt 1000) invoice660 (F64.ofRatio false 400 1))] :=
  AddPayment_update_fails (reposUpdateFails invoice660 (.other "connection lost"))
    (clockAt 1000) (requestOf (F64.ofRatio false 400 1)) 7 invoice660
    (paymentOf (F64.ofRatio false 400 1) 1000) (.other "connection lost")
    rfl (by decide) (by decide) (by decide) rfl rfl

/-- C15. Every payment that `AddPayment` hands to `Create` has the payment date of
the request when that is not the zero time, and the clock reading when it is. -/
theorem AddPayment_payment_date (uc : PaymentUseCase) (clock : Clock)
    (req : CreatePaymentRequest) (userID : UUID) (p : Payment)
    (hp : Call.paymentCreate p ∈ (AddPayment uc clock req userID).calls) :
    (req.PaymentDate.IsZero = false → p.PaymentDate = req.PaymentDate) ∧
    (req.PaymentDate.IsZero = true → p.PaymentDate = clock.atPaymentDate) := by
  rw [AddPayment_create_call uc clock req userID p hp]
  unfold newPayment
  constructor <;> intro h <;> simp [h]

/-- C15, at a request without payment date made at instant 1000. -/
theorem AddPayment_payment_date_witness :
    ((requestOf (F64.ofRatio false 400 1)).PaymentDate.IsZero = false →
      (newPayment (clockAt 1000) (requestOf (F64.ofRatio false 400 1)) 7).PaymentDate
        = (requestOf (F64.ofRatio false 400 1)).PaymentDate) ∧
    ((requestOf (F64.ofRatio false 400 1)).PaymentDate.IsZero = true →
      (newPayment (clockAt 1000) (requestOf (F64.ofRatio false 400 1)) 7).PaymentDate
        = (clockAt 1000).atPaymentDate) :=
  AddPayment_payment_date (reposOf invoice660) (clockAt 1000)
    (requestOf (F64.ofRatio false 400 1)) 7
    (newPayment (clockAt 1000) (requestOf (F64.ofRatio false 400 1)) 7) (by decide)

/-- C16. When `AddPayment` accepts a request, the payment it returns is the one it
built from the request and handed to `Create`, as the repository left it; with a
repository that leaves the fields taken from the request as handed, the payment
returned has the invoice, amount, payment method and notes of the request, and
the caller as creator. -/
theorem AddPayment_echoes_request (uc : PaymentUseCase) (clock : Clock)
    (req : CreatePaymentRequest) (userID : UUID) (p : Payment)
    (hok : (AddPayment uc clock req userID).ret = .ok p)
    (hkeep : ∀ handed stored, uc.paymentRepo.Create handed = .ok stored →
      keepsRequestFields handed stored) :
    p.InvoiceID = req.InvoiceID ∧ p.Amount = req.Amount ∧
    p.PaymentMethod = req.PaymentMethod ∧ p.Notes = req.Notes ∧ p.CreatedBy = userID := by
  obtain ⟨inv, -, -, -, -, hcreate, -, -⟩ := AddPayment_ok_inv hok
  obtain ⟨h1, h2, h3, h4, h5⟩ := hkeep _ _ hcreate
  rw [h1, h2, h3, h4, h5]
  unfold newPayment
  simp only
  split_ifs <;> exact ⟨rfl, rfl, rfl, rfl, rfl⟩

/-- C16, at the invoice of 660.00 and a payment of 400.00 by user 7. -/
theorem AddPayment_echoes_request_witness :
    (paymentOf (F64.ofRatio false 400 1) 1000).InvoiceID
      = (requestOf (F64.ofRatio false 400 1)).InvoiceID ∧
    (paymentOf (F64.ofRatio false 400 1) 1000).Amount
      = (requestOf (F64.ofRatio false 400 1)).Amount ∧
    (paymentOf (F64.ofRatio false 400 1) 1000).PaymentMethod
      = (requestOf (F64.ofRatio false 400 1)).PaymentMethod ∧
    (paymentOf (F64.ofRatio false 400 1) 1000).Notes
      = (requestOf (F64.ofRatio false 400 1)).Notes ∧
    (paymentOf (F64.ofRatio false 400 1) 1000).CreatedBy = 7 :=
  AddPayment_echoes_request (reposOf invoice660) (clockAt 1000)
    (requestOf (F64.ofRatio false 400 1)) 7 (paymentOf (F64.ofRatio false 400 1) 1000) rfl
    (fun handed stored h => by
      simp only [reposOf, Except.ok.injEq] at h
      subst h
      exact ⟨rfl, rfl, rfl, rfl, rfl⟩)

/-! ## Properties of the invoice use case -/

/-- The loop of `Create` adds the line amounts to the running sum from left to
right, and appends one invoice item per request item, in order. -/
theorem createItems_spec (env : CreateInvoiceEnv) (l : List CreateInvoiceItem) :
    ∀ (i : Nat) (amount : F64) (items : List InvoiceItem),
      (createItems env l i amount items).1 = (l.map itemAmount).foldl (· + ·) amount ∧
      (createItems env l i amount items).2.map
          (fun it => (it.Description, it.Quantity, it.UnitPrice, it.Amount)) =
        items.map (fun it => (it.Description, it.Quantity, it.UnitPrice, it.Amount)) ++
          l.map (fun r => (r.Description, r.Quantity, r.UnitPrice, itemAmount r)) := by
  induction l with
  | nil =>
    intro i amount items
    simp [createItems]
  | cons item rest ih =>
    intro i amount items
    obtain ⟨h1, h2⟩ := ih (i + 1) (amount + itemAmount item)
      (items ++ [{ ID := env.itemID i, InvoiceID := 0, Description := item.Description,
                   Quantity := item.Quantity, UnitPrice := item.UnitPrice,
                   Amount := itemAmount item, CreatedAt := env.itemCreatedAt i,
                   UpdatedAt := env.itemUpdatedAt i, DeletedAt := none }])
    simp only [createItems]
    refine ⟨?_, ?_⟩
    · rw [h1]
      simp
    · rw [h2]
      simp

/-- The only invoice that `Create` hands to the repository is the one it built. -/
theorem Create_call (uc : InvoiceUseCase) (env : CreateInvoiceEnv)
    (req : CreateInvoiceRequest) (createdBy : UUID) (inv : Invoice)
    (h : InvoiceCall.create inv ∈ (uc.Create env req createdBy).calls) :
    inv = newInvoice env req createdBy := by
  unfold InvoiceUseCase.Create at h
  cases hc : uc.repo.Create (newInvoice env req createdBy) with
  | error e =>
    simp only [hc] at h
    simpa using h
  | ok stored =>
    simp only [hc] at h
    simpa using h

/-- A finite float64 times `0.0` is a zero with the sign of that value. -/
theorem F64.fin_mul_zero (neg : Bool) (m : Nat) :
    F64.fin neg m * (0 : F64) = F64.fin neg 0 := by
  change F64.mul (F64.fin neg m) (F64.fin false 0) = F64.fin neg 0
  simp [F64.mul, F64.round, F64.bitLen_zero, F64.overflowBound]

/-- The status of the invoice handed to `Update` is `paid` exactly when its paid
amount has reached its total, for an invoice that was not paid when read. -/
theorem applyPayment_status_paid_iff (clock : Clock) (inv : Invoice) (amount : F64)
    (hpaid : inv.Status ≠ StatusPaid) :
    (applyPayment clock inv amount).Status = StatusPaid ↔
      (applyPayment clock inv amount).PaidAmount ≥ (applyPayment clock inv amount).TotalAmount := by
  rw [applyPayment_PaidAmount, applyPayment_TotalAmount]
  unfold applyPayment
  simp only
  split_ifs with h1 h2 h3
  · exact ⟨fun _ => h1, fun _ => rfl⟩
  · exact ⟨fun h => absurd h (by decide : StatusOverdue ≠ StatusPaid), fun h => absurd h h1⟩
  · exact ⟨fun h => absurd h (by decide : StatusPending ≠ StatusPaid), fun h => absurd h h1⟩
  · exact ⟨fun h => absurd h hpaid, fun h => absurd h h1⟩

/-- C17. Every invoice that `InvoiceUseCase.Create` returns without error is the
one it built and handed to the repository, as the repository left it; with a
repository that leaves status, paid amount and `paid_at` as handed, it has status
`pending`, paid amount 0 and no `paid_at`, whatever the items of the request. -/
theorem Create_pending_unpaid (uc : InvoiceUseCase) (env : CreateInvoiceEnv)
    (req : CreateInvoiceRequest) (createdBy : UUID) (inv : Invoice)
    (hok : (uc.Create env req createdBy).ret = .ok inv)
    (hkeep : ∀ handed stored, uc.repo.Create handed = .ok stored →
      keepsPaymentState handed stored) :
    inv.Status = StatusPending ∧ inv.PaidAmount = 0 ∧ inv.PaidAt = none := by
  unfold InvoiceUseCase.Create at hok
  cases hc : uc.repo.Create (newInvoice env req createdBy) with
  | error e => simp [hc] at hok
  | ok stored =>
    simp only [hc, Except.ok.injEq] at hok
    subst hok
    obtain ⟨h1, h2, h3⟩ := hkeep _ _ hc
    rw [h1, h2, h3]
    exact ⟨rfl, rfl, rfl⟩

/-- C17, at a request with two items. -/
theorem Create_pending_unpaid_witness :
    (newInvoice createEnv (invoiceRequestOf itemsLessons) 4).Status = StatusPending ∧
    (newInvoice createEnv (invoiceRequestOf itemsLessons) 4).PaidAmount = 0 ∧
    (newInvoice createEnv (invoiceRequestOf itemsLessons) 4).PaidAt = none :=
  Create_pending_unpaid (invoiceReposOf invoice660) createEnv (invoiceRequestOf itemsLessons) 4
    (newInvoice createEnv (invoiceRequestOf itemsLessons) 4) rfl
    (fun handed stored h => by
      simp only [invoiceReposOf, Except.ok.injEq] at h
      subst h
      exact ⟨rfl, rfl, rfl⟩)

/-- C18, as stated, fails in its last part: for one item of 2 units at 1e308 the
line amount and the invoice amount overflow to `+Inf`, so the tax amount
`amount * 0.0` is NaN, not 0, and so is the total. -/
theorem Create_tax_not_zero :
    (invoiceReposOf invoice660).Create createEnv (invoiceRequestOf itemsHuge) 4 =
      ⟨.ok (newInvoice createEnv (invoiceRequestOf itemsHuge) 4),
        [.create (newInvoice createEnv (invoiceRequestOf itemsHuge) 4)]⟩ ∧
    (newInvoice createEnv (invoiceRequestOf itemsHuge) 4).Amount = F64.inf false ∧
    (newInvoice createEnv (invoiceRequestOf itemsHuge) 4).TaxAmount = F64.nan ∧
    (newInvoice createEnv (invoiceRequestOf itemsHuge) 4).TotalAmount = F64.nan ∧
    (newInvoice createEnv (invoiceRequestOf itemsHuge) 4).TaxAmount ≠ 0 :=
  ⟨rfl, by decide, by decide, by decide, by decide⟩

/-- C18, amended. Every invoice that `InvoiceUseCase.Create` hands to the
repository has one item per request item, in the same order, with the
description, quantity and unit price of the request item and the line amount
`float64(quantity) * unit price`; its amount is the sum of the line amounts, added
from left to right starting from 0; its tax amount is `amount * 0.0`, which is a
zero when the amount is finite; and its total is `amount + tax amount`. -/
theorem Create_amounts (uc : InvoiceUseCase) (env : CreateInvoiceEnv)
    (req : CreateInvoiceRequest) (createdBy : UUID) (inv : Invoice)
    (h : InvoiceCall.create inv ∈ (uc.Create env req createdBy).calls) :
    inv.Items.map (fun it => (it.Description, it.Quantity, it.UnitPrice, it.Amount)) =
      req.Items.map (fun r =>
        (r.Description, r.Quantity, r.UnitPrice, F64.ofInt r.Quantity * r.UnitPrice)) ∧
    inv.Amount = (inv.Items.map (fun it => it.Amount)).foldl (· + ·) 0 ∧
    inv.TaxAmount = inv.Amount * 0 ∧
    (∀ neg m, inv.Amount = F64.fin neg m → inv.TaxAmount = F64.fin neg 0) ∧
    inv.TotalAmount = inv.Amount + inv.TaxAmount := by
  rw [Create_call uc env req createdBy inv h]
  obtain ⟨h1, h2⟩ := createItems_spec env req.Items 0 0 []
  have hitems : (newInvoice env req createdBy).Items = (createItems env req.Items 0 0 []).2 := rfl
  have hamount : (newInvoice env req createdBy).Amount = (createItems env req.Items 0 0 []).1 := rfl
  have htax : (newInvoice env req createdBy).TaxAmount
      = (newInvoice env req createdBy).Amount * 0 := rfl
  have hmap : (newInvoice env req createdBy).Items.map (fun it => it.Amount)
      = req.Items.map itemAmount := by
    have := congrArg (List.map (fun (t : String × Int × F64 × F64) => t.2.2.2)) h2
    rw [hitems]
    simpa [List.map_map, Function.comp_def] using this
  refine ⟨?_, ?_, htax, ?_, rfl⟩
  · rw [hitems, h2]
    simp [itemAmount]
  · rw [hmap, hamount, h1]
  · intro neg m hfin
    rw [htax, hfin, F64.fin_mul_zero]

/-- C18 amended, at a request of 12 lessons at 50.00 and 1 exam fee at 60.00: the
amount and the total are 660.00. -/
theorem Create_amounts_witness :
    ((newInvoice createEnv (invoiceRequestOf itemsLessons) 4).Items.map
        (fun it => (it.Description, it.Quantity, it.UnitPrice, it.Amount)) =
      (invoiceRequestOf itemsLessons).Items.map (fun r =>
        (r.Description, r.Quantity, r.UnitPrice, F64.ofInt r.Quantity * r.UnitPrice)) ∧
    (newInvoice createEnv (invoiceRequestOf itemsLessons) 4).Amount =
      ((newInvoice createEnv (invoiceRequestOf itemsLessons) 4).Items.map
        (fun it => it.Amount)).foldl (· + ·) 0 ∧
    (newInvoice createEnv (invoiceRequestOf itemsLessons) 4).TaxAmount =
      (newInvoice createEnv (invoiceRequestOf itemsLessons) 4).Amount * 0 ∧
    (∀ neg m, (newInvoice createEnv (invoiceRequestOf itemsLessons) 4).Amount = F64.fin neg m →
      (newInvoice createEnv (invoiceRequestOf itemsLessons) 4).TaxAmount = F64.fin neg 0) ∧
    (newInvoice createEnv (invoiceRequestOf itemsLessons) 4).TotalAmount =
      (newInvoice createEnv (invoiceRequestOf itemsLessons) 4).Amount +
        (newInvoice createEnv (invoiceRequestOf itemsLessons) 4).TaxAmount) ∧
    (newInvoice createEnv (invoiceRequestOf itemsLessons) 4).Amount = F64.ofRatio false 660 1 ∧
    (newInvoice createEnv (invoiceRequestOf itemsLessons) 4).TotalAmount
      = F64.ofRatio false 660 1 :=
  ⟨Create_amounts (invoiceReposOf invoice660) createEnv (invoiceRequestOf itemsLessons) 4
    (newInvoice createEnv (invoiceRequestOf itemsLessons) 4) (by decide),
    by decide, by decide⟩

/-- The conversion of an integer of at least 1 is `+Inf` or a finite value of at
least 1.0, which is `2^1074` units. -/
theorem F64.ofInt_ge_one (q : Int) (hq : 1 ≤ q) :
    F64.ofInt q = F64.inf false ∨ ∃ m, F64.ofInt q = F64.fin false m ∧ 2 ^ 1074 ≤ m := by
  have hneg : decide (q < 0) = false := by
    simp only [decide_eq_false_iff_not]
    omega
  have hnat : 1 ≤ q.natAbs := by omega
  unfold F64.ofInt F64.ofRatio
  rw [hneg]
  cases hr : F64.round false (q.natAbs * 2 ^ 1074) 1 with
  | nan =>
    unfold F64.round at hr
    simp only at hr
    split_ifs at hr
  | inf c =>
    have h1 := (F64.round_inf _ _ _ _ hr).1
    subst h1
    exact Or.inl rfl
  | fin c m =>
    obtain ⟨h1, -, h3⟩ := F64.round_nearest _ _ _ _ _ Nat.one_pos hr
    subst h1
    refine Or.inr ⟨m, rfl, ?_⟩
    have hrep : F64.representable (2 ^ 1074) = true := by
      have := F64.representable_mul_pow 1 1074 (by norm_num) (by norm_num [F64.overflowBound])
      simpa using this
    have h4 := h3 (2 ^ 1074) hrep
    have hN : 2 ^ 1074 ≤ q.natAbs * 2 ^ 1074 := Nat.le_mul_of_pos_left _ hnat
    unfold Nat.dist at h4
    generalize q.natAbs * 2 ^ 1074 = N at h4 hN
    generalize (2 : Nat) ^ 1074 = K at h4 hN ⊢
    simp only [mul_one] at h4
    omega

/-- The line amount of an item with a quantity of at least 1 and a unit price
above 0 is above 0. -/
theorem itemAmount_pos (item : CreateInvoiceItem) (hq : 1 ≤ item.Quantity)
    (hp : (0 : F64) < item.UnitPrice) : (0 : F64) < itemAmount item := by
  unfold itemAmount
  change (0 : F64) < F64.mul (F64.ofInt item.Quantity) item.UnitPrice
  rw [F64.pos_iff] at hp
  rcases F64.ofInt_ge_one item.Quantity hq with h | ⟨m, h, hm⟩
  · rw [h]
    rcases hp with hp | ⟨n, hp, hn⟩
    · rw [hp]
      decide
    · rw [hp]
      have hn0 : n ≠ 0 := by omega
      simp only [F64.mul, if_neg hn0]
      decide
  · rw [h]
    have hK : 0 < 2 ^ 1074 := by positivity
    rcases hp with hp | ⟨n, hp, hn⟩
    · rw [hp]
      have hm0 : m ≠ 0 := by omega
      simp only [F64.mul, if_neg hm0]
      decide
    · rw [hp]
      simp only [F64.mul, Bool.xor_false]
      apply F64.round_pos _ _ hK
      calc 2 ^ 1074 = 2 ^ 1074 * 1 := (mul_one _).symm
        _ ≤ m * n := Nat.mul_le_mul hm hn

/-- A sum from the left of values above 0, started from a value that is not below
0, is above 0 when there is at least one of them. -/
theorem F64.foldl_add_pos (l : List F64) : ∀ acc : F64, (0 : F64) ≤ acc → l ≠ [] →
    (∀ y ∈ l, (0 : F64) < y) → (0 : F64) < l.foldl (· + ·) acc := by
  induction l with
  | nil => intro acc _ h; exact absurd rfl h
  | cons y rest ih =>
    intro acc hacc _ hall
    have hy : (0 : F64) < acc + y := F64.add_pos_of_nonneg acc y hacc (hall y (by simp))
    by_cases hrest : rest = []
    · subst hrest
      simpa using hy
    · simp only [List.foldl_cons]
      exact ih (acc + y) (F64.le_of_lt hy) hrest (fun z hz => hall z (by simp [hz]))

/-- An amount above 0 with its tax `amount * 0.0` added is not at or below 0: it
is above 0 when the amount is finite, and NaN when the amount is `+Inf`. -/
theorem F64.total_not_le_zero (amount : F64) (h : (0 : F64) < amount) :
    ¬ amount + amount * 0 ≤ (0 : F64) := by
  rw [F64.pos_iff] at h
  rcases h with h | ⟨m, h, hm⟩
  · rw [h]
    decide
  · rw [h, F64.fin_mul_zero]
    apply F64.not_le_of_lt
    change (0 : F64) < F64.add (F64.fin false m) (F64.fin false 0)
    have hs : F64.signed false m + F64.signed false 0 ≠ 0 := by
      simp only [F64.signed, Bool.false_eq_true, if_false]
      omega
    have hlt : ¬ F64.signed false m + F64.signed false 0 < 0 := by
      simp only [F64.signed, Bool.false_eq_true, if_false]
      omega
    simp only [F64.add, if_neg hs, decide_eq_false hlt]
    apply F64.round_pos _ _ Nat.one_pos
    simp only [F64.signed, Bool.false_eq_true, if_false]
    omega

/-- The total of the invoice that `Create` builds from items that pass the
validation is not at or below 0. -/
theorem newInvoice_total_not_le_zero (env : CreateInvoiceEnv) (req : CreateInvoiceRequest)
    (createdBy : UUID) (hvalid : req.itemsValid = true) :
    ¬ (newInvoice env req createdBy).TotalAmount ≤ (0 : F64) := by
  unfold CreateInvoiceRequest.itemsValid at hvalid
  simp only [Bool.and_eq_true, decide_eq_true_eq, List.all_eq_true] at hvalid
  obtain ⟨hlen, hall⟩ := hvalid
  have hamount : (newInvoice env req createdBy).Amount =
      (req.Items.map itemAmount).foldl (· + ·) 0 :=
    (createItems_spec env req.Items 0 0 []).1
  have htotal : (newInvoice env req createdBy).TotalAmount =
      (newInvoice env req createdBy).Amount + (newInvoice env req createdBy).Amount * 0 := rfl
  rw [htotal]
  apply F64.total_not_le_zero
  rw [hamount]
  apply F64.foldl_add_pos
  · decide
  · intro h
    have hnil : req.Items = [] := List.map_eq_nil_iff.mp h
    rw [hnil] at hlen
    simp at hlen
  · intro y hy
    rw [List.mem_map] at hy
    obtain ⟨item, hitem, rfl⟩ := hy
    exact itemAmount_pos item (hall item hitem).1 (hall item hitem).2

/-- What `pgFindByID` returns is a row of the table with the identifier asked for. -/
theorem pgFindByID_ok (rows : List Invoice) (id : UUID) (row : Invoice)
    (h : pgFindByID rows id = .ok row) : row ∈ rows ∧ row.ID = id := by
  unfold pgFindByID at h
  cases hf : rows.find? (fun row => row.ID = id && row.DeletedAt.isNone) with
  | none => simp [hf] at h
  | some r =>
    simp only [hf, Except.ok.injEq] at h
    subst h
    have h1 := List.mem_of_find?_eq_some hf
    have h2 := List.find?_some hf
    simp only [Bool.and_eq_true, decide_eq_true_eq] at h2
    exact ⟨h1, h2.1⟩

/-- C12, as stated, fails. The table holds the pending invoice of 660.00 with
nothing paid. `InvoiceUseCase.MarkAsPaid` finds it, calls the repository's
`MarkAsPaid` and returns nil; the row then has the status `paid` and `paid_at`
set while its paid amount is still 0, below its total of 660.00. -/
theorem status_paid_iff_fails :
    pgFindByID [invoice660] 1 = .ok invoice660 ∧
    invoice660.Status = StatusPending ∧
    (InvoiceUseCase.mk (pgInvoiceWriter [invoice660])).MarkAsPaid 1 =
      ⟨none, [.findByID 1, .markAsPaid 1]⟩ ∧
    ∃ row,
      markAsPaidOnRows ⟨1000⟩ ⟨1001⟩ [invoice660] 1 =
        (⟨none, [.findByID 1, .markAsPaid 1]⟩, [row]) ∧
      row.Status = StatusPaid ∧ row.PaidAt = some ⟨1000⟩ ∧ row.PaidAmount = 0 ∧
      row.TotalAmount = F64.ofRatio false 660 1 ∧ ¬ row.PaidAmount ≥ row.TotalAmount :=
  ⟨rfl, rfl, rfl, _, rfl, rfl, rfl, rfl, rfl, by decide⟩

/-- C12, amended. The status is `paid` exactly when the paid amount has reached
the total for every invoice that `AddPayment` hands to `Update`, and for every
invoice that `InvoiceUseCase.Create` builds from items that pass the validation
of the request (it is pending with 0 paid, and its total is not at or below 0).
`InvoiceUseCase.MarkAsPaid` on an invoice that the repository finds and that is
not paid returns nil after calling the repository's `MarkAsPaid`, whose statement
gives every row with the identifier the status `paid`, `paid_at` and `updated_at`
and leaves the rest of the row, its paid amount and its total among it, as it
was, whatever the paid amount is. -/
theorem status_paid_iff :
    (∀ (uc : PaymentUseCase) (clock : Clock) (req : CreatePaymentRequest) (userID : UUID)
        (updated : Invoice),
      Call.invoiceUpdate updated ∈ (AddPayment uc clock req userID).calls →
      (updated.Status = StatusPaid ↔ updated.PaidAmount ≥ updated.TotalAmount)) ∧
    (∀ (uc : InvoiceUseCase) (env : CreateInvoiceEnv) (req : CreateInvoiceRequest)
        (createdBy : UUID) (built : Invoice),
      InvoiceCall.create built ∈ (uc.Create env req createdBy).calls →
      req.itemsValid = true →
      (built.Status = StatusPaid ↔ built.PaidAmount ≥ built.TotalAmount)) ∧
    (∀ (now updatedAt : Time) (rows : List Invoice) (id : UUID) (row : Invoice),
      pgFindByID rows id = .ok row → row.Status ≠ StatusPaid →
      (InvoiceUseCase.mk (pgInvoiceWriter rows)).MarkAsPaid id =
        ⟨none, [.findByID id, .markAsPaid id]⟩ ∧
      markAsPaidOnRows now updatedAt rows id =
        ((InvoiceUseCase.mk (pgInvoiceWriter rows)).MarkAsPaid id,
          pgMarkAsPaid now updatedAt id rows) ∧
      { row with Status := StatusPaid, PaidAt := some now, UpdatedAt := updatedAt } ∈
        (markAsPaidOnRows now updatedAt rows id).2 ∧
      ∀ marked, marked ∈ (markAsPaidOnRows now updatedAt rows id).2 → marked.ID = id →
        marked.Status = StatusPaid ∧ marked.PaidAt = some now ∧
        ∃ before, before ∈ rows ∧
          marked = { before with
            Status := StatusPaid, PaidAt := some now, UpdatedAt := updatedAt } ∧
          marked.PaidAmount = before.PaidAmount ∧
          marked.TotalAmount = before.TotalAmount) := by
  refine ⟨?_, ?_, ?_⟩
  · intro uc clock req userID updated h
    unfold AddPayment at h
    cases hfind : uc.invoiceRepo.FindByID req.InvoiceID with
    | error e => simp [hfind] at h
    | ok inv =>
      simp only [hfind] at h
      split_ifs at h with h1 h2 h3
      · simp at h
      · simp at h
      · simp at h
      · have hupd : updated = applyPayment clock inv req.Amount := by
          cases hc : uc.paymentRepo.Create (newPayment clock req userID) with
          | error e =>
            simp only [hc] at h
            simp at h
          | ok created =>
            cases hu : uc.invoiceRepo.Update (applyPayment clock inv req.Amount) with
            | some e =>
              simp only [hc, hu] at h
              simpa using h
            | none =>
              simp only [hc, hu] at h
              simpa using h
        rw [hupd]
        exact applyPayment_status_paid_iff clock inv req.Amount h1
  · intro uc env req createdBy built h hvalid
    rw [Create_call uc env req createdBy built h]
    have hs : (newInvoice env req createdBy).Status = StatusPending := rfl
    have hp : (newInvoice env req createdBy).PaidAmount = 0 := rfl
    rw [hs, hp]
    exact ⟨fun h => absurd h (by decide : StatusPending ≠ StatusPaid),
      fun h => absurd h (newInvoice_total_not_le_zero env req createdBy hvalid)⟩
  · intro now updatedAt rows id row hfind hstatus
    obtain ⟨hmem, hid⟩ := pgFindByID_ok rows id row hfind
    have hres : (InvoiceUseCase.mk (pgInvoiceWriter rows)).MarkAsPaid id =
        ⟨none, [.findByID id, .markAsPaid id]⟩ := by
      unfold InvoiceUseCase.MarkAsPaid
      have hf : (pgInvoiceWriter rows).FindByID id = .ok row := hfind
      have hm : (pgInvoiceWriter rows).MarkAsPaid id = none := rfl
      simp only [hf, if_neg hstatus, hm]
    have hrows : (markAsPaidOnRows now updatedAt rows id).2 =
        pgMarkAsPaid now updatedAt id rows := by
      unfold markAsPaidOnRows
      simp only [hres]
      simp
    refine ⟨hres, ?_, ?_, ?_⟩
    · unfold markAsPaidOnRows
      simp only [hres]
      simp
    · rw [hrows]
      unfold pgMarkAsPaid
      rw [List.mem_map]
      exact ⟨row, hmem, by simp [hid]⟩
    · intro marked hmarked hmid
      rw [hrows] at hmarked
      unfold pgMarkAsPaid at hmarked
      rw [List.mem_map] at hmarked
      obtain ⟨before, hb, hbm⟩ := hmarked
      by_cases hbid : before.ID = id
      · simp only [if_pos hbid] at hbm
        subst hbm
        exact ⟨rfl, rfl, before, hb, rfl, rfl, rfl⟩
      · simp only [if_neg hbid] at hbm
        subst hbm
        exact absurd hmid hbid

/-- C12 amended, at the payment of 400.00 on the invoice of 660.00, at the invoice
built from 12 lessons and an exam fee, and at the table that holds the invoice of
660.00 with nothing paid. -/
theorem status_paid_iff_witness :
    ((applyPayment (clockAt 1000) invoice660 (F64.ofRatio false 400 1)).Status = StatusPaid ↔
      (applyPayment (clockAt 1000) invoice660 (F64.ofRatio false 400 1)).PaidAmount ≥
        (applyPayment (clockAt 1000) invoice660 (F64.ofRatio false 400 1)).TotalAmount) ∧
    ((newInvoice createEnv (invoiceRequestOf itemsLessons) 4).Status = StatusPaid ↔
      (newInvoice createEnv (invoiceRequestOf itemsLessons) 4).PaidAmount ≥
        (newInvoice createEnv (invoiceRequestOf itemsLessons) 4).TotalAmount) ∧
    ((InvoiceUseCase.mk (pgInvoiceWriter [invoice660])).MarkAsPaid 1 =
        ⟨none, [.findByID 1, .markAsPaid 1]⟩ ∧
      markAsPaidOnRows ⟨1000⟩ ⟨1001⟩ [invoice660] 1 =
        ((InvoiceUseCase.mk (pgInvoiceWriter [invoice660])).MarkAsPaid 1,
          pgMarkAsPaid ⟨1000⟩ ⟨1001⟩ 1 [invoice660]) ∧
      { invoice660 with Status := StatusPaid, PaidAt := some ⟨1000⟩, UpdatedAt := ⟨1001⟩ } ∈
        (markAsPaidOnRows ⟨1000⟩ ⟨1001⟩ [invoice660] 1).2 ∧
      ∀ marked, marked ∈ (markAsPaidOnRows ⟨1000⟩ ⟨1001⟩ [invoice660] 1).2 → marked.ID = 1 →
        marked.Status = StatusPaid ∧ marked.PaidAt = some ⟨1000⟩ ∧
        ∃ before, before ∈ [invoice660] ∧
          marked = { before with
            Status := StatusPaid, PaidAt := some ⟨1000⟩, UpdatedAt := ⟨1001⟩ } ∧
          marked.PaidAmount = before.PaidAmount ∧
          marked.TotalAmount = before.TotalAmount) :=
  ⟨status_paid_iff.1 (reposOf invoice660) (clockAt 1000) (requestOf (F64.ofRatio false 400 1)) 7
      (applyPayment (clockAt 1000) invoice660 (F64.ofRatio false 400 1)) (by decide),
    status_paid_iff.2.1 (invoiceReposOf invoice660) createEnv (invoiceRequestOf itemsLessons) 4
      (newInvoice createEnv (invoiceRequestOf itemsLessons) 4) (by decide) (by decide),
    status_paid_iff.2.2 ⟨1000⟩ ⟨1001⟩ [invoice660] 1 invoice660 rfl (by decide)⟩

/-! ## Properties of the auth use case -/

/-- `Login` when the lookup by email returns an error: `Unauthorized` for
`gorm.ErrRecordNotFound`, and for every other error that error wrapped with the
text "failed to find user". -/
theorem Login_lookup_error (uc : AuthUseCase) (bc : Bcrypt) (req : LoginRequest)
    (err : GoError) (h : (uc.userRepo.FindByEmail req.Email).2 = some err) :
    uc.Login bc req =
      ⟨.error (if err = ErrRecordNotFound then Unauthorized "invalid email or password"
        else .wrapf "failed to find user" err), [.findByEmail req.Email]⟩ := by
  unfold AuthUseCase.Login
  simp only [h]
  split_ifs <;> rfl

/-- C19. In the test "user not found" the lookup by email fails with
`assert.AnError`: `Login` returns no response and that error wrapped, whose text
is "failed to find user: assert.AnError general error for testing" and does not
contain "invalid email or password", against what the test asserts. -/
theorem Login_generic_error_text :
    (authOf (none, some assertAnError)).Login bcryptStub loginRequest =
      ⟨.error (.wrapf "failed to find user" assertAnError),
        [.findByEmail "nonexistent@example.com"]⟩ ∧
    (GoError.wrapf "failed to find user" assertAnError).Error =
      "failed to find user: assert.AnError general error for testing" ∧
    Contains (GoError.wrapf "failed to find user" assertAnError).Error
      "invalid email or password" = false ∧
    GetStatusCode (GoError.wrapf "failed to find user" assertAnError) = 500 ∧
    (authOf (none, some ErrRecordNotFound)).Login bcryptStub loginRequest =
      ⟨.error (Unauthorized "invalid email or password"),
        [.findByEmail "nonexistent@example.com"]⟩ := by
  refine ⟨rfl, by decide, by decide, rfl, rfl⟩

/-- C20. When the lookup by email returns a user, with no error or with
`gorm.ErrRecordNotFound`, `Register` returns no user and the error
`Conflict("email already registered")`, of status code 409, whose text contains
"already registered", and its only repository call is that lookup: `Create` is
not called. -/
theorem Register_duplicate_email (uc : AuthUseCase) (bc : Bcrypt) (env : RegisterEnv)
    (req : RegisterRequest) (existing : User)
    (hfound : (uc.userRepo.FindByEmail req.Email).1 = some existing)
    (herr : (uc.userRepo.FindByEmail req.Email).2 = none ∨
      (uc.userRepo.FindByEmail req.Email).2 = some ErrRecordNotFound) :
    (uc.Register bc env req).ret = .error (Conflict "email already registered") ∧
    Contains (Conflict "email already registered").Error "already registered" = true ∧
    GetStatusCode (Conflict "email already registered") = 409 ∧
    (Conflict "email already registered").is .ErrConflict = true ∧
    (uc.Register bc env req).calls = [.findByEmail req.Email] ∧
    (∀ usr, UserCall.create usr ∉ (uc.Register bc env req).calls) := by
  have h : uc.Register bc env req =
      ⟨.error (Conflict "email already registered"), [.findByEmail req.Email]⟩ := by
    unfold AuthUseCase.Register
    rcases herr with h | h
    · simp only [h, hfound, registerUser, Option.isSome_some, if_true]
    · simp only [h, hfound, registerUser, Option.isSome_some, if_true, ne_eq,
        not_true_eq_false, if_false]
  rw [h]
  exact ⟨rfl, by decide, rfl, rfl, rfl, by simp⟩

/-- C20, at the request and the existing user of the test "duplicate email error". -/
theorem Register_duplicate_email_witness :
    ((authOf (some existingUser, none)).Register bcryptStub registerEnv registerRequest).ret
      = .error (Conflict "email already registered") ∧
    Contains (Conflict "email already registered").Error "already registered" = true ∧
    GetStatusCode (Conflict "email already registered") = 409 ∧
    (Conflict "email already registered").is .ErrConflict = true ∧
    ((authOf (some existingUser, none)).Register bcryptStub registerEnv registerRequest).calls
      = [.findByEmail registerRequest.Email] ∧
    (∀ usr, UserCall.create usr ∉
      ((authOf (some existingUser, none)).Register bcryptStub registerEnv
        registerRequest).calls) :=
  Register_duplicate_email (authOf (some existingUser, none)) bcryptStub registerEnv
    registerRequest existingUser rfl (Or.inl rfl)

/-- C21. When the lookup by email returns a user whose status is not "active",
`Login` returns no response, hence no access or refresh token, and the error
`Unauthorized("account is not active")`, whose text contains "not active", for
every password of the request and every answer of the password check, a correct
password included. -/
theorem Login_inactive_user (uc : AuthUseCase) (bc : Bcrypt) (req : LoginRequest) (usr : User)
    (hfound : uc.userRepo.FindByEmail req.Email = (some usr, none))
    (hstatus : usr.Status ≠ "active") :
    (uc.Login bc req).ret = .error (Unauthorized "account is not active") ∧
    (∀ resp, (uc.Login bc req).ret ≠ .ok resp) ∧
    Contains (Unauthorized "account is not active").Error "not active" = true ∧
    GetStatusCode (Unauthorized "account is not active") = 401 ∧
    (uc.Login bc req).calls = [.findByEmail req.Email] := by
  have h : uc.Login bc req =
      ⟨.error (Unauthorized "account is not active"), [.findByEmail req.Email]⟩ := by
    unfold AuthUseCase.Login
    simp only [hfound, if_pos hstatus]
  rw [h]
  exact ⟨rfl, fun resp hr => (by cases hr), by decide, rfl, rfl⟩

/-- C21, at the user and the request of the test "inactive user", with the
password of the request being the one of the user. -/
theorem Login_inactive_user_witness :
    inactiveUser.CheckPassword bcryptStub inactiveLoginRequest.Password = true ∧
    ((authOf (some inactiveUser, none)).Login bcryptStub inactiveLoginRequest).ret
      = .error (Unauthorized "account is not active") ∧
    (∀ resp, ((authOf (some inactiveUser, none)).Login bcryptStub inactiveLoginRequest).ret
      ≠ .ok resp) ∧
    Contains (Unauthorized "account is not active").Error "not active" = true ∧
    GetStatusCode (Unauthorized "account is not active") = 401 ∧
    ((authOf (some inactiveUser, none)).Login bcryptStub inactiveLoginRequest).calls
      = [.findByEmail inactiveLoginRequest.Email] :=
  ⟨by decide, Login_inactive_user (authOf (some inactiveUser, none)) bcryptStub
    inactiveLoginRequest inactiveUser rfl (by decide)⟩

/-- C22. For every token text for which `ValidateToken` returns an error,
`RefreshToken` returns no response and the error
`Unauthorized("invalid refresh token")`, of status code 401, whose text contains
"invalid refresh token", and makes no call to the user repository. -/
theorem RefreshToken_invalid_token (uc : AuthUseCase) (refreshToken : String) (err : GoError)
    (hreject : uc.jwtService.ValidateToken refreshToken = .error err) :
    (uc.RefreshToken refreshToken).ret = .error (Unauthorized "invalid refresh token") ∧
    Contains (Unauthorized "invalid refresh token").Error "invalid refresh token" = true ∧
    GetStatusCode (Unauthorized "invalid refresh token") = 401 ∧
    (Unauthorized "invalid refresh token").is .ErrUnauthorized = true ∧
    (uc.RefreshToken refreshToken).calls = [] := by
  have h : uc.RefreshToken refreshToken =
      ⟨.error (Unauthorized "invalid refresh token"), []⟩ := by
    unfold AuthUseCase.RefreshToken
    simp only [hreject]
  rw [h]
  exact ⟨rfl, by decide, rfl, rfl, rfl⟩

/-- C22, at the token of the test "invalid refresh token". -/
theorem RefreshToken_invalid_token_witness :
    ((authOf (none, none)).RefreshToken "invalid.token.here").ret
      = .error (Unauthorized "invalid refresh token") ∧
    Contains (Unauthorized "invalid refresh token").Error "invalid refresh token" = true ∧
    GetStatusCode (Unauthorized "invalid refresh token") = 401 ∧
    (Unauthorized "invalid refresh token").is .ErrUnauthorized = true ∧
    ((authOf (none, none)).RefreshToken "invalid.token.here").calls = [] :=
  RefreshToken_invalid_token (authOf (none, none)) "invalid.token.here"
    (.other "invalid token") rfl

/-! ## Lemmas on texts -/

/-- A list of characters starts with itself. -/
theorem startsWith_self (l : List Char) : startsWith l l = true := by
  induction l with
  | nil => rfl
  | cons a l ih => simp [startsWith, ih]

/-- What occurs in `l` occurs in `pre ++ l`. -/
theorem containsChars_append_right (sub pre l : List Char)
    (h : containsChars sub l = true) : containsChars sub (pre ++ l) = true := by
  induction pre with
  | nil => simpa using h
  | cons c pre ih => simp [containsChars, ih]

/-- What `t` contains, `s ++ t` contains. -/
theorem Contains_append_right (s t substr : String) (h : Contains t substr = true) :
    Contains (s ++ t) substr = true := by
  unfold Contains at h ⊢
  have happ : (s ++ t).toList = s.toList ++ t.toList := String.data_append s t
  rw [happ]
  exact containsChars_append_right _ _ _ h

/-! ## Properties of the student use case -/

/-- C23. For every request with a non-empty email for which `ExistsByEmail`
returns `(true, nil)`, `CreateStudent` returns no student and the error
"student with email <email> already exists", whose text contains
"already exists" whatever the email, and its only repository call is
`ExistsByEmail`: `Create` is not called. -/
theorem CreateStudent_email_exists (uc : studentUseCase) (enrolledAt : Time)
    (req : CreateStudentRequest) (hemail : req.Email ≠ "")
    (hexists : uc.repo.ExistsByEmail req.Email = (true, none)) :
    (uc.CreateStudent enrolledAt req).ret =
      .error (.other ("student with email " ++ req.Email ++ " already exists")) ∧
    Contains (GoError.other ("student with email " ++ req.Email ++ " already exists")).Error
      "already exists" = true ∧
    (uc.CreateStudent enrolledAt req).calls = [.existsByEmail req.Email] ∧
    (∀ s, StudentCall.create s ∉ (uc.CreateStudent enrolledAt req).calls) := by
  have h : uc.CreateStudent enrolledAt req =
      ⟨.error (.other ("student with email " ++ req.Email ++ " already exists")),
        [.existsByEmail req.Email]⟩ := by
    unfold studentUseCase.CreateStudent
    simp only [if_pos hemail, hexists, if_true]
  rw [h]
  refine ⟨rfl, ?_, rfl, by simp⟩
  exact Contains_append_right _ " already exists" _ (by decide)

/-- C23, at the request of the test `TestCreateStudent_EmailAlreadyExists`. -/
theorem CreateStudent_email_exists_witness :
    ((studentReposOf (true, none)).CreateStudent ⟨1000⟩ studentRequest).ret =
      .error (.other ("student with email " ++ studentRequest.Email ++ " already exists")) ∧
    Contains (GoError.other
      ("student with email " ++ studentRequest.Email ++ " already exists")).Error
      "already exists" = true ∧
    ((studentReposOf (true, none)).CreateStudent ⟨1000⟩ studentRequest).calls =
      [.existsByEmail studentRequest.Email] ∧
    (∀ s, StudentCall.create s ∉
      ((studentReposOf (true, none)).CreateStudent ⟨1000⟩ studentRequest).calls) :=
  CreateStudent_email_exists (studentReposOf (true, none)) ⟨1000⟩ studentRequest
    (by decide) rfl

/-- C24. For every request whose email is empty or for which `ExistsByEmail`
returns `(false, nil)`, and for which the repository's `Create` succeeds,
`CreateStudent` returns the student it handed to `Create`, as the repository left
it; with a repository that leaves the fields as handed, that student has status
"active" and the first name, last name, email, phone, date of birth, address and
institute of the request. -/
theorem CreateStudent_returns_request_fields (uc : studentUseCase) (enrolledAt : Time)
    (req : CreateStudentRequest) (stored : Student)
    (hfree : req.Email = "" ∨ uc.repo.ExistsByEmail req.Email = (false, none))
    (hcreate : uc.repo.Create (newStudent enrolledAt req) = .ok stored)
    (hkeep : keepsStudentFields (newStudent enrolledAt req) stored) :
    (uc.CreateStudent enrolledAt req).ret = .ok stored ∧
    StudentCall.create (newStudent enrolledAt req) ∈ (uc.CreateStudent enrolledAt req).calls ∧
    stored.Status = "active" ∧
    stored.FirstName = req.FirstName ∧ stored.LastName = req.LastName ∧
    stored.Email = req.Email ∧ stored.Phone = req.Phone ∧
    stored.DateOfBirth = req.DateOfBirth ∧ stored.Address = req.Address ∧
    stored.InstituteID = req.InstituteID := by
  obtain ⟨k1, k2, k3, k4, k5, k6, k7, k8⟩ := hkeep
  have hc : ∀ before, createStudent uc enrolledAt req before =
      ⟨.ok stored, before ++ [.create (newStudent enrolledAt req)]⟩ := by
    intro before
    unfold createStudent
    simp only [hcreate]
  have h : (uc.CreateStudent enrolledAt req).ret = .ok stored ∧
      StudentCall.create (newStudent enrolledAt req) ∈
        (uc.CreateStudent enrolledAt req).calls := by
    unfold studentUseCase.CreateStudent
    by_cases hempty : req.Email = ""
    · simp [hempty, hc]
    · rcases hfree with hf | hf
      · exact absurd hf hempty
      · simp [hempty, hf, hc]
  exact ⟨h.1, h.2, k8, k1, k2, k3, k4, k5, k6, k7⟩

/-- C24, at the request of the test `TestCreateStudent_Success`. -/
theorem CreateStudent_returns_request_fields_witness :
    ((studentReposOf (false, none)).CreateStudent ⟨1000⟩ studentRequest).ret =
      .ok studentStored ∧
    StudentCall.create (newStudent ⟨1000⟩ studentRequest) ∈
      ((studentReposOf (false, none)).CreateStudent ⟨1000⟩ studentRequest).calls ∧
    studentStored.Status = "active" ∧
    studentStored.FirstName = studentRequest.FirstName ∧
    studentStored.LastName = studentRequest.LastName ∧
    studentStored.Email = studentRequest.Email ∧
    studentStored.Phone = studentRequest.Phone ∧
    studentStored.DateOfBirth = studentRequest.DateOfBirth ∧
    studentStored.Address = studentRequest.Address ∧
    studentStored.InstituteID = studentRequest.InstituteID :=
  CreateStudent_returns_request_fields (studentReposOf (false, none)) ⟨1000⟩ studentRequest
    studentStored (Or.inr rfl) rfl ⟨rfl, rfl, rfl, rfl, rfl, rfl, rfl, rfl⟩

/-! ## The invoice that `AddPayment` hands to `Update` -/

/-- The status of the invoice handed to `Update` when the new paid amount has
not reached the total: `overdue` or `pending` when the new paid amount is above
0, and the status read otherwise. -/
theorem applyPayment_status_otherwise (clock : Clock) (inv : Invoice) (amount : F64)
    (h : ¬ (applyPayment clock inv amount).PaidAmount ≥
      (applyPayment clock inv amount).TotalAmount) :
    (applyPayment clock inv amount).Status = StatusPending ∨
    (applyPayment clock inv amount).Status = StatusOverdue ∨
    (applyPayment clock inv amount).Status = inv.Status := by
  rw [applyPayment_PaidAmount, applyPayment_TotalAmount] at h
  unfold applyPayment
  simp only
  split_ifs
  · exact Or.inr (Or.inl rfl)
  · exact Or.inl rfl
  · exact Or.inr (Or.inr rfl)

/-- What `applyPayment` leaves alone: every field but `PaidAmount`, `Status` and
`PaidAt`; and `PaidAt` is as read unless the status becomes `paid`, when it is
the clock reading. -/
theorem applyPayment_frame (clock : Clock) (inv : Invoice) (amount : F64) :
    applyPayment clock inv amount =
      { inv with
        PaidAmount := (applyPayment clock inv amount).PaidAmount
        Status := (applyPayment clock inv amount).Status
        PaidAt := (applyPayment clock inv amount).PaidAt } ∧
    ((applyPayment clock inv amount).PaidAt = inv.PaidAt ∨
      ((applyPayment clock inv amount).Status = StatusPaid ∧
        (applyPayment clock inv amount).PaidAmount ≥ (applyPayment clock inv amount).TotalAmount ∧
        (applyPayment clock inv amount).PaidAt = some clock.atPaidAt)) := by
  unfold applyPayment
  simp only
  split_ifs with h1 h2 h3
  · exact ⟨rfl, Or.inr ⟨rfl, h1, rfl⟩⟩
  · exact ⟨rfl, Or.inl rfl⟩
  · exact ⟨rfl, Or.inl rfl⟩
  · exact ⟨rfl, Or.inl rfl⟩

/-- C25. Every invoice that `AddPayment` hands to `Update` comes from an invoice
read that was not paid, holds as paid amount the paid amount read plus the amount
of the request, and has status `paid` exactly when that new paid amount is at
least the total; when it is not, the status is `pending`, `overdue` or the status
read. -/
theorem AddPayment_status_paid_iff_reached (uc : PaymentUseCase) (clock : Clock)
    (req : CreatePaymentRequest) (userID : UUID) (updated : Invoice)
    (h : Call.invoiceUpdate updated ∈ (AddPayment uc clock req userID).calls) :
    ∃ inv, uc.invoiceRepo.FindByID req.InvoiceID = .ok inv ∧
      inv.Status ≠ StatusPaid ∧
      updated.PaidAmount = inv.PaidAmount + req.Amount ∧
      updated.TotalAmount = inv.TotalAmount ∧
      (updated.Status = StatusPaid ↔ updated.PaidAmount ≥ updated.TotalAmount) ∧
      (¬ updated.PaidAmount ≥ updated.TotalAmount →
        updated.Status = StatusPending ∨ updated.Status = StatusOverdue ∨
          updated.Status = inv.Status) := by
  obtain ⟨inv, hfind, h1, _, _, hupd⟩ := AddPayment_update_call uc clock req userID updated h
  subst hupd
  exact ⟨inv, hfind, h1, applyPayment_PaidAmount clock inv req.Amount,
    applyPayment_TotalAmount clock inv req.Amount,
    applyPayment_status_paid_iff clock inv req.Amount h1,
    applyPayment_status_otherwise clock inv req.Amount⟩

/-- C25, at the payment of 400.00 on the invoice of 660.00 with nothing paid. -/
theorem AddPayment_status_paid_iff_reached_witness :
    ∃ inv, (reposOf invoice660).invoiceRepo.FindByID (requestOf (F64.ofRatio false 400 1)).InvoiceID
        = .ok inv ∧
      inv.Status ≠ StatusPaid ∧
      (applyPayment (clockAt 1000) invoice660 (F64.ofRatio false 400 1)).PaidAmount =
        inv.PaidAmount + (requestOf (F64.ofRatio false 400 1)).Amount ∧
      (applyPayment (clockAt 1000) invoice660 (F64.ofRatio false 400 1)).TotalAmount =
        inv.TotalAmount ∧
      ((applyPayment (clockAt 1000) invoice660 (F64.ofRatio false 400 1)).Status = StatusPaid ↔
        (applyPayment (clockAt 1000) invoice660 (F64.ofRatio false 400 1)).PaidAmount ≥
          (applyPayment (clockAt 1000) invoice660 (F64.ofRatio false 400 1)).TotalAmount) ∧
      (¬ (applyPayment (clockAt 1000) invoice660 (F64.ofRatio false 400 1)).PaidAmount ≥
          (applyPayment (clockAt 1000) invoice660 (F64.ofRatio false 400 1)).TotalAmount →
        (applyPayment (clockAt 1000) invoice660 (F64.ofRatio false 400 1)).Status = StatusPending ∨
        (applyPayment (clockAt 1000) invoice660 (F64.ofRatio false 400 1)).Status = StatusOverdue ∨
        (applyPayment (clockAt 1000) invoice660 (F64.ofRatio false 400 1)).Status = inv.Status) :=
  AddPayment_status_paid_iff_reached (reposOf invoice660) (clockAt 1000)
    (requestOf (F64.ofRatio false 400 1)) 7
    (applyPayment (clockAt 1000) invoice660 (F64.ofRatio false 400 1)) (by decide)

/-- C27. A call of `AddPayment` that returns a payment has handed to `Update` the
invoice read with only `PaidAmount`, `Status` and `PaidAt` possibly changed: the
total, the amount, the tax amount, the due date, the items, the student and the
institute are as read, as is every other field; and `PaidAt` differs from the one
read only when the new status is `paid`, when it is the clock reading. -/
theorem AddPayment_changes_only_payment_state (uc : PaymentUseCase) (clock : Clock)
    (req : CreatePaymentRequest) (userID : UUID) (p : Payment)
    (hok : (AddPayment uc clock req userID).ret = .ok p) :
    ∃ inv updated,
      uc.invoiceRepo.FindByID req.InvoiceID = .ok inv ∧
      (AddPayment uc clock req userID).calls =
        [.invoiceFindByID req.InvoiceID, .paymentCreate (newPayment clock req userID),
          .invoiceUpdate updated] ∧
      updated = { inv with
        PaidAmount := updated.PaidAmount, Status := updated.Status, PaidAt := updated.PaidAt } ∧
      updated.TotalAmount = inv.TotalAmount ∧ updated.Amount = inv.Amount ∧
      updated.TaxAmount = inv.TaxAmount ∧ updated.DueDate = inv.DueDate ∧
      updated.Items = inv.Items ∧ updated.StudentID = inv.StudentID ∧
      updated.InstituteID = inv.InstituteID ∧
      (updated.Status ≠ StatusPaid → updated.PaidAt = inv.PaidAt) ∧
      (updated.PaidAt ≠ inv.PaidAt →
        updated.Status = StatusPaid ∧ updated.PaidAt = some clock.atPaidAt) := by
  obtain ⟨inv, hfind, _, _, _, _, _, hcalls⟩ := AddPayment_ok_inv hok
  obtain ⟨hframe, hpaidAt⟩ := applyPayment_frame clock inv req.Amount
  refine ⟨inv, applyPayment clock inv req.Amount, hfind, hcalls, hframe, ?_, ?_, ?_, ?_, ?_, ?_,
    ?_, ?_, ?_⟩
  · rw [hframe]
  · rw [hframe]
  · rw [hframe]
  · rw [hframe]
  · rw [hframe]
  · rw [hframe]
  · rw [hframe]
  · intro hne
    rcases hpaidAt with h | ⟨h, _, _⟩
    · exact h
    · exact absurd h hne
  · intro hne
    rcases hpaidAt with h | ⟨h, _, h'⟩
    · exact absurd h hne
    · exact ⟨h, h'⟩

/-- C27, at the payment of 400.00 on the invoice of 660.00 with nothing paid. -/
theorem AddPayment_changes_only_payment_state_witness :
    ∃ inv updated,
      (reposOf invoice660).invoiceRepo.FindByID (requestOf (F64.ofRatio false 400 1)).InvoiceID
        = .ok inv ∧
      (AddPayment (reposOf invoice660) (clockAt 1000) (requestOf (F64.ofRatio false 400 1)) 7).calls =
        [.invoiceFindByID (requestOf (F64.ofRatio false 400 1)).InvoiceID,
          .paymentCreate (newPayment (clockAt 1000) (requestOf (F64.ofRatio false 400 1)) 7),
          .invoiceUpdate updated] ∧
      updated = { inv with
        PaidAmount := updated.PaidAmount, Status := updated.Status, PaidAt := updated.PaidAt } ∧
      updated.TotalAmount = inv.TotalAmount ∧ updated.Amount = inv.Amount ∧
      updated.TaxAmount = inv.TaxAmount ∧ updated.DueDate = inv.DueDate ∧
      updated.Items = inv.Items ∧ updated.StudentID = inv.StudentID ∧
      updated.InstituteID = inv.InstituteID ∧
      (updated.Status ≠ StatusPaid → updated.PaidAt = inv.PaidAt) ∧
      (updated.PaidAt ≠ inv.PaidAt →
        updated.Status = StatusPaid ∧ updated.PaidAt = some (clockAt 1000).atPaidAt) :=
  AddPayment_changes_only_payment_state (reposOf invoice660) (clockAt 1000)
    (requestOf (F64.ofRatio false 400 1)) 7 (paymentOf (F64.ofRatio false 400 1) 1000) rfl

/-! ## Properties of `GetStatusCode` -/

/-- C26. `GetStatusCode` gives 404 for `NotFound(m)`, 400 for `BadRequest(m)` and
409 for `Conflict(m)`, whatever the message; for an `*AppError` it gives the
`StatusCode` field; and it gives 500 for an error in which `errors.As` finds no
`*AppError` and `errors.Is` finds none of the package variables that it tests,
such as an error from elsewhere that wraps nothing. Both look through
`fmt.Errorf` wrappers, so a wrapped error has the code of the error it wraps. -/
theorem GetStatusCode_taxonomy :
    (∀ m, GetStatusCode (NotFound m) = 404 ∧ GetStatusCode (BadRequest m) = 400 ∧
      GetStatusCode (Conflict m) = 409) ∧
    (∀ Err Message StatusCode Details,
      GetStatusCode (.app Err Message StatusCode Details) = StatusCode) ∧
    (∀ text, GetStatusCode (.other text) = 500) ∧
    (∀ err, err.asAppError = none →
      err.is .ErrNotFound = false → err.is .ErrUnauthorized = false →
      err.is .ErrForbidden = false → err.is .ErrBadRequest = false →
      err.is .ErrValidation = false → err.is .ErrConflict = false →
      GetStatusCode err = 500) ∧
    (∀ text err, GetStatusCode (.wrapf text err) = GetStatusCode err) := by
  refine ⟨fun m => ⟨rfl, rfl, rfl⟩, fun _ _ _ _ => rfl, fun _ => rfl, ?_, fun _ _ => rfl⟩
  intro err ha h1 h2 h3 h4 h5 h6
  unfold GetStatusCode
  simp only [ha, h1, h2, h3, h4, h5, h6]
  rfl

/-- C26, at the message "invoice not found", at a validation error, at a lost
connection, and at a wrapped `ErrInvalidCredentials` and a wrapped `NotFound`. -/
theorem GetStatusCode_taxonomy_witness :
    (GetStatusCode (NotFound "invoice not found") = 404 ∧
      GetStatusCode (BadRequest "invoice not found") = 400 ∧
      GetStatusCode (Conflict "invoice not found") = 409) ∧
    GetStatusCode (.app (.sentinel .ErrValidation) "validation failed" 400 [("email", "required")])
      = 400 ∧
    GetStatusCode (.other "connection lost") = 500 ∧
    GetStatusCode (.wrapf "failed to find user" (.sentinel .ErrInvalidCredentials)) = 500 ∧
    GetStatusCode (.wrapf "failed to find user" (NotFound "user not found")) =
      GetStatusCode (NotFound "user not found") :=
  ⟨GetStatusCode_taxonomy.1 "invoice not found",
    GetStatusCode_taxonomy.2.1 (.sentinel .ErrValidation) "validation failed" 400
      [("email", "required")],
    GetStatusCode_taxonomy.2.2.1 "connection lost",
    GetStatusCode_taxonomy.2.2.2.1 (.wrapf "failed to find user" (.sentinel .ErrInvalidCredentials))
      rfl rfl rfl rfl rfl rfl rfl,
    GetStatusCode_taxonomy.2.2.2.2 "failed to find user" (NotFound "user not found")⟩

/-! ## Properties of `MarkAsPaid` -/

/-- C28. `MarkAsPaid` returns `NotFound("invoice not found")` when `FindByID`
fails and `BadRequest("invoice already paid")` when the invoice read has status
`paid`, in both cases with `FindByID` as its only repository call; for every other
status, whatever the paid amount, it calls the repository's `MarkAsPaid` and
returns nil when that succeeds, and the error wrapped when it fails. -/
theorem MarkAsPaid_paths (uc : InvoiceUseCase) (id : UUID) :
    (∀ err, uc.repo.FindByID id = .error err →
      uc.MarkAsPaid id = ⟨some (NotFound "invoice not found"), [.findByID id]⟩) ∧
    (∀ inv, uc.repo.FindByID id = .ok inv → inv.Status = StatusPaid →
      uc.MarkAsPaid id = ⟨some (BadRequest "invoice already paid"), [.findByID id]⟩) ∧
    (∀ inv, uc.repo.FindByID id = .ok inv → inv.Status ≠ StatusPaid →
      uc.repo.MarkAsPaid id = none →
      uc.MarkAsPaid id = ⟨none, [.findByID id, .markAsPaid id]⟩) ∧
    (∀ inv err, uc.repo.FindByID id = .ok inv → inv.Status ≠ StatusPaid →
      uc.repo.MarkAsPaid id = some err →
      uc.MarkAsPaid id =
        ⟨some (.wrapf "failed to mark invoice as paid" err), [.findByID id, .markAsPaid id]⟩) ∧
    GetStatusCode (NotFound "invoice not found") = 404 ∧
    GetStatusCode (BadRequest "invoice already paid") = 400 ∧
    (∀ i, InvoiceCall.markAsPaid i ∉ [InvoiceCall.findByID id]) := by
  refine ⟨?_, ?_, ?_, ?_, rfl, rfl, by simp⟩
  · intro err h
    unfold InvoiceUseCase.MarkAsPaid
    simp only [h]
  · intro inv h hs
    unfold InvoiceUseCase.MarkAsPaid
    simp only [h, if_pos hs]
  · intro inv h hs hm
    unfold InvoiceUseCase.MarkAsPaid
    simp only [h, if_neg hs, hm]
  · intro inv err h hs hm
    unfold InvoiceUseCase.MarkAsPaid
    simp only [h, if_neg hs, hm]

/-- C28, at a repository without the invoice, at the paid invoice, at the
canceled invoice with nothing paid and at the pending invoice of 660.00 of which
100.00 is paid. -/
theorem MarkAsPaid_paths_witness :
    invoiceReposNone.MarkAsPaid 1 = ⟨some (NotFound "invoice not found"), [.findByID 1]⟩ ∧
    (invoiceReposOf invoicePaid).MarkAsPaid 1 =
      ⟨some (BadRequest "invoice already paid"), [.findByID 1]⟩ ∧
    invoiceCanceled.Status = StatusCanceled ∧
    (invoiceReposOf invoiceCanceled).MarkAsPaid 1 = ⟨none, [.findByID 1, .markAsPaid 1]⟩ ∧
    invoice660paid100.PaidAmount < invoice660paid100.TotalAmount ∧
    (invoiceReposOf invoice660paid100).MarkAsPaid 1 = ⟨none, [.findByID 1, .markAsPaid 1]⟩ :=
  ⟨(MarkAsPaid_paths invoiceReposNone 1).1 ErrRecordNotFound rfl,
    (MarkAsPaid_paths (invoiceReposOf invoicePaid) 1).2.1 invoicePaid rfl rfl,
    rfl,
    (MarkAsPaid_paths (invoiceReposOf invoiceCanceled) 1).2.2.1 invoiceCanceled rfl
      (by decide) rfl,
    by decide,
    (MarkAsPaid_paths (invoiceReposOf invoice660paid100) 1).2.2.1 invoice660paid100 rfl
      (by decide) rfl⟩

/-! ## Properties of the expense use case -/

/-- C29. For every expense read with a status other than `pending`, `Approve`,
`Reject` and `Update` each return a `BadRequest` error, of status code 400, and
the only repository call they make is the `FindByID` that reads the expense: the
repository's `Approve`, `Reject` and `Update` are not called, so an approved or a
rejected expense is not approved, rejected or edited again. -/
theorem Expense_not_pending_rejected (uc : ExpenseUseCase) (id : UUID) (exp : Expense)
    (hfound : uc.repo.FindByID id = (some exp, none))
    (hstatus : exp.Status ≠ Expense.StatusPending) :
    (∀ approvedBy, uc.Approve id approvedBy =
      ⟨.error (BadRequest "only pending expenses can be approved"), [.findByID id]⟩) ∧
    (∀ rejectedBy, uc.Reject id rejectedBy =
      ⟨.error (BadRequest "only pending expenses can be rejected"), [.findByID id]⟩) ∧
    (∀ updatedAt req, uc.Update updatedAt id req =
      ⟨.error (BadRequest "only pending expenses can be updated"), [.findByID id]⟩) ∧
    GetStatusCode (BadRequest "only pending expenses can be approved") = 400 ∧
    GetStatusCode (BadRequest "only pending expenses can be rejected") = 400 ∧
    GetStatusCode (BadRequest "only pending expenses can be updated") = 400 ∧
    (∀ call, call ∈ [ExpenseCall.findByID id] → call = .findByID id) := by
  refine ⟨?_, ?_, ?_, rfl, rfl, rfl, by simp⟩
  · intro approvedBy
    unfold ExpenseUseCase.Approve
    simp only [hfound, if_pos hstatus]
  · intro rejectedBy
    unfold ExpenseUseCase.Reject
    simp only [hfound, if_pos hstatus]
  · intro updatedAt req
    unfold ExpenseUseCase.Update
    simp only [hfound, if_pos hstatus]

/-- C29, at the rejected expense. -/
theorem Expense_not_pending_rejected_witness :
    (∀ approvedBy, (expenseReposOf (expenseOf Expense.StatusRejected)).Approve 1 approvedBy =
      ⟨.error (BadRequest "only pending expenses can be approved"), [.findByID 1]⟩) ∧
    (∀ rejectedBy, (expenseReposOf (expenseOf Expense.StatusRejected)).Reject 1 rejectedBy =
      ⟨.error (BadRequest "only pending expenses can be rejected"), [.findByID 1]⟩) ∧
    (∀ updatedAt req, (expenseReposOf (expenseOf Expense.StatusRejected)).Update updatedAt 1 req =
      ⟨.error (BadRequest "only pending expenses can be updated"), [.findByID 1]⟩) ∧
    GetStatusCode (BadRequest "only pending expenses can be approved") = 400 ∧
    GetStatusCode (BadRequest "only pending expenses can be rejected") = 400 ∧
    GetStatusCode (BadRequest "only pending expenses can be updated") = 400 ∧
    (∀ call, call ∈ [ExpenseCall.findByID 1] → call = .findByID 1) :=
  Expense_not_pending_rejected (expenseReposOf (expenseOf Expense.StatusRejected)) 1
    (expenseOf Expense.StatusRejected) rfl (by decide)

/-! ## Properties of the package use case -/

/-- C30. For every request with at least one course identifier whose code is
not taken and for which `Create` succeeds, `CreatePackage` reloads the package
with `GetByID`; when `GetByID` returns a nil package, as the repository of
`repository/postgres` does whenever its query fails, `CreatePackage` reads `p.ID`
through that nil pointer and panics, whatever `uuid.Parse` and `AddCourse` return;
when `GetByID` returns a package, `CreatePackage` returns it with a nil error. -/
theorem CreatePackage_reload_nil_panics (uc : packageUseCase) (parse : String → Option UUID)
    (req : CreatePackageRequest) (stored : Package)
    (hcourses : req.CourseIDs ≠ [])
    (hcode : (uc.repo.GetByCode req.Code).2 ≠ none ∨ (uc.repo.GetByCode req.Code).1 = none)
    (hcreate : uc.repo.Create (newPackage req) = .ok stored) :
    PackageCall.getByID stored.ID ∈ (uc.CreatePackage parse req).calls ∧
    ((uc.repo.GetByID stored.ID).1 = none →
      (uc.CreatePackage parse req).ret = .nilPointerPanic) ∧
    (∀ reloaded, (uc.repo.GetByID stored.ID).1 = some reloaded →
      (uc.CreatePackage parse req).ret = .ok reloaded) := by
  have hfree : ((uc.repo.GetByCode req.Code).2.isNone &&
      (uc.repo.GetByCode req.Code).1.isSome) = false := by
    rcases hcode with h | h
    · cases h2 : (uc.repo.GetByCode req.Code).2 with
      | none => exact absurd h2 h
      | some e => rfl
    · rw [h]; simp
  have hlen : req.CourseIDs.length > 0 := List.length_pos.mpr hcourses
  unfold packageUseCase.CreatePackage
  simp only [hfree, hcreate, if_pos hlen, Bool.false_eq_true, if_false]
  refine ⟨?_, ?_, ?_⟩
  · cases (uc.repo.GetByID stored.ID).1 <;> simp
  · intro h
    simp only [h]
  · intro reloaded h
    simp only [h]

/-- C30, at a request with one course whose reload fails with
`gorm.ErrRecordNotFound`: the repository calls are made up to `GetByID`, and the
call panics. -/
theorem CreatePackage_reload_nil_panics_witness :
    PackageCall.getByID 21 ∈
      ((packageReposOf (none, some ErrRecordNotFound)).CreatePackage parseStub
        packageRequest).calls ∧
    ((packageReposOf (none, some ErrRecordNotFound)).CreatePackage parseStub
      packageRequest).ret = .nilPointerPanic ∧
    ((packageReposOf (none, some ErrRecordNotFound)).CreatePackage parseStub
      packageRequest).calls =
      [.getByCode "PKG-1", .create (newPackage packageRequest), .addCourse 21 31, .getByID 21] :=
  have h := CreatePackage_reload_nil_panics (packageReposOf (none, some ErrRecordNotFound))
    parseStub packageRequest { newPackage packageRequest with ID := 21 } (by decide)
    (Or.inr rfl) rfl
  ⟨h.1, h.2.1 rfl, rfl⟩


end Chalak
